import Mathlib

/-!
# Goozing: a shallow embedding of `gooz.h`

The C type `double` is embedded as an arbitrary linearly ordered field `α`
with a floor function (`ℚ` for evaluation, `ℝ` for the statements about
reals), so every arithmetic operation is exact.  `size_t` and `int` values
are embedded as `Nat`/`Int` without wrap-around: the conversions
`(size_t)f` and the loop counters of the source are value preserving on
every input that fits the machine types, and leave the C semantics when it
does not.  `compute_nbr_pass_size_t` is `compute_nbr_pass` with the
conversions to `size_t` carried out on 64 bits.
-/

set_option autoImplicit false

namespace Gooz

/-! ## Data model -/

/-- The C struct `GoozPrintSettings`. -/
structure GoozPrintSettings (α : Type) where
  nozzle_diameter : α
  filament_diameter : α
  layer_height : α
  print_speed : Int
  travel_speed : Int
  print_width_ratio : α
  oozing_ratio : α
  oozing_z_security : α
  temp_nozzle : Int
  temp_bed : Int
  build_width : α
  build_depth : α
  build_height : α

/-- The C enum `GoozFormType`. -/
inductive GoozFormType where
  | FORM_CUBE
  | FORM_CYLINDER
  deriving DecidableEq, Repr

/-- The anonymous union `shape` of `GoozForm`: either `cube.side` or
`cylinder.radius`, `cylinder.height`. -/
inductive GoozShape (α : Type) where
  | cube (side : α)
  | cylinder (radius height : α)
  deriving DecidableEq, Repr

/-- The anonymous struct `state` of `GoozForm`. -/
structure GoozFormState (α : Type) where
  idx_key : Nat
  cur_layer : Nat
  tot_layer : Nat
  height_layer : α
  deriving DecidableEq, Repr

/-- The C struct `GoozForm`. -/
structure GoozForm (α : Type) where
  x : α
  y : α
  type : GoozFormType
  shape : GoozShape α
  state : GoozFormState α
  deriving DecidableEq, Repr

section Planner

variable {α : Type} [LinearOrderedField α] [FloorRing α]

/-- The function `check_within_build` (gooz.h 93-104); `true` is the C
value 1 and `false` the C value 0. -/
def check_within_build (ps : GoozPrintSettings α) (x y w h : α) : Bool :=
  if w < 0 ∨ h < 0 then false
  else if x - w < 0 ∨ y - w < 0 then false
  else if x + w > ps.build_width ∨ y + w > ps.build_depth then false
  else if h > ps.build_height then false
  else true

/-- The function `compute_nbr_pass` (gooz.h 106-118).  The local `f` holds
`floor(ideal_count)`, an integer valued double, kept here as an `Int`.  The
conversions `(size_t)f` and `(size_t)(f + 1.0)` are taken on values that fit
`size_t`; `compute_nbr_pass_size_t` carries them out on 64 bits. -/
def compute_nbr_pass (total_size ideal_size : α) : Nat :=
  if total_size ≤ 0 ∨ ideal_size ≤ 0 then 1
  else
    let ideal_count := total_size / ideal_size
    let f : Int := Int.floor ideal_count
    if f < 1 then 1
    else
      let err_down := total_size / (f : α) - ideal_size
      let err_up := ideal_size - total_size / ((f : α) + 1)
      if err_down < err_up then f.toNat else (f + 1).toNat

/-- The conversion `(size_t)v` of a `double` that holds the whole number `v`
(gooz.h 117), `size_t` having 64 bits.  A value of `[0, 2 ^ 64)` converts to
itself.  For a value outside of it the C standard leaves the behaviour
undefined; `out_of_range v` stands for what the compiled program then
returns (the conversion sequence of x86-64 returns 0 for the values from
`2 ^ 64` on). -/
def size_t_of_double (out_of_range : Int → Nat) (v : Int) : Nat :=
  if 0 ≤ v ∧ v < 2 ^ 64 then v.toNat else out_of_range v

/-- The function `compute_nbr_pass` (gooz.h 106-118) with the two
conversions to `size_t` of its last line carried out on 64 bits.  The
arithmetic on `double` is exact, as in `compute_nbr_pass`. -/
def compute_nbr_pass_size_t (out_of_range : Int → Nat) (total_size ideal_size : α) : Nat :=
  if total_size ≤ 0 ∨ ideal_size ≤ 0 then 1
  else
    let ideal_count := total_size / ideal_size
    let f : Int := Int.floor ideal_count
    if f < 1 then 1
    else
      let err_down := total_size / (f : α) - ideal_size
      let err_up := ideal_size - total_size / ((f : α) + 1)
      if err_down < err_up then size_t_of_double out_of_range f
      else size_t_of_double out_of_range (f + 1)

end Planner

/-! ## The shape registry -/

/-- The C struct `GoozState`.  `forms` is the content of the buffer that
`state.forms` points to: one entry per allocated slot (`capacity` of them),
the first `nbr_forms` of which are the registered shapes. -/
structure GoozState (α : Type) where
  forms : List (GoozForm α)
  nbr_forms : Nat
  capacity : Nat
  deriving DecidableEq, Repr

/-- The initialiser `{NULL, 0, 0}` of the global `state`. -/
def GoozState.init {α : Type} : GoozState α :=
  { forms := [], nbr_forms := 0, capacity := 0 }

section Registry

variable {α : Type} [LinearOrderedField α] [FloorRing α]

/-- Content of a slot that `realloc` has allocated and the program has not
written yet.  C leaves it indeterminate; the program never reads it. -/
def GoozForm.blank : GoozForm α :=
  { x := 0, y := 0, type := GoozFormType.FORM_CUBE, shape := GoozShape.cube 0,
    state := { idx_key := 0, cur_layer := 0, tot_layer := 0, height_layer := 0 } }

/-- The function `ensure_capacity` (gooz.h 81-91).  `realloc_ok` tells
whether `realloc` returns a non-NULL pointer if it is called.  The result
is the returned `int` and the global `state` after the call. -/
def ensure_capacity (realloc_ok : Bool) (st : GoozState α) (extra : Nat) :
    Int × GoozState α :=
  if st.nbr_forms + extra > st.capacity then
    let new_cap := if st.capacity = 0 then 8 else st.capacity * 2
    if realloc_ok = false then (-1, st)
    else
      (0, { st with
              forms := st.forms ++ List.replicate (new_cap - st.capacity) GoozForm.blank,
              capacity := new_cap })
  else (0, st)

/-- The function `gooz_add_cube` (gooz.h 120-136): the returned `int` and
the global `state` after the call. -/
def gooz_add_cube (ps : GoozPrintSettings α) (realloc_ok : Bool) (st : GoozState α)
    (x y size : α) : Int × GoozState α :=
  if check_within_build ps x y (size / 2) size = false then (-1, st)
  else
    let r := ensure_capacity realloc_ok st 1
    if r.1 ≠ 0 then (-2, r.2)
    else
      let nbr_layers := compute_nbr_pass size ps.layer_height
      let f : GoozForm α :=
        { x := x, y := y, type := GoozFormType.FORM_CUBE, shape := GoozShape.cube size,
          state := { idx_key := r.2.nbr_forms, cur_layer := 0, tot_layer := nbr_layers,
                     height_layer := size / (nbr_layers : α) } }
      (0, { r.2 with forms := r.2.forms.set r.2.nbr_forms f,
                     nbr_forms := r.2.nbr_forms + 1 })

/-- The function `gooz_add_cylinder` (gooz.h 138-155). -/
def gooz_add_cylinder (ps : GoozPrintSettings α) (realloc_ok : Bool) (st : GoozState α)
    (x y radius height : α) : Int × GoozState α :=
  if check_within_build ps x y radius height = false then (-1, st)
  else
    let r := ensure_capacity realloc_ok st 1
    if r.1 ≠ 0 then (-2, r.2)
    else
      let nbr_layers := compute_nbr_pass height ps.layer_height
      let f : GoozForm α :=
        { x := x, y := y, type := GoozFormType.FORM_CYLINDER,
          shape := GoozShape.cylinder radius height,
          state := { idx_key := r.2.nbr_forms, cur_layer := 0, tot_layer := nbr_layers,
                     height_layer := height / (nbr_layers : α) } }
      (0, { r.2 with forms := r.2.forms.set r.2.nbr_forms f,
                     nbr_forms := r.2.nbr_forms + 1 })

/-- The function `gooz_free` (gooz.h 157-161). -/
def gooz_free (_st : GoozState α) : GoozState α :=
  { forms := [], nbr_forms := 0, capacity := 0 }

/-- The registered shapes: the slots `0 .. nbr_forms - 1` of the buffer. -/
def GoozState.stored (st : GoozState α) : List (GoozForm α) :=
  st.forms.take st.nbr_forms

end Registry

/-! ## The layer scheduler

The path generators (`add_cube_perimeter`, `add_cube_infill_spiral_inward`,
`add_cylinder_perimeter`) take the shape by pointer and only read it: they
write to the output stream and to `nozzle_state`, never to `state`.  The
scheduler is therefore embedded as a function from the registry and the
values returned by `rand()` to the registry after the run and the ordered
list of the calls it makes on the output stream. -/

/-- The path generators that `gooz_generate_gcode` calls. -/
inductive GoozGenerator where
  | add_cube_perimeter
  | add_cube_infill_spiral_inward
  | add_cylinder_perimeter
  deriving DecidableEq, Repr

/-- One pass through the `switch` of `gooz_generate_gcode`: the value of the
outer counter `l`, the slot of `state.forms` that `cur_form` points to, the
content of `*cur_form` at that moment, and the generators called on it, in
order. -/
structure GoozDispatch (α : Type) where
  l : Nat
  slot : Nat
  form : GoozForm α
  calls : List GoozGenerator
  deriving DecidableEq, Repr

/-- What `gooz_generate_gcode` does with the output stream, in order. -/
inductive GoozOut (α : Type) where
  | emit_startup
  | dispatch (d : GoozDispatch α)
  | emit_shutdown
  deriving DecidableEq, Repr

/-- The variables of `gooz_generate_gcode` that live across iterations:
the global `state`, the buffer `active_idxs`, `nbr_active_forms`, the number
of calls made to `rand()` so far and the output so far. -/
structure GoozSched (α : Type) where
  st : GoozState α
  active_idxs : List Nat
  nbr_active_forms : Nat
  rand_calls : Nat
  out : List (GoozOut α)

/-- The function `range` (gooz.h 504-510): the content of the returned
buffer.  The source does not test the result of `malloc`; the allocation is
taken to succeed. -/
def range (min max : Nat) : List Nat :=
  (List.range (max - min)).map (fun i => i + min)

section Scheduler

variable {α : Type}

/-- The loop of `get_form_idx` over the slots not yet inspected, `i` being
the index of the first of them. -/
def get_form_idx_from : List (GoozForm α) → Nat → Nat → Option Nat
  | [], _, _ => none
  | f :: fs, i, idx =>
    if f.state.idx_key = idx then some i else get_form_idx_from fs (i + 1) idx

/-- The function `get_form_idx` (gooz.h 512-519).  The returned pointer
`&state.forms[i]` is the slot number `i`; `none` is `NULL`. -/
def get_form_idx (st : GoozState α) (idx : Nat) : Option Nat :=
  get_form_idx_from (st.forms.take st.nbr_forms) 0 idx

/-- The first loop of `gooz_generate_gcode` (gooz.h 524-529). -/
def max_nbr_layers (st : GoozState α) : Nat :=
  (st.forms.take st.nbr_forms).foldl
    (fun m f => if f.state.tot_layer > m then f.state.tot_layer else m) 0

/-- The statement `++cur_form->state.cur_layer` on a shape. -/
def GoozForm.incr_cur_layer (f : GoozForm α) : GoozForm α :=
  { f with state := { f.state with cur_layer := f.state.cur_layer + 1 } }

/-- The `switch (cur_form->type)` of `gooz_generate_gcode` (gooz.h 546-559). -/
def dispatch_calls : GoozFormType → List GoozGenerator
  | GoozFormType.FORM_CUBE =>
    [GoozGenerator.add_cube_perimeter, GoozGenerator.add_cube_infill_spiral_inward]
  | GoozFormType.FORM_CYLINDER => [GoozGenerator.add_cylinder_perimeter]

/-- The body of the inner loop of `gooz_generate_gcode` (gooz.h 535-559) for
the values `l` and `i` of the two counters.  `rand n` is the value returned
by the `n`-th call of `rand()`.  The result is `none` when the C program
leaves the defined behaviour: a read outside `active_idxs` or `state.forms`,
or a NULL `cur_form`. -/
def sched_visit (rand : Nat → Nat) (l i : Nat) (s : GoozSched α) : Option (GoozSched α) :=
  match s.active_idxs[i]? with
  | none => none
  | some temp_val =>
    let rand_idx := rand s.rand_calls % (i + 1)
    match s.active_idxs[rand_idx]? with
    | none => none
    | some v =>
      let a := (s.active_idxs.set i v).set rand_idx temp_val
      match a[i]? with
      | none => none
      | some key =>
        match get_form_idx s.st key with
        | none => none
        | some p =>
          match s.st.forms[p]? with
          | none => none
          | some cur =>
            let cur_form := cur.incr_cur_layer
            let st1 : GoozState α := { s.st with forms := s.st.forms.set p cur_form }
            if cur_form.state.cur_layer > cur_form.state.tot_layer then
              -- `--nbr_active_forms` on 0 wraps around and the read is out of bounds
              if s.nbr_active_forms = 0 then none
              else
                match a[s.nbr_active_forms - 1]? with
                | none => none
                | some last =>
                  some { st := st1, active_idxs := a.set i last,
                         nbr_active_forms := s.nbr_active_forms - 1,
                         rand_calls := s.rand_calls + 1, out := s.out }
            else
              some { st := st1, active_idxs := a, nbr_active_forms := s.nbr_active_forms,
                     rand_calls := s.rand_calls + 1,
                     out := s.out ++ [GoozOut.dispatch
                       { l := l, slot := p, form := cur_form,
                         calls := dispatch_calls cur_form.type }] }

/-- The inner loop `for (int i = nbr_active_forms - 1; i >= 0; --i)`; the
first argument is `i + 1`, the number of iterations still to run. -/
def sched_round_from (rand : Nat → Nat) (l : Nat) : Nat → GoozSched α → Option (GoozSched α)
  | 0, s => some s
  | i + 1, s =>
    match sched_visit rand l i s with
    | none => none
    | some s1 => sched_round_from rand l i s1

/-- One iteration of the outer loop: the whole inner loop for round `l`. -/
def sched_round (rand : Nat → Nat) (l : Nat) (s : GoozSched α) : Option (GoozSched α) :=
  sched_round_from rand l s.nbr_active_forms s

/-- The outer loop `for (int l = 1; l <= max_nbr_layers; ++l)`; the first
argument is the number of iterations still to run, `max_nbr_layers - l + 1`. -/
def sched_layers (rand : Nat → Nat) : Nat → Nat → GoozSched α → Option (GoozSched α)
  | 0, _, s => some s
  | n + 1, l, s =>
    match sched_round rand l s with
    | none => none
    | some s1 => sched_layers rand n (l + 1) s1

/-- The state of the scheduler when the outer loop is entered. -/
def sched_init (st : GoozState α) : GoozSched α :=
  { st := st, active_idxs := range 0 st.nbr_forms, nbr_active_forms := st.nbr_forms,
    rand_calls := 0, out := [GoozOut.emit_startup] }

/-- The function `gooz_generate_gcode` (gooz.h 521-565): the global `state`
after the call and the calls made on the output stream, or `none` when the
run leaves the defined behaviour of C. -/
def gooz_generate_gcode (rand : Nat → Nat) (st : GoozState α) :
    Option (GoozState α × List (GoozOut α)) :=
  match sched_layers rand (max_nbr_layers st) 1 (sched_init st) with
  | none => none
  | some s => some (s.st, s.out ++ [GoozOut.emit_shutdown])

/-- The argument of the call `get_form_idx(active_idxs[i])` (gooz.h 540) in
the iteration `i` of the inner loop entered in state `s`: the entry `i` of
`active_idxs` after the exchange of lines 535-538.  The result is `none` when
one of the reads is outside `active_idxs`. -/
def sched_lookup_key (rand : Nat → Nat) (i : Nat) (s : GoozSched α) : Option Nat :=
  match s.active_idxs[i]? with
  | none => none
  | some temp_val =>
    let rand_idx := rand s.rand_calls % (i + 1)
    match s.active_idxs[rand_idx]? with
    | none => none
    | some v => ((s.active_idxs.set i v).set rand_idx temp_val)[i]?

/-- The iterations of the inner loop that are entered, in order: for each
one the round `l`, the counter `i` and the state in which the body is
entered.  The first argument is `i + 1`, as in `sched_round_from`; the list
stops after an iteration that leaves the defined behaviour. -/
def sched_round_from_visits (rand : Nat → Nat) (l : Nat) :
    Nat → GoozSched α → List (Nat × Nat × GoozSched α)
  | 0, _ => []
  | i + 1, s =>
    (l, i, s) ::
      match sched_visit rand l i s with
      | none => []
      | some s1 => sched_round_from_visits rand l i s1

/-- The iterations of the inner loop entered during the outer loop, in
order; the arguments are those of `sched_layers`. -/
def sched_layers_visits (rand : Nat → Nat) :
    Nat → Nat → GoozSched α → List (Nat × Nat × GoozSched α)
  | 0, _, _ => []
  | n + 1, l, s =>
    sched_round_from_visits rand l s.nbr_active_forms s ++
      match sched_round rand l s with
      | none => []
      | some s1 => sched_layers_visits rand n (l + 1) s1

/-- The iterations of the inner loop entered during a call of
`gooz_generate_gcode`: each one makes one call of `get_form_idx`. -/
def generate_visits (rand : Nat → Nat) (st : GoozState α) :
    List (Nat × Nat × GoozSched α) :=
  sched_layers_visits rand (max_nbr_layers st) 1 (sched_init st)

/-- The dispatches made on slot `k`, in order, as pairs of the round `l` and
the shape passed to the generators. -/
def dispatches_of (k : Nat) : List (GoozOut α) → List (Nat × GoozForm α)
  | [] => []
  | GoozOut.dispatch d :: rest =>
    if d.slot = k then (d.l, d.form) :: dispatches_of k rest else dispatches_of k rest
  | _ :: rest => dispatches_of k rest

/-- The shape `f` with its `cur_layer` set to `c`. -/
def GoozForm.at_layer (f : GoozForm α) (c : Nat) : GoozForm α :=
  { f with state := { f.state with cur_layer := c } }

end Scheduler

/-! ## Reachable registries and the properties stated about them -/

section Reach

variable {α : Type} [LinearOrderedField α] [FloorRing α]

/-- The registries obtained from the initial one by calls of `gooz_add_cube`,
`gooz_add_cylinder` (whatever they return) and `gooz_free`, under the fixed
print settings `ps`. -/
inductive Registered (ps : GoozPrintSettings α) : GoozState α → Prop where
  | init : Registered ps GoozState.init
  | add_cube (realloc_ok : Bool) (x y size : α) {st : GoozState α} :
      Registered ps st → Registered ps (gooz_add_cube ps realloc_ok st x y size).2
  | add_cylinder (realloc_ok : Bool) (x y radius height : α) {st : GoozState α} :
      Registered ps st → Registered ps (gooz_add_cylinder ps realloc_ok st x y radius height).2
  | free {st : GoozState α} : Registered ps st → Registered ps (gooz_free st)

/-- The registries obtained from the initial one by calls of the whole public
interface: registration, `gooz_free` and `gooz_generate_gcode`. -/
inductive Reachable (ps : GoozPrintSettings α) : GoozState α → Prop where
  | init : Reachable ps GoozState.init
  | add_cube (realloc_ok : Bool) (x y size : α) {st : GoozState α} :
      Reachable ps st → Reachable ps (gooz_add_cube ps realloc_ok st x y size).2
  | add_cylinder (realloc_ok : Bool) (x y radius height : α) {st : GoozState α} :
      Reachable ps st → Reachable ps (gooz_add_cylinder ps realloc_ok st x y radius height).2
  | free {st : GoozState α} : Reachable ps st → Reachable ps (gooz_free st)
  | generate (rand : Nat → Nat) {st st1 : GoozState α} {out : List (GoozOut α)} :
      Reachable ps st → gooz_generate_gcode rand st = some (st1, out) → Reachable ps st1

/-- Half of the side of the bounding square of a shape: `side / 2` for a
cube, `radius` for a cylinder. -/
def GoozForm.half (f : GoozForm α) : α :=
  match f.shape with
  | GoozShape.cube side => side / 2
  | GoozShape.cylinder radius _ => radius

/-- The height of a shape: `side` for a cube, `height` for a cylinder. -/
def GoozForm.height (f : GoozForm α) : α :=
  match f.shape with
  | GoozShape.cube side => side
  | GoozShape.cylinder _ height => height

/-- The shape lies inside the build volume of the settings `ps`. -/
def GoozForm.inside_build (ps : GoozPrintSettings α) (f : GoozForm α) : Prop :=
  0 ≤ f.x - f.half ∧ f.x + f.half ≤ ps.build_width ∧
  0 ≤ f.y - f.half ∧ f.y + f.half ≤ ps.build_depth ∧
  0 ≤ f.height ∧ f.height ≤ ps.build_height

/-- The shape's layers tile its height: at least one layer, and
`tot_layer * height_layer` is the height. -/
def GoozForm.tiled (f : GoozForm α) : Prop :=
  1 ≤ f.state.tot_layer ∧ (f.state.tot_layer : α) * f.state.height_layer = f.height

/-- Well-formedness of a registry: the buffer has `capacity` slots, of which
the first `nbr_forms` are in use; the key of a registered shape is its slot
number; the registered shapes lie in the build volume and are tiled by their
layers. -/
structure GoozState.WF (ps : GoozPrintSettings α) (st : GoozState α) : Prop where
  len : st.forms.length = st.capacity
  le : st.nbr_forms ≤ st.capacity
  key : ∀ (i : Nat) (f : GoozForm α), st.stored[i]? = some f → f.state.idx_key = i
  inside : ∀ f, f ∈ st.stored → f.inside_build ps
  tiled : ∀ f, f ∈ st.stored → f.tiled

/-- No registered shape has received a layer yet. -/
def GoozState.fresh (st : GoozState α) : Prop :=
  ∀ f, f ∈ st.stored → f.state.cur_layer = 0

/-- What every state of the scheduler satisfies during a run on a registry
of `n` shapes: the registry stays well formed with `n` shapes, `active_idxs`
has `n` entries, all of them slot numbers, and at most `n` are active. -/
structure SchedSafe (ps : GoozPrintSettings α) (n : Nat) (s : GoozSched α) : Prop where
  wf : s.st.WF ps
  nbr : s.st.nbr_forms = n
  alen : s.active_idxs.length = n
  abound : ∀ (j k : Nat), s.active_idxs[j]? = some k → k < n
  m_le : s.nbr_active_forms ≤ n

/-- Where the entry read at position `j` after the exchange of the entries
`i` and `r` of `active_idxs` stood before it. -/
def swap_pos (i r j : Nat) : Nat :=
  if j = r then i else if j = i then r else j

/-- Where the entry read at position `j` after the compaction
`active_idxs[i] = active_idxs[last]` stood before it. -/
def compact_pos (i last j : Nat) : Nat :=
  if j = i then last else j

/-- The layers `1 .. c` of the shape `f`, as the scheduler dispatches them:
the round together with the shape passed to the generators. -/
def layers_upto (f : GoozForm α) (c : Nat) : List (Nat × GoozForm α) :=
  (List.range c).map (fun d => (d + 1, f.at_layer (d + 1)))

/-- The invariant of the scheduler in round `l` when the entries
`0 .. cnt - 1` of `active_idxs` are still to be visited, on a run started from
a registry of `n` shapes: the active entries are pairwise distinct; a shape
still to be visited has received the layers `1 .. l - 1`, a shape already
visited and kept the layers `1 .. l`; a shape that is not active any more has
received all its layers, fewer than `l`, and its cursor is one past them; the
output holds, for every shape, the layers below its cursor and no other. -/
structure SchedInv (n l cnt : Nat) (s : GoozSched α) : Prop where
  cnt_le : cnt ≤ s.nbr_active_forms
  ainj : ∀ (j1 j2 k : Nat), j1 < s.nbr_active_forms → j2 < s.nbr_active_forms →
    s.active_idxs[j1]? = some k → s.active_idxs[j2]? = some k → j1 = j2
  todo : ∀ (j k : Nat) (f : GoozForm α), j < cnt → s.active_idxs[j]? = some k →
    s.st.forms[k]? = some f → f.state.cur_layer + 1 = l ∧ l ≤ f.state.tot_layer + 1
  done : ∀ (j k : Nat) (f : GoozForm α), cnt ≤ j → j < s.nbr_active_forms →
    s.active_idxs[j]? = some k → s.st.forms[k]? = some f →
    f.state.cur_layer = l ∧ l ≤ f.state.tot_layer
  gone : ∀ (k : Nat) (f : GoozForm α), k < n →
    (∀ j, j < s.nbr_active_forms → s.active_idxs[j]? ≠ some k) →
    s.st.forms[k]? = some f →
    f.state.cur_layer = f.state.tot_layer + 1 ∧ f.state.tot_layer < l
  out_ok : ∀ (k : Nat) (f : GoozForm α), k < n → s.st.forms[k]? = some f →
    dispatches_of k s.out = layers_upto f (min f.state.cur_layer f.state.tot_layer)
  out_slot : ∀ (d : GoozDispatch α), GoozOut.dispatch d ∈ s.out →
    d.slot < n ∧ d.form.state.cur_layer ≤ d.form.state.tot_layer ∧
    d.calls = dispatch_calls d.form.type

/-- The settings of `example.c`. -/
def example_settings : GoozPrintSettings ℚ :=
  { nozzle_diameter := 2 / 5, filament_diameter := 7 / 4, layer_height := 1 / 5,
    print_speed := 1500, travel_speed := 6000, print_width_ratio := 11 / 10,
    oozing_ratio := 3 / 10, oozing_z_security := 4, temp_nozzle := 217, temp_bed := 60,
    build_width := 220, build_depth := 220, build_height := 250 }

/-- A registry of two shapes of different heights under the settings of
`example.c`: a cube of side 10 at (50, 50), then a cylinder of radius 5 and
height 3 at (100, 100). -/
def example_registry : GoozState ℚ :=
  (gooz_add_cylinder example_settings true
    (gooz_add_cube example_settings true GoozState.init 50 50 10).2 100 100 5 3).2

/-- The cube that `example_registry` holds in slot 0. -/
def example_cube : GoozForm ℚ :=
  { x := 50, y := 50, type := GoozFormType.FORM_CUBE, shape := GoozShape.cube 10,
    state := { idx_key := 0, cur_layer := 0,
               tot_layer := compute_nbr_pass (10 : ℚ) example_settings.layer_height,
               height_layer :=
                 10 / (compute_nbr_pass (10 : ℚ) example_settings.layer_height : ℚ) } }

end Reach

/-! ## The motion/extrusion emitter

The functions of this part write lines to the stream `out` and update the
global `nozzle_state`.  A line is embedded by the `fprintf` that writes it,
with the values passed for its conversions; the rounding done by `%.2f` and
`%.5f` belongs to the printed text and is not part of the embedding. -/

/-- The C struct `GoozNozzleState`. -/
structure GoozNozzleState (α : Type) where
  x : α
  y : α
  z : α
  e : α
  layer : Int
  deriving DecidableEq, Repr

/-- The lines written to the output stream, one constructor for each format
string of the source. -/
inductive GoozLine (α : Type) where
  /-- The line `; START G-code`. -/
  | start_note
  /-- The line `G90 ; use absolute coordinates`. -/
  | G90
  /-- The line `M140 S%d ; Bed temp`. -/
  | M140 (s : Int)
  /-- The line `M104 S%d ; Nozzle temp`. -/
  | M104 (s : Int)
  /-- The line `M190 S%d ; Wait bed`. -/
  | M190 (s : Int)
  /-- The line `M109 S%d ; Wait nozzle`. -/
  | M109 (s : Int)
  /-- The line `G28 ; Home axes`. -/
  | G28
  /-- The line `G92 X0 Y0 Z0 E0 ; Reset coordinates`. -/
  | G92_reset_all
  /-- The line `; END G-code`. -/
  | end_note
  /-- The line `M104 S0 ; Nozzle off`. -/
  | nozzle_off
  /-- The line `M140 S0 ; Bed off`. -/
  | bed_off
  /-- The line `G1 X0 Y200 F6000 ; Park head`. -/
  | park_head
  /-- The line `M84 ; Disable motors`. -/
  | M84
  /-- The line `G1 Z%.2f F%d ; Move head up`. -/
  | move_up (z : α) (f : Int)
  /-- The line `G1 X%.2f Y%.2f F%d ; Move head in XY plane`. -/
  | move_xy (x y : α) (f : Int)
  /-- The line `G1 Z%.2f F%d ; Move head down`. -/
  | move_down (z : α) (f : Int)
  /-- The line `; add_line_oozing`. -/
  | oozing_note
  /-- The line `G92 E0 ; Reset extrusion head`. -/
  | reset_extrusion
  /-- The line `G1 Z%.2f E%.2f F%d ; Add oozing up`. -/
  | oozing_up (z e : α) (f : Int)
  /-- The line `G1 X%.2f Y%.2f E%.2f F%d ; Add oozing in XY plane`. -/
  | oozing_xy_e (x y e : α) (f : Int)
  /-- The line `G1 X%.2f Y%.2f F%d ; Add oozing in XY plane`. -/
  | oozing_xy (x y : α) (f : Int)
  /-- The line `G1 Z%.2f F%d ; Remove oozing security`. -/
  | oozing_down (z : α) (f : Int)
  /-- The line `G1 X%.2f Y%.2f Z%.2f E%.2f F%d ; Add line`. -/
  | line (x y z e : α) (f : Int)
  /-- The line `; cube perimeter layer %zu`. -/
  | cube_perimeter_note (cur_layer : Nat)
  /-- The line `G1 X%.2f Y%.2f Z%.2f F%d ; cyl layer %zu`. -/
  | cyl_start (x y z : α) (f : Int) (cur_layer : Nat)
  /-- The line `G1 X%.2f Y%.2f E%.5f F%d`. -/
  | cyl_seg (x y e : α) (f : Int)
  /-- The line `G92 E0`. -/
  | cyl_reset
  deriving DecidableEq, Repr

/-- The state the emitter works on: the global `nozzle_state` and the lines
written to `out` so far. -/
structure GoozEmitter (α : Type) where
  nozzle_state : GoozNozzleState α
  out : List (GoozLine α)
  deriving DecidableEq, Repr

/-- The functions and the constant of `math.h` that the source uses and that
an ordered field does not provide: `M_PI`, `sqrt`, `cos`, `sin`.  They are a
parameter of the embedding.  (`fabs` and `floor` are exact and embedded as
the absolute value and the floor of the field.) -/
structure GoozLibm (α : Type) where
  M_PI : α
  sqrt : α → α
  cos : α → α
  sin : α → α

section Emitter

variable {α : Type} [LinearOrderedField α]

/-- The constant `GOOZ_TINY_VALUE = 5e-4`. -/
def GOOZ_TINY_VALUE : α := 5 / 10000

/-- The constant `GOOZ_OFFSET_Z = 0.1`. -/
def GOOZ_OFFSET_Z : α := 1 / 10

/-- The initialiser `{0, 0, 0, 0, 0}` of the global `nozzle_state`. -/
def GoozNozzleState.init : GoozNozzleState α :=
  { x := 0, y := 0, z := 0, e := 0, layer := 0 }

/-- The function `extrusion_length` (gooz.h 163-167). -/
def extrusion_length (m : GoozLibm α) (ps : GoozPrintSettings α) (area_mm2 length_mm : α) : α :=
  let r := ps.filament_diameter / 2
  let filament_area := m.M_PI * r * r
  (area_mm2 * length_mm) / filament_area

/-- The function `set_nozzle` (gooz.h 169-174). -/
def set_nozzle (ns : GoozNozzleState α) (x y z e : α) : GoozNozzleState α :=
  { ns with x := x, y := y, z := z, e := e }

/-- The function `add_move` (gooz.h 176-192). -/
def add_move (ps : GoozPrintSettings α) (x y z : α) (em : GoozEmitter α) : GoozEmitter α :=
  let written :=
    if z > em.nozzle_state.z + GOOZ_TINY_VALUE then
      [GoozLine.move_up z ps.travel_speed, GoozLine.move_xy x y ps.travel_speed]
    else if z < em.nozzle_state.z - GOOZ_TINY_VALUE then
      [GoozLine.move_xy x y ps.travel_speed, GoozLine.move_down z ps.travel_speed]
    else
      [GoozLine.move_xy x y ps.travel_speed]
  { nozzle_state := set_nozzle em.nozzle_state x y z em.nozzle_state.e,
    out := em.out ++ written }

/-- The function `add_move_oozing` (gooz.h 194-218). -/
def add_move_oozing (m : GoozLibm α) (ps : GoozPrintSettings α) (x y z : α)
    (em : GoozEmitter α) : GoozEmitter α :=
  let area := ps.nozzle_diameter * ps.layer_height * ps.print_width_ratio
  let dx := |x - em.nozzle_state.x|
  let dy := |y - em.nozzle_state.y|
  let dz := |z - em.nozzle_state.z|
  let dist := m.sqrt (dx * dx + dy * dy + dz * dz)
  let e := extrusion_length m ps area (dist * ps.oozing_ratio)
  { nozzle_state := set_nozzle em.nozzle_state x y z e,
    out := em.out ++
      [GoozLine.oozing_note,
       GoozLine.reset_extrusion,
       GoozLine.oozing_up (z + ps.oozing_z_security)
         (e * (dz + ps.oozing_z_security) / (dx + dy + dz + ps.oozing_z_security))
         ps.travel_speed,
       GoozLine.oozing_xy_e ((em.nozzle_state.x + x) / 2) ((em.nozzle_state.y + y) / 2) e
         ps.travel_speed,
       GoozLine.oozing_xy x y ps.travel_speed,
       GoozLine.oozing_down z ps.travel_speed] }

/-- The function `add_line` (gooz.h 220-233). -/
def add_line (m : GoozLibm α) (ps : GoozPrintSettings α) (x y z width : α)
    (em : GoozEmitter α) : GoozEmitter α :=
  let area := width * ps.layer_height * ps.print_width_ratio
  let dx := |x - em.nozzle_state.x|
  let dy := |y - em.nozzle_state.y|
  let dz := |z - em.nozzle_state.z|
  let dist := m.sqrt (dx * dx + dy * dy + dz * dz)
  let e := extrusion_length m ps area dist
  { nozzle_state := set_nozzle em.nozzle_state x y z (em.nozzle_state.e + e),
    out := em.out ++ [GoozLine.line x y z (em.nozzle_state.e + e) ps.print_speed] }

/-- The function `emit_startup` (gooz.h 235-250). -/
def emit_startup (m : GoozLibm α) (ps : GoozPrintSettings α) (em : GoozEmitter α) :
    GoozEmitter α :=
  let em0 : GoozEmitter α :=
    { em with out := em.out ++
        [GoozLine.start_note, GoozLine.G90, GoozLine.M140 ps.temp_bed,
         GoozLine.M104 ps.temp_nozzle, GoozLine.M190 ps.temp_bed,
         GoozLine.M109 ps.temp_nozzle, GoozLine.G28, GoozLine.G92_reset_all] }
  let em1 := add_move ps 0 0 ps.layer_height em0
  let em2 := add_line m ps 100 0 ps.layer_height ps.nozzle_diameter em1
  add_line m ps 0 0 ps.layer_height ps.nozzle_diameter em2

/-- The function `emit_shutdown` (gooz.h 252-258). -/
def emit_shutdown (em : GoozEmitter α) : GoozEmitter α :=
  { em with out := em.out ++
      [GoozLine.end_note, GoozLine.nozzle_off, GoozLine.bed_off, GoozLine.park_head,
       GoozLine.M84] }

end Emitter

/-! ## The path generators -/

section Generators

variable {α : Type} [LinearOrderedField α]

/-- The loop of `closest_coord_idx` over the entries not yet compared, `i`
being the index of the first of them. -/
def closest_coord_idx_from (ns : GoozNozzleState α) :
    List (α × α) → Nat → Nat → α → Nat
  | [], _, min_idx, _ => min_idx
  | c :: cs, i, min_idx, min_dist =>
    let dx := c.1 - ns.x
    let dy := c.2 - ns.y
    let cur_dist := dx * dx + dy * dy
    if min_dist > cur_dist then closest_coord_idx_from ns cs (i + 1) i cur_dist
    else closest_coord_idx_from ns cs (i + 1) min_idx min_dist

/-- The function `closest_coord_idx` (gooz.h 260-275); `coords` holds the
`nbr_coords` pairs of the C array.  The source is never called on an empty
array. -/
def closest_coord_idx (ns : GoozNozzleState α) (coords : List (α × α)) : Nat :=
  match coords with
  | [] => 0
  | c :: cs =>
    let dx := c.1 - ns.x
    let dy := c.2 - ns.y
    closest_coord_idx_from ns cs 1 0 (dx * dx + dy * dy)

/-- The read `coords[i]` of a local array of pairs. -/
def coord_at (coords : List (α × α)) (i : Nat) : α × α :=
  coords.getD i (0, 0)

/-- The read `f->shape.cube.side`.  The members `cube.side` and
`cylinder.radius` of the union share their storage. -/
def GoozForm.cube_side (f : GoozForm α) : α :=
  match f.shape with
  | GoozShape.cube side => side
  | GoozShape.cylinder radius _ => radius

/-- The read `f->shape.cylinder.radius`.  The members `cube.side` and
`cylinder.radius` of the union share their storage. -/
def GoozForm.cylinder_radius (f : GoozForm α) : α :=
  match f.shape with
  | GoozShape.cube side => side
  | GoozShape.cylinder radius _ => radius

/-- The four corners `coords` of the square of half side `s` around
`(x, y)`, in the order of the source. -/
def square_coords (x y s : α) : List (α × α) :=
  [(x - s, y - s), (x - s, y + s), (x + s, y + s), (x + s, y - s)]

/-- The loop `for (int i = 1; i <= 4; i++)` of `add_cube_perimeter`; the
first argument is the number of iterations still to run. -/
def cube_perimeter_lines (m : GoozLibm α) (ps : GoozPrintSettings α) (coords : List (α × α))
    (min_idx : Nat) (z : α) : Nat → Nat → GoozEmitter α → GoozEmitter α
  | 0, _, em => em
  | n + 1, i, em =>
    cube_perimeter_lines m ps coords min_idx z n (i + 1)
      (add_line m ps (coord_at coords ((min_idx + i) % 4)).1
        (coord_at coords ((min_idx + i) % 4)).2 z ps.nozzle_diameter em)

/-- The function `add_cube_perimeter` (gooz.h 277-295).  The local `area`
is not used by the source. -/
def add_cube_perimeter (m : GoozLibm α) (ps : GoozPrintSettings α) (f : GoozForm α)
    (em : GoozEmitter α) : GoozEmitter α :=
  let z := (f.state.cur_layer : α) * f.state.height_layer - GOOZ_OFFSET_Z
  let x := f.x
  let y := f.y
  let s := f.cube_side / 2 - ps.nozzle_diameter / 2
  let coords := square_coords x y s
  let min_idx := closest_coord_idx em.nozzle_state coords
  let em1 := add_move_oozing m ps (coord_at coords min_idx).1 (coord_at coords min_idx).2 z em
  let em2 : GoozEmitter α :=
    { em1 with out := em1.out ++ [GoozLine.cube_perimeter_note f.state.cur_layer] }
  cube_perimeter_lines m ps coords min_idx z 4 1 em2

/-- The loop of `case 0` of `add_cube_infill_spiral_inward`; the first
argument is the counter `i`, the second the sign `k`. -/
def spiral_inward_loop_0 (m : GoozLibm α) (ps : GoozPrintSettings α) (z width : α) :
    Nat → α → GoozEmitter α → GoozEmitter α
  | 0, _, em => em
  | i + 1, k, em =>
    let em1 := add_line m ps (em.nozzle_state.x + width * ((i + 1 : ℕ) : α) * k)
      em.nozzle_state.y z width em
    let em2 := add_line m ps em1.nozzle_state.x
      (em1.nozzle_state.y - width * ((i + 1 : ℕ) : α) * k) z width em1
    spiral_inward_loop_0 m ps z width i (k * -1) em2

/-- The loop of `case 1` of `add_cube_infill_spiral_inward`. -/
def spiral_inward_loop_1 (m : GoozLibm α) (ps : GoozPrintSettings α) (z width : α) :
    Nat → α → GoozEmitter α → GoozEmitter α
  | 0, _, em => em
  | i + 1, k, em =>
    let em1 := add_line m ps em.nozzle_state.x
      (em.nozzle_state.y - width * ((i + 1 : ℕ) : α) * k) z width em
    let em2 := add_line m ps (em1.nozzle_state.x - width * ((i + 1 : ℕ) : α) * k)
      em1.nozzle_state.y z width em1
    spiral_inward_loop_1 m ps z width i (k * -1) em2

/-- The loop of `case 2` of `add_cube_infill_spiral_inward`. -/
def spiral_inward_loop_2 (m : GoozLibm α) (ps : GoozPrintSettings α) (z width : α) :
    Nat → α → GoozEmitter α → GoozEmitter α
  | 0, _, em => em
  | i + 1, k, em =>
    let em1 := add_line m ps (em.nozzle_state.x - width * ((i + 1 : ℕ) : α) * k)
      em.nozzle_state.y z width em
    let em2 := add_line m ps em1.nozzle_state.x
      (em1.nozzle_state.y + width * ((i + 1 : ℕ) : α) * k) z width em1
    spiral_inward_loop_2 m ps z width i (k * -1) em2

/-- The loop of `case 3` of `add_cube_infill_spiral_inward`. -/
def spiral_inward_loop_3 (m : GoozLibm α) (ps : GoozPrintSettings α) (z width : α) :
    Nat → α → GoozEmitter α → GoozEmitter α
  | 0, _, em => em
  | i + 1, k, em =>
    let em1 := add_line m ps em.nozzle_state.x
      (em.nozzle_state.y + width * ((i + 1 : ℕ) : α) * k) z width em
    let em2 := add_line m ps (em1.nozzle_state.x + width * ((i + 1 : ℕ) : α) * k)
      em1.nozzle_state.y z width em1
    spiral_inward_loop_3 m ps z width i (k * -1) em2

/-- The loop of `add_cylinder_perimeter` over the segments; the first
argument is the number of iterations still to run, the second the counter
`i`, then the locals `sx` and `sy`. -/
def cylinder_segments (m : GoozLibm α) (ps : GoozPrintSettings α) (x y r step area : α) :
    Nat → Nat → α → α → List (GoozLine α)
  | 0, _, _, _ => []
  | n + 1, i, sx, sy =>
    let ang := (i : α) * step
    let nx := x + r * m.cos ang
    let ny := y + r * m.sin ang
    let dist := m.sqrt ((nx - sx) * (nx - sx) + (ny - sy) * (ny - sy))
    let e := extrusion_length m ps area dist
    GoozLine.cyl_seg nx ny e ps.print_speed ::
      cylinder_segments m ps x y r step area n (i + 1) nx ny

/-- The function `add_cylinder_perimeter` (gooz.h 478-498).  It writes to
`out` with `fprintf` and does not call `set_nozzle`. -/
def add_cylinder_perimeter (m : GoozLibm α) (ps : GoozPrintSettings α) (f : GoozForm α)
    (em : GoozEmitter α) : GoozEmitter α :=
  let z := (f.state.cur_layer : α) * f.state.height_layer - GOOZ_OFFSET_Z
  let seg : Nat := 80
  let step := 2 * m.M_PI / (seg : α)
  let area := ps.nozzle_diameter * ps.layer_height
  let x := f.x
  let y := f.y
  let r := f.cylinder_radius
  let sx := x + r
  let sy := y
  { em with out := em.out ++
      [GoozLine.cyl_start sx sy z ps.travel_speed f.state.cur_layer] ++
      cylinder_segments m ps x y r step area seg 1 sx sy ++
      [GoozLine.cyl_reset] }

end Generators

section Infill

variable {α : Type} [LinearOrderedField α] [FloorRing α]

/-- The function `add_cube_infill_spiral_inward` (gooz.h 370-418).  The
local `s` of the source is assigned twice; `s0` is its first value, the side
of the infill square, and `s` its second, the half side of the outermost
ring. -/
def add_cube_infill_spiral_inward (m : GoozLibm α) (ps : GoozPrintSettings α) (f : GoozForm α)
    (em : GoozEmitter α) : GoozEmitter α :=
  let z := (f.state.cur_layer : α) * f.state.height_layer - GOOZ_OFFSET_Z
  let x := f.x
  let y := f.y
  let s0 := f.cube_side - 2 * ps.nozzle_diameter
  let nbr_pass := compute_nbr_pass s0 ps.nozzle_diameter
  let width := s0 / (nbr_pass : α)
  let s := (s0 - width) / 2
  let coords := square_coords x y s
  let min_idx := closest_coord_idx em.nozzle_state coords
  let em1 := add_move ps (coord_at coords min_idx).1 (coord_at coords min_idx).2 z em
  let k : α := 1
  match min_idx with
  | 0 =>
    let em2 := add_line m ps em1.nozzle_state.x
      (em1.nozzle_state.y + width * ((nbr_pass - 1 : ℕ) : α) * k) z width em1
    spiral_inward_loop_0 m ps z width (nbr_pass - 1) k em2
  | 1 =>
    let em2 := add_line m ps (em1.nozzle_state.x + width * ((nbr_pass - 1 : ℕ) : α) * k)
      em1.nozzle_state.y z width em1
    spiral_inward_loop_1 m ps z width (nbr_pass - 1) k em2
  | 2 =>
    let em2 := add_line m ps em1.nozzle_state.x
      (em1.nozzle_state.y - width * ((nbr_pass - 1 : ℕ) : α) * k) z width em1
    spiral_inward_loop_2 m ps z width (nbr_pass - 1) k em2
  | 3 =>
    let em2 := add_line m ps (em1.nozzle_state.x - width * ((nbr_pass - 1 : ℕ) : α) * k)
      em1.nozzle_state.y z width em1
    spiral_inward_loop_3 m ps z width (nbr_pass - 1) k em2
  | _ => em1

/-- The calls of one `case` of the `switch` of `gooz_generate_gcode`, run on
the emitter. -/
def run_generator (m : GoozLibm α) (ps : GoozPrintSettings α) (f : GoozForm α) :
    GoozGenerator → GoozEmitter α → GoozEmitter α
  | GoozGenerator.add_cube_perimeter => add_cube_perimeter m ps f
  | GoozGenerator.add_cube_infill_spiral_inward => add_cube_infill_spiral_inward m ps f
  | GoozGenerator.add_cylinder_perimeter => add_cylinder_perimeter m ps f

/-- The output of one step recorded by the scheduler, run on the emitter. -/
def run_out (m : GoozLibm α) (ps : GoozPrintSettings α) :
    GoozOut α → GoozEmitter α → GoozEmitter α
  | GoozOut.emit_startup, em => emit_startup m ps em
  | GoozOut.dispatch d, em => d.calls.foldl (fun e g => run_generator m ps d.form g e) em
  | GoozOut.emit_shutdown, em => emit_shutdown em

/-- The function `gooz_generate_gcode` with its writes to `out` and to
`nozzle_state`: the registry and the emitter after the call. -/
def gooz_generate_gcode_stream (m : GoozLibm α) (ps : GoozPrintSettings α)
    (rand : Nat → Nat) (st : GoozState α) (em : GoozEmitter α) :
    Option (GoozState α × GoozEmitter α) :=
  match gooz_generate_gcode rand st with
  | none => none
  | some r => some (r.1, r.2.foldl (fun e o => run_out m ps o e) em)

end Infill

/-! ## Notions used to state the properties of the emitted paths -/

section PathNotions

variable {α : Type} [LinearOrderedField α]

/-- The destinations `(x, y)` of the extruding lines (`Add line`) of a piece
of output, in order. -/
def line_points : List (GoozLine α) → List (α × α)
  | [] => []
  | GoozLine.line x y _ _ _ :: rest => (x, y) :: line_points rest
  | _ :: rest => line_points rest

/-- The destinations `(x, y, z)` of a piece of output made of extruding
lines only; `none` stands for any other line. -/
def line_target : GoozLine α → Option (α × α × α)
  | GoozLine.line x y z _ _ => some (x, y, z)
  | _ => none

/-- The squared planar distance from the cursor to the point `c`, as
`closest_coord_idx` computes it. -/
def sq_dist (ns : GoozNozzleState α) (c : α × α) : α :=
  (c.1 - ns.x) * (c.1 - ns.x) + (c.2 - ns.y) * (c.2 - ns.y)

/-- Every segment of the path that starts at `p` and visits the points of
the list in order is parallel to the X axis or to the Y axis. -/
def axis_path : α × α → List (α × α) → Prop
  | _, [] => True
  | p, q :: rest => (p.1 = q.1 ∨ p.2 = q.2) ∧ axis_path q rest

/-- The sum over the segments of the path of `|Δx| + |Δy|`, which is the
length of a segment parallel to an axis. -/
def path_length : α × α → List (α × α) → α
  | _, [] => 0
  | p, q :: rest => |q.1 - p.1| + |q.2 - p.2| + path_length q rest

/-- The line drawn from `p` to `q` passes over the point `c`, the start `p`
left out: `c` is not `p` and lies in the rectangle spanned by `p` and `q`,
which is the segment from `p` to `q` when the line is parallel to an axis. -/
def on_line (p q c : α × α) : Bool :=
  decide (c ≠ p) &&
  (decide (p.1 ≤ c.1 ∧ c.1 ≤ q.1) || decide (q.1 ≤ c.1 ∧ c.1 ≤ p.1)) &&
  (decide (p.2 ≤ c.2 ∧ c.2 ≤ q.2) || decide (q.2 ≤ c.2 ∧ c.2 ≤ p.2))

/-- The number of lines of the path that starts at `p` and visits the points
of the list in order which pass over the point `c`. -/
def lines_over (c : α × α) : α × α → List (α × α) → Nat
  | _, [] => 0
  | p, q :: rest => (if on_line p q c then 1 else 0) + lines_over c q rest

/-- Along the path that starts at `p` and visits the points of the list in
order, no point is farther from `(cx, cy)` than the point before it, the
distance being the larger of the distances on the two axes. -/
def ring_path (cx cy : α) : α × α → List (α × α) → Prop
  | _, [] => True
  | p, q :: rest =>
    max |q.1 - cx| |q.2 - cy| ≤ max |p.1 - cx| |p.2 - cy| ∧ ring_path cx cy q rest

/-- The four loops of `add_cube_infill_spiral_inward` written as one: each
iteration moves one coordinate by `a * (width * i * k)` and then the other by
`b * (width * i * k)`, the first being X when `xfirst` holds. -/
def spiral_loop (m : GoozLibm α) (ps : GoozPrintSettings α) (z width : α) (xfirst : Bool)
    (a b : α) : Nat → α → GoozEmitter α → GoozEmitter α
  | 0, _, em => em
  | i + 1, k, em =>
    let em1 :=
      if xfirst then
        add_line m ps (em.nozzle_state.x + a * (width * ((i + 1 : ℕ) : α) * k))
          em.nozzle_state.y z width em
      else
        add_line m ps em.nozzle_state.x
          (em.nozzle_state.y + a * (width * ((i + 1 : ℕ) : α) * k)) z width em
    let em2 :=
      if xfirst then
        add_line m ps em1.nozzle_state.x
          (em1.nozzle_state.y + b * (width * ((i + 1 : ℕ) : α) * k)) z width em1
      else
        add_line m ps (em1.nozzle_state.x + b * (width * ((i + 1 : ℕ) : α) * k))
          em1.nozzle_state.y z width em1
    spiral_loop m ps z width xfirst a b i (k * -1) em2

/-- The destinations of the lines that `spiral_loop` writes when it is
entered with the cursor at `p`. -/
def spiral_pts (width : α) (xfirst : Bool) (a b : α) : Nat → α → α × α → List (α × α)
  | 0, _, _ => []
  | i + 1, k, p =>
    let p1 : α × α :=
      if xfirst then (p.1 + a * (width * ((i + 1 : ℕ) : α) * k), p.2)
      else (p.1, p.2 + a * (width * ((i + 1 : ℕ) : α) * k))
    let p2 : α × α :=
      if xfirst then (p1.1, p1.2 + b * (width * ((i + 1 : ℕ) : α) * k))
      else (p1.1 + b * (width * ((i + 1 : ℕ) : α) * k), p1.2)
    p1 :: p2 :: spiral_pts width xfirst a b i (k * -1) p2

/-- The part of `add_cube_infill_spiral_inward` that follows the travel to
the corner `coords[min_idx]`: the `switch (min_idx)` with, in each case, the
first line and the loop. -/
def spiral_inward_switch (m : GoozLibm α) (ps : GoozPrintSettings α) (z width : α)
    (nbr_pass min_idx : Nat) (em1 : GoozEmitter α) : GoozEmitter α :=
  match min_idx with
  | 0 =>
    spiral_inward_loop_0 m ps z width (nbr_pass - 1) 1
      (add_line m ps em1.nozzle_state.x
        (em1.nozzle_state.y + width * ((nbr_pass - 1 : ℕ) : α) * 1) z width em1)
  | 1 =>
    spiral_inward_loop_1 m ps z width (nbr_pass - 1) 1
      (add_line m ps (em1.nozzle_state.x + width * ((nbr_pass - 1 : ℕ) : α) * 1)
        em1.nozzle_state.y z width em1)
  | 2 =>
    spiral_inward_loop_2 m ps z width (nbr_pass - 1) 1
      (add_line m ps em1.nozzle_state.x
        (em1.nozzle_state.y - width * ((nbr_pass - 1 : ℕ) : α) * 1) z width em1)
  | 3 =>
    spiral_inward_loop_3 m ps z width (nbr_pass - 1) 1
      (add_line m ps (em1.nozzle_state.x - width * ((nbr_pass - 1 : ℕ) : α) * 1)
        em1.nozzle_state.y z width em1)
  | _ => em1

/-- The settings of `example.c` over any field. -/
def example_settings_in (α : Type) [LinearOrderedField α] : GoozPrintSettings α :=
  { nozzle_diameter := 2 / 5, filament_diameter := 7 / 4, layer_height := 1 / 5,
    print_speed := 1500, travel_speed := 6000, print_width_ratio := 11 / 10,
    oozing_ratio := 3 / 10, oozing_z_security := 4, temp_nozzle := 217, temp_bed := 60,
    build_width := 220, build_depth := 220, build_height := 250 }

/-- A cube of the given side at (50, 50) on its layer `cur_layer`, with
layers of height 1/5. -/
def example_cube_in (α : Type) [LinearOrderedField α] (side : α) (cur_layer tot_layer : Nat) :
    GoozForm α :=
  { x := 50, y := 50, type := GoozFormType.FORM_CUBE, shape := GoozShape.cube side,
    state := { idx_key := 0, cur_layer := cur_layer, tot_layer := tot_layer,
               height_layer := 1 / 5 } }

/-- The cylinder of radius 5 and height 3 at (100, 100) of the end-to-end
scenario, on its layer `cur_layer`. -/
def example_cylinder_in (α : Type) [LinearOrderedField α] (cur_layer : Nat) : GoozForm α :=
  { x := 100, y := 100, type := GoozFormType.FORM_CYLINDER,
    shape := GoozShape.cylinder 5 3,
    state := { idx_key := 0, cur_layer := cur_layer, tot_layer := 15,
               height_layer := 1 / 5 } }

/-- The emitter before anything is written: `nozzle_state` as initialised
and an empty output. -/
def GoozEmitter.init : GoozEmitter α :=
  { nozzle_state := GoozNozzleState.init, out := [] }

end PathNotions

/-! ## The pass planner and the build-volume validator -/

section ValidatorLemmas

variable {α : Type} [LinearOrderedField α]

/-- The conditions under which `check_within_build` returns 1. -/
theorem check_within_build_eq_true_iff (ps : GoozPrintSettings α) (x y w h : α) :
    check_within_build ps x y w h = true ↔
      (w ≥ 0 ∧ h ≥ 0 ∧ x - w ≥ 0 ∧ y - w ≥ 0 ∧
        x + w ≤ ps.build_width ∧ y + w ≤ ps.build_depth ∧ h ≤ ps.build_height) := by
  unfold check_within_build
  constructor
  · intro hc
    split_ifs at hc with h1 h2 h3 h4
    push_neg at h1 h2 h3 h4
    exact ⟨h1.1, h1.2, h2.1, h2.2, h3.1, h3.2, h4⟩
  · rintro ⟨hw, hh, hx, hy, hbw, hbd, hbh⟩
    have h1 : ¬ (w < 0 ∨ h < 0) := by
      rintro (c | c)
      · exact absurd hw (not_le.mpr c)
      · exact absurd hh (not_le.mpr c)
    have h2 : ¬ (x - w < 0 ∨ y - w < 0) := by
      rintro (c | c)
      · exact absurd hx (not_le.mpr c)
      · exact absurd hy (not_le.mpr c)
    have h3 : ¬ (x + w > ps.build_width ∨ y + w > ps.build_depth) := by
      rintro (c | c)
      · exact absurd hbw (not_le.mpr c)
      · exact absurd hbd (not_le.mpr c)
    have h4 : ¬ (h > ps.build_height) := not_lt.mpr hbh
    simp only [h1, h2, h3, h4, if_false]

end ValidatorLemmas

section PlannerLemmas

variable {α : Type} [LinearOrderedField α] [FloorRing α]

theorem compute_nbr_pass_of_nonpos (t i : α) (h : t ≤ 0 ∨ i ≤ 0) :
    compute_nbr_pass t i = 1 := by
  simp [compute_nbr_pass, h]

/-- Unfolding of `compute_nbr_pass` on positive arguments whose quotient has
floor `F ≥ 1`. -/
theorem compute_nbr_pass_of_floor (t i : α) (ht : 0 < t) (hi : 0 < i) (F : ℕ)
    (hF : Int.floor (t / i) = (F : ℤ)) (hF1 : 1 ≤ F) :
    compute_nbr_pass t i
      = if t / (F : α) - i < i - t / ((F : α) + 1) then F else F + 1 := by
  have h1 : ¬ (t ≤ 0 ∨ i ≤ 0) := by
    rintro (h | h)
    · exact absurd ht (not_lt.mpr h)
    · exact absurd hi (not_lt.mpr h)
  have h2 : ¬ ((F : ℤ) < 1) := by omega
  have h3 : ((F : ℤ) + 1).toNat = F + 1 := by omega
  simp only [compute_nbr_pass, h1, if_false, hF, h2, Int.cast_natCast, Int.toNat_natCast, h3]

theorem compute_nbr_pass_of_floor_lt_one (t i : α) (h : Int.floor (t / i) < 1) :
    compute_nbr_pass t i = 1 := by
  unfold compute_nbr_pass
  split_ifs <;> simp_all

theorem one_le_compute_nbr_pass (t i : α) : 1 ≤ compute_nbr_pass t i := by
  by_cases h : t ≤ 0 ∨ i ≤ 0
  · rw [compute_nbr_pass_of_nonpos t i h]
  · push_neg at h
    by_cases hf : Int.floor (t / i) < 1
    · rw [compute_nbr_pass_of_floor_lt_one t i hf]
    · obtain ⟨F, hF⟩ := Int.eq_ofNat_of_zero_le (show 0 ≤ Int.floor (t / i) by omega)
      have hF1 : 1 ≤ F := by omega
      rw [compute_nbr_pass_of_floor t i h.1 h.2 F hF hF1]
      split_ifs <;> omega

/-- Where both conversions of the last line fit `size_t`, that is for
`floor(total_size / ideal_size) + 1 < 2 ^ 64`, the function with the
conversions carried out on 64 bits returns what `compute_nbr_pass` returns,
whatever an out-of-range conversion would give; so it returns at least 1. -/
theorem compute_nbr_pass_size_t_in_range (out_of_range : Int → Nat)
    (total_size ideal_size : α)
    (h : Int.floor (total_size / ideal_size) + 1 < 2 ^ 64) :
    compute_nbr_pass_size_t out_of_range total_size ideal_size
      = compute_nbr_pass total_size ideal_size ∧
    1 ≤ compute_nbr_pass_size_t out_of_range total_size ideal_size := by
  have key : compute_nbr_pass_size_t out_of_range total_size ideal_size
      = compute_nbr_pass total_size ideal_size := by
    unfold compute_nbr_pass_size_t compute_nbr_pass
    by_cases h1 : total_size ≤ 0 ∨ ideal_size ≤ 0
    · rw [if_pos h1, if_pos h1]
    · rw [if_neg h1, if_neg h1]
      by_cases h2 : Int.floor (total_size / ideal_size) < 1
      · simp only [h2, if_true]
      · have h3 : 0 ≤ Int.floor (total_size / ideal_size) ∧
            Int.floor (total_size / ideal_size) < 2 ^ 64 := ⟨by omega, by omega⟩
        have h4 : 0 ≤ Int.floor (total_size / ideal_size) + 1 ∧
            Int.floor (total_size / ideal_size) + 1 < 2 ^ 64 := ⟨by omega, by omega⟩
        simp only [h2, if_false, size_t_of_double, h3, h4, and_self, if_true]
  exact ⟨key, by rw [key]; exact one_le_compute_nbr_pass _ _⟩

/-- Where an argument is non-positive the function with the conversions
carried out on 64 bits returns 1. -/
theorem compute_nbr_pass_size_t_of_nonpos (out_of_range : Int → Nat)
    (total_size ideal_size : α) (h : total_size ≤ 0 ∨ ideal_size ≤ 0) :
    compute_nbr_pass_size_t out_of_range total_size ideal_size = 1 := by
  unfold compute_nbr_pass_size_t
  rw [if_pos h]

/-- C9 fails on the code: at `total_size = 2e19`, `ideal_size = 1` (both
exact as `double`) the local `f` is `2e19`, which is not below `2 ^ 64`, so
the conversion to `size_t` of line 117 is out of range, for `f` as for
`f + 1`: `compute_nbr_pass` returns whatever that conversion gives, and with
0 for an out-of-range conversion (x86-64) it returns 0, which is not `≥ 1`. -/
theorem C9_compute_nbr_pass_size_t_overflow :
    (2 : Int) ^ 64 ≤ Int.floor ((2 * 10 ^ 19 : ℚ) / 1) ∧
    (∀ out_of_range : Int → Nat,
      size_t_of_double out_of_range (2 * 10 ^ 19) = out_of_range (2 * 10 ^ 19) ∧
      size_t_of_double out_of_range (2 * 10 ^ 19 + 1) = out_of_range (2 * 10 ^ 19 + 1) ∧
      compute_nbr_pass_size_t out_of_range (2 * 10 ^ 19 : ℚ) 1
        = out_of_range (2 * 10 ^ 19)) ∧
    compute_nbr_pass_size_t (fun _ => 0) (2 * 10 ^ 19 : ℚ) 1 = 0 ∧
    ¬ (1 ≤ compute_nbr_pass_size_t (fun _ => 0) (2 * 10 ^ 19 : ℚ) 1) := by
  have hfl : Int.floor ((2 * 10 ^ 19 : ℚ) / 1) = 2 * 10 ^ 19 := by
    have h : (2 * 10 ^ 19 : ℚ) / 1 = ((20000000000000000000 : ℤ) : ℚ) := by norm_num
    rw [h, Int.floor_intCast]
    norm_num
  have hgen : ∀ out_of_range : Int → Nat,
      compute_nbr_pass_size_t out_of_range (2 * 10 ^ 19 : ℚ) 1
        = out_of_range (2 * 10 ^ 19) := by
    intro oor
    unfold compute_nbr_pass_size_t
    rw [if_neg (by norm_num)]
    simp only [hfl]
    rw [if_neg (by norm_num), if_pos (by norm_num)]
    simp only [size_t_of_double]
    rw [if_neg (by norm_num)]
  refine ⟨by rw [hfl]; norm_num, fun oor => ⟨?_, ?_, hgen oor⟩, hgen _, ?_⟩
  · simp only [size_t_of_double]
    rw [if_neg (by norm_num)]
  · simp only [size_t_of_double]
    rw [if_neg (by norm_num)]
  · rw [hgen]
    norm_num

/-- C10, the planner: on a span that is `k ≥ 1` times a positive ideal
spacing, `compute_nbr_pass` returns `k`. -/
theorem compute_nbr_pass_multiple (ideal_size : α) (hi : 0 < ideal_size) (k : ℕ) (hk : 1 ≤ k) :
    compute_nbr_pass ((k : α) * ideal_size) ideal_size = k := by
  have hk0 : (0 : α) < (k : α) := by exact_mod_cast hk
  have hq : (k : α) * ideal_size / ideal_size = (k : α) := by
    field_simp
  have hF : Int.floor ((k : α) * ideal_size / ideal_size) = (k : ℤ) := by
    rw [hq]
    exact_mod_cast Int.floor_natCast (α := α) k
  rw [compute_nbr_pass_of_floor _ _ (mul_pos hk0 hi) hi k hF hk]
  have h1 : (k : α) * ideal_size / (k : α) - ideal_size = 0 := by
    field_simp
  have h2 : 0 < ideal_size - (k : α) * ideal_size / ((k : α) + 1) := by
    have hk1 : (0 : α) < (k : α) + 1 := by linarith
    rw [sub_pos, div_lt_iff₀ hk1]
    nlinarith
  rw [if_pos (by rw [h1]; exact h2)]

end PlannerLemmas


/-! ## The registry -/

section ListLemmas

variable {β : Type}

theorem take_succ_set (L : List β) (n : Nat) (b : β) (h : n < L.length) :
    (L.set n b).take (n + 1) = L.take n ++ [b] := by
  induction L generalizing n with
  | nil => simp at h
  | cons a L ih =>
    cases n with
    | zero => simp
    | succ n =>
      simp only [List.length_cons, Nat.add_lt_add_iff_right] at h
      simp [ih n h]

end ListLemmas

theorem stored_length {α : Type} (st : GoozState α) (hlen : st.forms.length = st.capacity)
    (hle : st.nbr_forms ≤ st.capacity) : st.stored.length = st.nbr_forms := by
  simp [GoozState.stored, hlen, hle]

section CapacityLemmas

variable {α : Type} [LinearOrderedField α]

/-- The two outcomes of `ensure_capacity ok st 1` on a well-sized registry:
failure with the registry untouched, or success with room for one more shape
and the registered shapes untouched. -/
theorem ensure_capacity_spec (ok : Bool) (st : GoozState α)
    (hlen : st.forms.length = st.capacity) (hle : st.nbr_forms ≤ st.capacity) :
    (ensure_capacity ok st 1 = (-1, st) ∧ ok = false ∧ st.capacity < st.nbr_forms + 1) ∨
    ((ensure_capacity ok st 1).1 = 0 ∧
      (ensure_capacity ok st 1).2.nbr_forms = st.nbr_forms ∧
      (ensure_capacity ok st 1).2.forms.length = (ensure_capacity ok st 1).2.capacity ∧
      st.nbr_forms < (ensure_capacity ok st 1).2.capacity ∧
      st.capacity ≤ (ensure_capacity ok st 1).2.capacity ∧
      (ensure_capacity ok st 1).2.forms.take st.nbr_forms = st.forms.take st.nbr_forms) := by
  by_cases hgrow : st.nbr_forms + 1 > st.capacity
  · cases ok with
    | false => left; simp [ensure_capacity, hgrow]
    | true =>
      right
      have hcap : st.capacity < (if st.capacity = 0 then 8 else st.capacity * 2) := by
        split_ifs <;> omega
      have hE : ensure_capacity true st 1 =
          (0, { st with
                  forms := st.forms ++ List.replicate
                    ((if st.capacity = 0 then 8 else st.capacity * 2) - st.capacity)
                    GoozForm.blank,
                  capacity := if st.capacity = 0 then 8 else st.capacity * 2 }) := by
        simp [ensure_capacity, hgrow]
      rw [hE]
      refine ⟨rfl, rfl, ?_, ?_, ?_, ?_⟩
      · simp only [List.length_append, List.length_replicate, hlen]
        omega
      · show st.nbr_forms < (if st.capacity = 0 then 8 else st.capacity * 2)
        omega
      · show st.capacity ≤ (if st.capacity = 0 then 8 else st.capacity * 2)
        omega
      · show (st.forms ++ _).take st.nbr_forms = _
        rw [List.take_append_of_le_length (by omega)]
  · right
    have hE : ensure_capacity ok st 1 = (0, st) := by
      simp [ensure_capacity, hgrow]
    rw [hE]
    exact ⟨rfl, rfl, hlen, by show st.nbr_forms < st.capacity; omega, le_rfl, rfl⟩

/-- Writing the shape `f` in the first free slot after a successful
`ensure_capacity`: the registered shapes are the former ones followed by
`f`. -/
theorem stored_push (ok : Bool) (st : GoozState α) (f : GoozForm α)
    (hlen : st.forms.length = st.capacity) (hle : st.nbr_forms ≤ st.capacity)
    (hrc : (ensure_capacity ok st 1).1 = 0) :
    ((ensure_capacity ok st 1).2.forms.set (ensure_capacity ok st 1).2.nbr_forms f).take
        ((ensure_capacity ok st 1).2.nbr_forms + 1) = st.stored ++ [f] ∧
    ((ensure_capacity ok st 1).2.forms.set (ensure_capacity ok st 1).2.nbr_forms f).length
        = (ensure_capacity ok st 1).2.capacity ∧
    (ensure_capacity ok st 1).2.nbr_forms + 1 ≤ (ensure_capacity ok st 1).2.capacity ∧
    (ensure_capacity ok st 1).2.nbr_forms = st.nbr_forms := by
  rcases ensure_capacity_spec ok st hlen hle with ⟨h, _, _⟩ | ⟨_, hn, hl, hlt, _, htake⟩
  · rw [h] at hrc
    simp at hrc
  · rw [hn]
    refine ⟨?_, by simpa using hl, hlt, rfl⟩
    rw [take_succ_set _ _ _ (by omega), htake]
    rfl

theorem wf_init (ps : GoozPrintSettings α) : (GoozState.init : GoozState α).WF ps where
  len := rfl
  le := le_rfl
  key := by intro i f h; simp [GoozState.stored, GoozState.init] at h
  inside := by intro f h; simp [GoozState.stored, GoozState.init] at h
  tiled := by intro f h; simp [GoozState.stored, GoozState.init] at h

/-- A shape accepted by `check_within_build` and laid out by
`compute_nbr_pass` keeps the well-formedness of the registry it is appended
to. -/
theorem wf_push (ps : GoozPrintSettings α) (st st1 : GoozState α) (f : GoozForm α)
    (h : st.WF ps) (hlen : st1.forms.length = st1.capacity)
    (hle : st1.nbr_forms ≤ st1.capacity) (hst : st1.stored = st.stored ++ [f])
    (hkey : f.state.idx_key = st.nbr_forms) (hin : f.inside_build ps) (hti : f.tiled) :
    st1.WF ps where
  len := hlen
  le := hle
  key := by
    intro i g hg
    rw [hst] at hg
    have hl := stored_length st h.len h.le
    rcases Nat.lt_or_ge i st.stored.length with hi | hi
    · rw [List.getElem?_append_left hi] at hg
      exact h.key i g hg
    · rw [List.getElem?_append_right hi] at hg
      rcases Nat.eq_zero_or_pos (i - st.stored.length) with h0 | h0
      · rw [h0] at hg
        simp only [List.getElem?_cons_zero, Option.some.injEq] at hg
        rw [← hg, hkey]
        omega
      · rw [List.getElem?_eq_none (by simp; omega)] at hg
        exact absurd hg (by simp)
  inside := by
    intro g hg
    rw [hst, List.mem_append, List.mem_singleton] at hg
    rcases hg with hg | rfl
    · exact h.inside g hg
    · exact hin
  tiled := by
    intro g hg
    rw [hst, List.mem_append, List.mem_singleton] at hg
    rcases hg with hg | rfl
    · exact h.tiled g hg
    · exact hti

theorem wf_free (ps : GoozPrintSettings α) (st : GoozState α) : (gooz_free st).WF ps :=
  wf_init ps

end CapacityLemmas

section RegistryLemmas

variable {α : Type} [LinearOrderedField α] [FloorRing α]

/-- The three outcomes of `gooz_add_cube` on a well-sized registry. -/
theorem gooz_add_cube_spec (ps : GoozPrintSettings α) (ok : Bool) (st : GoozState α)
    (x y size : α) (hlen : st.forms.length = st.capacity) (hle : st.nbr_forms ≤ st.capacity) :
    (check_within_build ps x y (size / 2) size = false ∧
      gooz_add_cube ps ok st x y size = (-1, st)) ∨
    (check_within_build ps x y (size / 2) size = true ∧ ok = false ∧
      st.capacity < st.nbr_forms + 1 ∧ gooz_add_cube ps ok st x y size = (-2, st)) ∨
    (check_within_build ps x y (size / 2) size = true ∧
      (ok = true ∨ st.nbr_forms < st.capacity) ∧
      (gooz_add_cube ps ok st x y size).1 = 0 ∧
      (gooz_add_cube ps ok st x y size).2.nbr_forms = st.nbr_forms + 1 ∧
      (gooz_add_cube ps ok st x y size).2.forms.length
        = (gooz_add_cube ps ok st x y size).2.capacity ∧
      (gooz_add_cube ps ok st x y size).2.nbr_forms
        ≤ (gooz_add_cube ps ok st x y size).2.capacity ∧
      (gooz_add_cube ps ok st x y size).2.stored = st.stored ++
        [{ x := x, y := y, type := GoozFormType.FORM_CUBE, shape := GoozShape.cube size,
           state := { idx_key := st.nbr_forms, cur_layer := 0,
                      tot_layer := compute_nbr_pass size ps.layer_height,
                      height_layer := size / (compute_nbr_pass size ps.layer_height : α) } }]) := by
  cases hc : check_within_build ps x y (size / 2) size with
  | false => left; exact ⟨rfl, by simp [gooz_add_cube, hc]⟩
  | true =>
    right
    rcases ensure_capacity_spec ok st hlen hle with ⟨h, hok, hcap⟩ | ⟨hrc, hn, _, _, _, _⟩
    · left
      refine ⟨rfl, hok, hcap, ?_⟩
      simp [gooz_add_cube, hc, h]
    · right
      obtain ⟨h1, h2, h3, h4⟩ := stored_push ok st
        { x := x, y := y, type := GoozFormType.FORM_CUBE, shape := GoozShape.cube size,
          state := { idx_key := (ensure_capacity ok st 1).2.nbr_forms, cur_layer := 0,
                     tot_layer := compute_nbr_pass size ps.layer_height,
                     height_layer := size / (compute_nbr_pass size ps.layer_height : α) } }
        hlen hle hrc
      have hE : gooz_add_cube ps ok st x y size =
          (0, { (ensure_capacity ok st 1).2 with
                forms := (ensure_capacity ok st 1).2.forms.set (ensure_capacity ok st 1).2.nbr_forms
                  { x := x, y := y, type := GoozFormType.FORM_CUBE, shape := GoozShape.cube size,
                    state := { idx_key := (ensure_capacity ok st 1).2.nbr_forms, cur_layer := 0,
                               tot_layer := compute_nbr_pass size ps.layer_height,
                               height_layer :=
                                 size / (compute_nbr_pass size ps.layer_height : α) } },
                nbr_forms := (ensure_capacity ok st 1).2.nbr_forms + 1 }) := by
        simp [gooz_add_cube, hc, hrc]
      have hroom : ok = true ∨ st.nbr_forms < st.capacity := by
        by_contra hcon
        push_neg at hcon
        have hf : ok = false := by simpa using hcon.1
        have : ensure_capacity ok st 1 = (-1, st) := by
          simp [ensure_capacity, hf]
          omega
        rw [this] at hrc
        simp at hrc
      rw [hE]
      refine ⟨rfl, hroom, rfl, ?_, h2, h3, ?_⟩
      · simp only [h4]
      · simp only [GoozState.stored]
        rw [h1, h4]
        rfl

/-- The three outcomes of `gooz_add_cylinder` on a well-sized registry. -/
theorem gooz_add_cylinder_spec (ps : GoozPrintSettings α) (ok : Bool) (st : GoozState α)
    (x y radius height : α) (hlen : st.forms.length = st.capacity)
    (hle : st.nbr_forms ≤ st.capacity) :
    (check_within_build ps x y radius height = false ∧
      gooz_add_cylinder ps ok st x y radius height = (-1, st)) ∨
    (check_within_build ps x y radius height = true ∧ ok = false ∧
      st.capacity < st.nbr_forms + 1 ∧
      gooz_add_cylinder ps ok st x y radius height = (-2, st)) ∨
    (check_within_build ps x y radius height = true ∧
      (ok = true ∨ st.nbr_forms < st.capacity) ∧
      (gooz_add_cylinder ps ok st x y radius height).1 = 0 ∧
      (gooz_add_cylinder ps ok st x y radius height).2.nbr_forms = st.nbr_forms + 1 ∧
      (gooz_add_cylinder ps ok st x y radius height).2.forms.length
        = (gooz_add_cylinder ps ok st x y radius height).2.capacity ∧
      (gooz_add_cylinder ps ok st x y radius height).2.nbr_forms
        ≤ (gooz_add_cylinder ps ok st x y radius height).2.capacity ∧
      (gooz_add_cylinder ps ok st x y radius height).2.stored = st.stored ++
        [{ x := x, y := y, type := GoozFormType.FORM_CYLINDER,
           shape := GoozShape.cylinder radius height,
           state := { idx_key := st.nbr_forms, cur_layer := 0,
                      tot_layer := compute_nbr_pass height ps.layer_height,
                      height_layer :=
                        height / (compute_nbr_pass height ps.layer_height : α) } }]) := by
  cases hc : check_within_build ps x y radius height with
  | false => left; exact ⟨rfl, by simp [gooz_add_cylinder, hc]⟩
  | true =>
    right
    rcases ensure_capacity_spec ok st hlen hle with ⟨h, hok, hcap⟩ | ⟨hrc, hn, _, _, _, _⟩
    · left
      refine ⟨rfl, hok, hcap, ?_⟩
      simp [gooz_add_cylinder, hc, h]
    · right
      obtain ⟨h1, h2, h3, h4⟩ := stored_push ok st
        { x := x, y := y, type := GoozFormType.FORM_CYLINDER,
          shape := GoozShape.cylinder radius height,
          state := { idx_key := (ensure_capacity ok st 1).2.nbr_forms, cur_layer := 0,
                     tot_layer := compute_nbr_pass height ps.layer_height,
                     height_layer := height / (compute_nbr_pass height ps.layer_height : α) } }
        hlen hle hrc
      have hE : gooz_add_cylinder ps ok st x y radius height =
          (0, { (ensure_capacity ok st 1).2 with
                forms := (ensure_capacity ok st 1).2.forms.set (ensure_capacity ok st 1).2.nbr_forms
                  { x := x, y := y, type := GoozFormType.FORM_CYLINDER,
                    shape := GoozShape.cylinder radius height,
                    state := { idx_key := (ensure_capacity ok st 1).2.nbr_forms, cur_layer := 0,
                               tot_layer := compute_nbr_pass height ps.layer_height,
                               height_layer :=
                                 height / (compute_nbr_pass height ps.layer_height : α) } },
                nbr_forms := (ensure_capacity ok st 1).2.nbr_forms + 1 }) := by
        simp [gooz_add_cylinder, hc, hrc]
      have hroom : ok = true ∨ st.nbr_forms < st.capacity := by
        by_contra hcon
        push_neg at hcon
        have hf : ok = false := by simpa using hcon.1
        have : ensure_capacity ok st 1 = (-1, st) := by
          simp [ensure_capacity, hf]
          omega
        rw [this] at hrc
        simp at hrc
      rw [hE]
      refine ⟨rfl, hroom, rfl, ?_, h2, h3, ?_⟩
      · simp only [h4]
      · simp only [GoozState.stored]
        rw [h1, h4]
        rfl

/-- Layers planned by `compute_nbr_pass` tile the height they were planned
for. -/
theorem planned_layers_tile (height layer_height : α) :
    1 ≤ compute_nbr_pass height layer_height ∧
    (compute_nbr_pass height layer_height : α) *
      (height / (compute_nbr_pass height layer_height : α)) = height := by
  have h1 := one_le_compute_nbr_pass height layer_height
  have h0 : (compute_nbr_pass height layer_height : α) ≠ 0 := by
    have : (0 : α) < (compute_nbr_pass height layer_height : α) := by exact_mod_cast h1
    exact ne_of_gt this
  exact ⟨h1, by field_simp⟩

theorem wf_add_cube (ps : GoozPrintSettings α) (ok : Bool) (st : GoozState α) (x y size : α)
    (h : st.WF ps) : (gooz_add_cube ps ok st x y size).2.WF ps := by
  rcases gooz_add_cube_spec ps ok st x y size h.len h.le with
    ⟨_, hE⟩ | ⟨_, _, _, hE⟩ | ⟨hc, _, _, _, hlen, hle, hst⟩
  · rw [hE]; exact h
  · rw [hE]; exact h
  · obtain ⟨hw, hh, hx, hy, hbw, hbd, hbh⟩ := (check_within_build_eq_true_iff ps _ _ _ _).mp hc
    exact wf_push ps st _ _ h hlen hle hst rfl ⟨hx, hbw, hy, hbd, hh, hbh⟩
      (planned_layers_tile size ps.layer_height)

theorem wf_add_cylinder (ps : GoozPrintSettings α) (ok : Bool) (st : GoozState α)
    (x y radius height : α) (h : st.WF ps) :
    (gooz_add_cylinder ps ok st x y radius height).2.WF ps := by
  rcases gooz_add_cylinder_spec ps ok st x y radius height h.len h.le with
    ⟨_, hE⟩ | ⟨_, _, _, hE⟩ | ⟨hc, _, _, _, hlen, hle, hst⟩
  · rw [hE]; exact h
  · rw [hE]; exact h
  · obtain ⟨hw, hh, hx, hy, hbw, hbd, hbh⟩ := (check_within_build_eq_true_iff ps _ _ _ _).mp hc
    exact wf_push ps st _ _ h hlen hle hst rfl ⟨hx, hbw, hy, hbd, hh, hbh⟩
      (planned_layers_tile height ps.layer_height)

theorem fresh_add_cube (ps : GoozPrintSettings α) (ok : Bool) (st : GoozState α) (x y size : α)
    (h : st.WF ps) (hf : st.fresh) : (gooz_add_cube ps ok st x y size).2.fresh := by
  rcases gooz_add_cube_spec ps ok st x y size h.len h.le with
    ⟨_, hE⟩ | ⟨_, _, _, hE⟩ | ⟨_, _, _, _, _, _, hst⟩
  · rw [hE]; exact hf
  · rw [hE]; exact hf
  · intro g hg
    rw [hst, List.mem_append, List.mem_singleton] at hg
    rcases hg with hg | rfl
    · exact hf g hg
    · rfl

theorem fresh_add_cylinder (ps : GoozPrintSettings α) (ok : Bool) (st : GoozState α)
    (x y radius height : α) (h : st.WF ps) (hf : st.fresh) :
    (gooz_add_cylinder ps ok st x y radius height).2.fresh := by
  rcases gooz_add_cylinder_spec ps ok st x y radius height h.len h.le with
    ⟨_, hE⟩ | ⟨_, _, _, hE⟩ | ⟨_, _, _, _, _, _, hst⟩
  · rw [hE]; exact hf
  · rw [hE]; exact hf
  · intro g hg
    rw [hst, List.mem_append, List.mem_singleton] at hg
    rcases hg with hg | rfl
    · exact hf g hg
    · rfl

/-- Registries built by registrations alone are well formed and fresh. -/
theorem registered_wf_fresh (ps : GoozPrintSettings α) (st : GoozState α)
    (h : Registered ps st) : st.WF ps ∧ st.fresh := by
  induction h with
  | init => exact ⟨wf_init ps, by intro f hf; simp [GoozState.stored, GoozState.init] at hf⟩
  | add_cube ok x y size _ ih =>
    exact ⟨wf_add_cube ps ok _ x y size ih.1, fresh_add_cube ps ok _ x y size ih.1 ih.2⟩
  | add_cylinder ok x y radius height _ ih =>
    exact ⟨wf_add_cylinder ps ok _ x y radius height ih.1,
      fresh_add_cylinder ps ok _ x y radius height ih.1 ih.2⟩
  | free _ _ =>
    exact ⟨wf_free ps _, by intro f hf; simp [GoozState.stored, gooz_free] at hf⟩

end RegistryLemmas

/-! ## The scheduler -/

section SchedLemmas

variable {α : Type} [LinearOrderedField α]

omit [LinearOrderedField α] in
theorem get_form_idx_from_key (L : List (GoozForm α)) (base k : Nat)
    (hkey : ∀ (i : Nat) (f : GoozForm α), L[i]? = some f → f.state.idx_key = base + i)
    (hk : k < L.length) : get_form_idx_from L base (base + k) = some (base + k) := by
  induction L generalizing base k with
  | nil => simp at hk
  | cons f fs ih =>
    have h0 : f.state.idx_key = base := by simpa using hkey 0 f (by simp)
    cases k with
    | zero => simp [get_form_idx_from, h0]
    | succ k =>
      have hne : ¬ (f.state.idx_key = base + (k + 1)) := by omega
      simp only [get_form_idx_from, hne, if_false]
      have := ih (base + 1) k
        (fun i g hg => by
          have := hkey (i + 1) g (by simpa using hg)
          omega)
        (by simpa using hk)
      rw [show base + (k + 1) = base + 1 + k by omega]
      exact this

/-- In a well-formed registry the key `k` of a registered shape resolves to
slot `k`. -/
theorem get_form_idx_of_wf (ps : GoozPrintSettings α) (st : GoozState α) (h : st.WF ps)
    (k : Nat) (hk : k < st.nbr_forms) : get_form_idx st k = some k := by
  have hl := stored_length st h.len h.le
  have := get_form_idx_from_key st.stored 0 k
    (fun i f hf => by simpa using h.key i f hf) (by omega)
  simpa [get_form_idx, GoozState.stored] using this

/-- Advancing the layer cursor of a registered shape keeps the registry well
formed. -/
theorem wf_incr (ps : GoozPrintSettings α) (st : GoozState α) (h : st.WF ps) (k : Nat)
    (cur : GoozForm α) (hcur : st.forms[k]? = some cur) (hk : k < st.nbr_forms) :
    GoozState.WF ps { st with forms := st.forms.set k cur.incr_cur_layer } where
  len := by simpa using h.len
  le := h.le
  key := by
    intro i f hf
    simp only [GoozState.stored, List.set_take] at hf
    rw [List.getElem?_set] at hf
    split_ifs at hf with h1 h2
    · have hc : st.stored[k]? = some cur := by
        simp only [GoozState.stored, List.getElem?_take, hk, if_true, hcur]
      have := h.key k cur hc
      simp only [Option.some.injEq] at hf
      rw [← hf, ← h1]
      exact this
    · exact h.key i f hf
  inside := by
    intro f hf
    simp only [GoozState.stored, List.set_take] at hf
    rcases List.mem_or_eq_of_mem_set hf with hf | rfl
    · exact h.inside f hf
    · have hc : cur ∈ st.stored := by
        rw [List.mem_iff_getElem?]
        exact ⟨k, by simp only [GoozState.stored, List.getElem?_take, hk, if_true, hcur]⟩
      exact h.inside cur hc
  tiled := by
    intro f hf
    simp only [GoozState.stored, List.set_take] at hf
    rcases List.mem_or_eq_of_mem_set hf with hf | rfl
    · exact h.tiled f hf
    · have hc : cur ∈ st.stored := by
        rw [List.mem_iff_getElem?]
        exact ⟨k, by simp only [GoozState.stored, List.getElem?_take, hk, if_true, hcur]⟩
      exact h.tiled cur hc

/-- One iteration of the inner loop from a safe state, at an active index
`i`: every read is in bounds, the key read from `active_idxs` resolves to its
own slot, and the state after the iteration is the one displayed. -/
theorem sched_visit_spec (ps : GoozPrintSettings α) (n : Nat) (rand : Nat → Nat) (l i : Nat)
    (s : GoozSched α) (hs : SchedSafe ps n s) (hi : i < s.nbr_active_forms) :
    ∃ (temp key last : Nat) (cur : GoozForm α),
      s.active_idxs[i]? = some temp ∧
      s.active_idxs[rand s.rand_calls % (i + 1)]? = some key ∧
      key < n ∧ s.st.forms[key]? = some cur ∧
      ((s.active_idxs.set i key).set (rand s.rand_calls % (i + 1)) temp)[i]? = some key ∧
      ((s.active_idxs.set i key).set (rand s.rand_calls % (i + 1)) temp)[s.nbr_active_forms - 1]?
        = some last ∧
      sched_visit rand l i s = some
        (if cur.state.cur_layer + 1 > cur.state.tot_layer then
          { st := { s.st with forms := s.st.forms.set key cur.incr_cur_layer },
            active_idxs :=
              ((s.active_idxs.set i key).set (rand s.rand_calls % (i + 1)) temp).set i last,
            nbr_active_forms := s.nbr_active_forms - 1,
            rand_calls := s.rand_calls + 1, out := s.out }
        else
          { st := { s.st with forms := s.st.forms.set key cur.incr_cur_layer },
            active_idxs := (s.active_idxs.set i key).set (rand s.rand_calls % (i + 1)) temp,
            nbr_active_forms := s.nbr_active_forms,
            rand_calls := s.rand_calls + 1,
            out := s.out ++ [GoozOut.dispatch
              { l := l, slot := key, form := cur.incr_cur_layer,
                calls := dispatch_calls cur.incr_cur_layer.type }] }) := by
  have hm := hs.m_le
  have hal := hs.alen
  have hr : rand s.rand_calls % (i + 1) < i + 1 := Nat.mod_lt _ (by omega)
  obtain ⟨temp, htemp⟩ : ∃ temp, s.active_idxs[i]? = some temp :=
    ⟨s.active_idxs[i], List.getElem?_eq_getElem (by omega)⟩
  obtain ⟨key, hkey⟩ : ∃ key, s.active_idxs[rand s.rand_calls % (i + 1)]? = some key :=
    ⟨s.active_idxs[rand s.rand_calls % (i + 1)], List.getElem?_eq_getElem (by omega)⟩
  have hkn : key < n := hs.abound _ _ hkey
  have hlen := hs.wf.len
  have hle := hs.wf.le
  have hnbr := hs.nbr
  obtain ⟨cur, hcur⟩ : ∃ cur, s.st.forms[key]? = some cur :=
    ⟨s.st.forms[key], List.getElem?_eq_getElem (by omega)⟩
  have hswap : ((s.active_idxs.set i key).set (rand s.rand_calls % (i + 1)) temp)[i]?
      = some key := by
    rw [List.getElem?_set]
    split_ifs with h1 h2
    · rw [h1] at hkey
      rw [htemp] at hkey
      exact hkey
    · simp only [List.length_set] at h2
      omega
    · rw [List.getElem?_set]
      simp only [if_true]
      rw [if_pos (by omega)]
  obtain ⟨last, hlast⟩ : ∃ last,
      ((s.active_idxs.set i key).set (rand s.rand_calls % (i + 1)) temp)[s.nbr_active_forms - 1]?
        = some last :=
    ⟨_, List.getElem?_eq_getElem (by simp only [List.length_set]; omega)⟩
  have hget : get_form_idx s.st key = some key :=
    get_form_idx_of_wf ps s.st hs.wf key (by omega)
  have hm0 : ¬ (s.nbr_active_forms = 0) := by omega
  refine ⟨temp, key, last, cur, htemp, hkey, hkn, hcur, hswap, hlast, ?_⟩
  simp only [sched_visit, htemp, hkey, hswap, hget, hcur, hm0, hlast, if_false]
  by_cases hc : cur.state.cur_layer + 1 > cur.state.tot_layer
  · have hc1 : cur.incr_cur_layer.state.cur_layer > cur.incr_cur_layer.state.tot_layer := hc
    rw [if_pos hc, if_pos hc1]
  · have hc1 : ¬ (cur.incr_cur_layer.state.cur_layer > cur.incr_cur_layer.state.tot_layer) := hc
    rw [if_neg hc, if_neg hc1]

omit [LinearOrderedField α] in
theorem at_layer_incr (cur : GoozForm α) (c : Nat) :
    cur.incr_cur_layer.at_layer c = cur.at_layer c := rfl

theorem set_of_getElem? {β : Type} (L : List β) (k : Nat) (b : β) (h : L[k]? = some b) :
    L.set k b = L := by
  apply List.ext_getElem?
  intro j
  rw [List.getElem?_set]
  split_ifs with h1 h2
  · rw [← h1, h]
  · rw [← h1, List.getElem?_eq_none (by omega)]
  · rfl

omit [LinearOrderedField α] in
/-- Advancing a layer cursor changes nothing of the registry but that cursor. -/
theorem frame_incr (forms : List (GoozForm α)) (k : Nat) (cur : GoozForm α)
    (h : forms[k]? = some cur) :
    (forms.set k cur.incr_cur_layer).map (fun f => f.at_layer 0)
      = forms.map (fun f => f.at_layer 0) := by
  rw [List.map_set]
  apply set_of_getElem?
  rw [List.getElem?_map, h]
  rfl

theorem bound_set (a : List Nat) (n i v : Nat)
    (h : ∀ (j k : Nat), a[j]? = some k → k < n) (hv : v < n) :
    ∀ (j k : Nat), (a.set i v)[j]? = some k → k < n := by
  intro j k hjk
  rw [List.getElem?_set] at hjk
  split_ifs at hjk with h1 h2
  · simp only [Option.some.injEq] at hjk
    omega
  · exact h j k hjk

/-- One iteration of the inner loop from a safe state returns, keeps the
state safe, changes no field of the registry but layer cursors, and removes
at most the visited entry from the active set. -/
theorem sched_visit_safe (ps : GoozPrintSettings α) (n : Nat) (rand : Nat → Nat) (l i : Nat)
    (s : GoozSched α) (hs : SchedSafe ps n s) (hi : i < s.nbr_active_forms) :
    ∃ s1, sched_visit rand l i s = some s1 ∧ SchedSafe ps n s1 ∧
      i ≤ s1.nbr_active_forms ∧ s1.nbr_active_forms ≤ s.nbr_active_forms ∧
      s1.st.forms.map (fun f => f.at_layer 0) = s.st.forms.map (fun f => f.at_layer 0) := by
  obtain ⟨temp, key, last, cur, htemp, hkey, hkn, hcur, _, hlast, hE⟩ :=
    sched_visit_spec ps n rand l i s hs hi
  have hb1 := bound_set s.active_idxs n i key hs.abound hkn
  have hb2 := bound_set _ n (rand s.rand_calls % (i + 1)) temp hb1 (hs.abound _ _ htemp)
  have hb3 := bound_set _ n i last hb2 (hb2 _ _ hlast)
  have hwf := wf_incr ps s.st hs.wf key cur hcur (by rw [hs.nbr]; exact hkn)
  have hfr := frame_incr s.st.forms key cur hcur
  refine ⟨_, hE, ?_⟩
  split_ifs with hc
  · refine ⟨⟨hwf, hs.nbr, ?_, hb3, ?_⟩, ?_, ?_, hfr⟩
    · simp only [List.length_set]
      exact hs.alen
    · have := hs.m_le
      show s.nbr_active_forms - 1 ≤ n
      omega
    · show i ≤ s.nbr_active_forms - 1
      omega
    · show s.nbr_active_forms - 1 ≤ s.nbr_active_forms
      omega
  · refine ⟨⟨hwf, hs.nbr, ?_, hb2, hs.m_le⟩, Nat.le_of_lt hi, le_rfl, hfr⟩
    simp only [List.length_set]
    exact hs.alen

/-- The inner loop, started with `cnt` active entries still to visit, runs to
its end from every safe state. -/
theorem sched_round_from_safe (ps : GoozPrintSettings α) (n : Nat) (rand : Nat → Nat) (l : Nat)
    (cnt : Nat) (s : GoozSched α) (hs : SchedSafe ps n s) (hcnt : cnt ≤ s.nbr_active_forms) :
    ∃ s1, sched_round_from rand l cnt s = some s1 ∧ SchedSafe ps n s1 ∧
      s1.nbr_active_forms ≤ s.nbr_active_forms ∧
      s1.st.forms.map (fun f => f.at_layer 0) = s.st.forms.map (fun f => f.at_layer 0) := by
  induction cnt generalizing s with
  | zero => exact ⟨s, rfl, hs, le_rfl, rfl⟩
  | succ i ih =>
    obtain ⟨s1, h1, hs1, hi1, hm1, hf1⟩ := sched_visit_safe ps n rand l i s hs (by omega)
    obtain ⟨s2, h2, hs2, hm2, hf2⟩ := ih s1 hs1 hi1
    refine ⟨s2, ?_, hs2, by omega, by rw [hf2, hf1]⟩
    simp only [sched_round_from, h1, h2]

/-- The outer loop runs to its end from every safe state. -/
theorem sched_layers_safe (ps : GoozPrintSettings α) (n : Nat) (rand : Nat → Nat)
    (cnt l : Nat) (s : GoozSched α) (hs : SchedSafe ps n s) :
    ∃ s1, sched_layers rand cnt l s = some s1 ∧ SchedSafe ps n s1 ∧
      s1.nbr_active_forms ≤ s.nbr_active_forms ∧
      s1.st.forms.map (fun f => f.at_layer 0) = s.st.forms.map (fun f => f.at_layer 0) := by
  induction cnt generalizing s l with
  | zero => exact ⟨s, rfl, hs, le_rfl, rfl⟩
  | succ c ih =>
    obtain ⟨s1, h1, hs1, hm1, hf1⟩ := sched_round_from_safe ps n rand l _ s hs le_rfl
    obtain ⟨s2, h2, hs2, hm2, hf2⟩ := ih (l + 1) s1 hs1
    refine ⟨s2, ?_, hs2, by omega, by rw [hf2, hf1]⟩
    simp only [sched_layers, sched_round, h1, h2]

omit [LinearOrderedField α] in
theorem getElem?_range_zero (n j : Nat) : (range 0 n)[j]? = if j < n then some j else none := by
  simp only [range, Nat.sub_zero, Nat.add_zero, List.map_id']
  split_ifs with h
  · exact List.getElem?_range h
  · exact List.getElem?_eq_none (by simp; omega)

/-- The state in which the outer loop is entered is safe. -/
theorem sched_init_safe (ps : GoozPrintSettings α) (st : GoozState α) (h : st.WF ps) :
    SchedSafe ps st.nbr_forms (sched_init st) where
  wf := h
  nbr := rfl
  alen := by simp [sched_init, range]
  abound := by
    intro j k hjk
    simp only [sched_init, getElem?_range_zero] at hjk
    split_ifs at hjk with h1
    simp only [Option.some.injEq] at hjk
    omega
  m_le := le_rfl

/-- On a well-formed registry `gooz_generate_gcode` runs to its end, for
every sequence of random draws; the registry it leaves is well formed, has
the same shapes in the same slots, and differs from the initial one in layer
cursors only. -/
theorem gooz_generate_gcode_total (ps : GoozPrintSettings α) (rand : Nat → Nat)
    (st : GoozState α) (h : st.WF ps) :
    ∃ st1 out, gooz_generate_gcode rand st = some (st1, out) ∧ st1.WF ps ∧
      st1.nbr_forms = st.nbr_forms ∧
      st1.forms.map (fun f => f.at_layer 0) = st.forms.map (fun f => f.at_layer 0) := by
  obtain ⟨s1, h1, hs1, _, hf1⟩ :=
    sched_layers_safe ps st.nbr_forms rand (max_nbr_layers st) 1 (sched_init st)
      (sched_init_safe ps st h)
  refine ⟨s1.st, s1.out ++ [GoozOut.emit_shutdown], ?_, hs1.wf, hs1.nbr, hf1⟩
  simp only [gooz_generate_gcode, h1]

/-- Every registry reachable through the public interface is well formed. -/
theorem reachable_wf (ps : GoozPrintSettings α) [FloorRing α] (st : GoozState α)
    (h : Reachable ps st) : st.WF ps := by
  induction h with
  | init => exact wf_init ps
  | add_cube ok x y size _ ih => exact wf_add_cube ps ok _ x y size ih
  | add_cylinder ok x y radius height _ ih => exact wf_add_cylinder ps ok _ x y radius height ih
  | free _ _ => exact wf_free ps _
  | generate rand _ hg ih =>
    obtain ⟨st1, out, hE, hwf, _, _⟩ := gooz_generate_gcode_total ps rand _ ih
    rw [hE] at hg
    simp only [Option.some.injEq, Prod.mk.injEq] at hg
    rw [← hg.1]
    exact hwf

theorem swap_get (a : List Nat) (i r temp key : Nat) (hi : a[i]? = some temp)
    (hr : a[r]? = some key) (j : Nat) :
    ((a.set i key).set r temp)[j]? = a[swap_pos i r j]? := by
  have hil : i < a.length := (List.getElem?_eq_some.mp hi).1
  have hrl : r < a.length := (List.getElem?_eq_some.mp hr).1
  unfold swap_pos
  rw [List.getElem?_set, List.getElem?_set]
  simp only [List.length_set]
  by_cases h1 : j = r
  · subst h1
    simp only [if_true, hrl, hi]
  · have h1b : ¬ (r = j) := fun h => h1 h.symm
    simp only [h1, h1b, if_false]
    by_cases h2 : j = i
    · subst h2
      simp only [if_true, hil, hr]
    · have h2b : ¬ (i = j) := fun h => h2 h.symm
      simp only [h2, h2b, if_false]

theorem compact_get (a : List Nat) (i m last : Nat) (hi : i < a.length)
    (hm : a[m]? = some last) (j : Nat) :
    (a.set i last)[j]? = a[compact_pos i m j]? := by
  unfold compact_pos
  rw [List.getElem?_set]
  by_cases h1 : j = i
  · subst h1
    simp only [if_true, hi, hm]
  · have h1b : ¬ (i = j) := fun h => h1 h.symm
    simp only [h1, h1b, if_false]

end SchedLemmas

section SchedInvLemmas

variable {α : Type}

theorem dispatches_of_append (k : Nat) (xs ys : List (GoozOut α)) :
    dispatches_of k (xs ++ ys) = dispatches_of k xs ++ dispatches_of k ys := by
  induction xs with
  | nil => rfl
  | cons x xs ih =>
    cases x with
    | emit_startup => simpa [dispatches_of] using ih
    | emit_shutdown => simpa [dispatches_of] using ih
    | dispatch d =>
      by_cases h : d.slot = k
      · simp [dispatches_of, h, ih]
      · simp [dispatches_of, h, ih]

theorem layers_upto_succ (f : GoozForm α) (c : Nat) :
    layers_upto f (c + 1) = layers_upto f c ++ [(c + 1, f.at_layer (c + 1))] := by
  simp [layers_upto, List.range_succ]

theorem layers_upto_incr (f : GoozForm α) (c : Nat) :
    layers_upto f.incr_cur_layer c = layers_upto f c := rfl

/-- The invariant passes through an iteration of the inner loop that
dispatches the visited shape. -/
theorem sched_inv_keep (n l i r temp key rc : Nat) (cur : GoozForm α) (s : GoozSched α)
    (hinv : SchedInv n l (i + 1) s) (hr : r ≤ i)
    (htemp : s.active_idxs[i]? = some temp) (hkey : s.active_idxs[r]? = some key)
    (hkn : key < n) (hcur : s.st.forms[key]? = some cur)
    (hc : ¬ (cur.state.cur_layer + 1 > cur.state.tot_layer)) :
    SchedInv n l i
      { st := { s.st with forms := s.st.forms.set key cur.incr_cur_layer },
        active_idxs := (s.active_idxs.set i key).set r temp,
        nbr_active_forms := s.nbr_active_forms,
        rand_calls := rc,
        out := s.out ++ [GoozOut.dispatch
          { l := l, slot := key, form := cur.incr_cur_layer,
            calls := dispatch_calls cur.incr_cur_layer.type }] } := by
  have hm : i + 1 ≤ s.nbr_active_forms := hinv.cnt_le
  have hread := swap_get s.active_idxs i r temp key htemp hkey
  have hct := hinv.todo r key cur (by omega) hkey hcur
  have hkl : key < s.st.forms.length := (List.getElem?_eq_some.mp hcur).1
  have hother : ∀ (j k : Nat), j < s.nbr_active_forms → j ≠ r →
      s.active_idxs[j]? = some k → k ≠ key := by
    intro j k hj hjr hjk hk
    rw [hk] at hjk
    exact hjr (hinv.ainj j r key hj (by omega) hjk hkey)
  refine ⟨?_, ?_, ?_, ?_, ?_, ?_, ?_⟩
  · show i ≤ s.nbr_active_forms
    omega
  · intro j1 j2 k h1 h2 e1 e2
    simp only [hread] at e1 e2 h1 h2
    have := hinv.ainj _ _ k
      (by unfold swap_pos; split_ifs <;> omega) (by unfold swap_pos; split_ifs <;> omega) e1 e2
    unfold swap_pos at this
    split_ifs at this <;> omega
  · intro j k f hj hjk hf
    simp only [hread] at hjk hf
    have hne : k ≠ key :=
      hother _ k (by unfold swap_pos; split_ifs <;> omega)
        (by unfold swap_pos; split_ifs <;> omega) hjk
    rw [List.getElem?_set_ne (fun h => hne h.symm)] at hf
    exact hinv.todo _ k f (by unfold swap_pos; split_ifs <;> omega) hjk hf
  · intro j k f hij hj hjk hf
    simp only [hread] at hjk hf hj
    rcases Nat.eq_or_lt_of_le hij with h | h
    · -- the visited entry itself
      have hki : swap_pos i r j = r := by unfold swap_pos; split_ifs <;> omega
      rw [hki, hkey] at hjk
      simp only [Option.some.injEq] at hjk
      subst hjk
      rw [List.getElem?_set, if_pos rfl, if_pos hkl] at hf
      simp only [Option.some.injEq] at hf
      subst hf
      show cur.state.cur_layer + 1 = l ∧ l ≤ cur.state.tot_layer
      omega
    · have hne : k ≠ key :=
        hother _ k (by unfold swap_pos; split_ifs <;> omega)
          (by unfold swap_pos; split_ifs <;> omega) hjk
      rw [List.getElem?_set_ne (fun h => hne h.symm)] at hf
      exact hinv.done _ k f (by unfold swap_pos; split_ifs <;> omega)
        (by unfold swap_pos; split_ifs <;> omega) hjk hf
  · intro k f hk hnot hf
    simp only [hread] at hnot hf
    have hnot1 : ∀ j, j < s.nbr_active_forms → s.active_idxs[j]? ≠ some k := by
      intro j hj hjk
      refine hnot (swap_pos i r j) (by unfold swap_pos; split_ifs <;> omega) ?_
      have : swap_pos i r (swap_pos i r j) = j := by
        unfold swap_pos; split_ifs <;> omega
      rw [this]
      exact hjk
    have hne : k ≠ key := by
      intro h
      rw [← h] at hkey
      exact hnot1 r (by omega) hkey
    rw [List.getElem?_set_ne (fun h => hne h.symm)] at hf
    exact hinv.gone k f hk hnot1 hf
  · intro k f hk hf
    simp only [dispatches_of_append] at hf ⊢
    by_cases hkk : k = key
    · subst hkk
      rw [List.getElem?_set, if_pos rfl, if_pos hkl] at hf
      simp only [Option.some.injEq] at hf
      subst hf
      have hold := hinv.out_ok k cur hk hcur
      have h1 : min cur.incr_cur_layer.state.cur_layer cur.incr_cur_layer.state.tot_layer
          = min cur.state.cur_layer cur.state.tot_layer + 1 := by
        show min (cur.state.cur_layer + 1) cur.state.tot_layer = _
        omega
      have h2 : min cur.state.cur_layer cur.state.tot_layer + 1 = cur.state.cur_layer + 1 := by
        omega
      rw [h1, layers_upto_succ, layers_upto_incr, hold]
      simp only [dispatches_of, if_true, h2, ← hct.1]
      rfl
    · rw [List.getElem?_set_ne (fun h => hkk h.symm)] at hf
      have hold := hinv.out_ok k f hk hf
      have hkk2 : ¬ (key = k) := fun h => hkk h.symm
      simp only [dispatches_of, hkk2, if_false, List.append_nil]
      exact hold
  · intro d hd
    rcases List.mem_append.mp hd with hd | hd
    · exact hinv.out_slot d hd
    · simp only [List.mem_singleton, GoozOut.dispatch.injEq] at hd
      subst hd
      refine ⟨hkn, ?_, rfl⟩
      show cur.state.cur_layer + 1 ≤ cur.state.tot_layer
      omega

/-- The invariant passes through an iteration of the inner loop that removes
the visited shape from the active set. -/
theorem sched_inv_drop (n l i r temp key last rc : Nat) (cur : GoozForm α) (s : GoozSched α)
    (hinv : SchedInv n l (i + 1) s) (hr : r ≤ i)
    (htemp : s.active_idxs[i]? = some temp) (hkey : s.active_idxs[r]? = some key)
    (hcur : s.st.forms[key]? = some cur)
    (hlast : ((s.active_idxs.set i key).set r temp)[s.nbr_active_forms - 1]? = some last)
    (hc : cur.state.cur_layer + 1 > cur.state.tot_layer) :
    SchedInv n l i
      { st := { s.st with forms := s.st.forms.set key cur.incr_cur_layer },
        active_idxs := ((s.active_idxs.set i key).set r temp).set i last,
        nbr_active_forms := s.nbr_active_forms - 1,
        rand_calls := rc,
        out := s.out } := by
  have hm : i + 1 ≤ s.nbr_active_forms := hinv.cnt_le
  have hil : i < s.active_idxs.length := (List.getElem?_eq_some.mp htemp).1
  have hread : ∀ j, (((s.active_idxs.set i key).set r temp).set i last)[j]?
      = s.active_idxs[swap_pos i r (compact_pos i (s.nbr_active_forms - 1) j)]? := by
    intro j
    rw [compact_get _ i (s.nbr_active_forms - 1) last (by simpa using hil) hlast j,
      swap_get s.active_idxs i r temp key htemp hkey]
  have hct := hinv.todo r key cur (by omega) hkey hcur
  have hkl : key < s.st.forms.length := (List.getElem?_eq_some.mp hcur).1
  have hother : ∀ (j k : Nat), j < s.nbr_active_forms → j ≠ r →
      s.active_idxs[j]? = some k → k ≠ key := by
    intro j k hj hjr hjk hk
    rw [hk] at hjk
    exact hjr (hinv.ainj j r key hj (by omega) hjk hkey)
  refine ⟨?_, ?_, ?_, ?_, ?_, ?_, ?_⟩
  · show i ≤ s.nbr_active_forms - 1
    omega
  · intro j1 j2 k h1 h2 e1 e2
    simp only [hread] at e1 e2 h1 h2
    have := hinv.ainj _ _ k
      (by unfold swap_pos compact_pos; split_ifs <;> omega)
      (by unfold swap_pos compact_pos; split_ifs <;> omega) e1 e2
    unfold swap_pos compact_pos at this
    split_ifs at this <;> omega
  · intro j k f hj hjk hf
    simp only [hread] at hjk hf
    have hne : k ≠ key :=
      hother _ k (by unfold swap_pos compact_pos; split_ifs <;> omega)
        (by unfold swap_pos compact_pos; split_ifs <;> omega) hjk
    rw [List.getElem?_set_ne (fun h => hne h.symm)] at hf
    exact hinv.todo _ k f (by unfold swap_pos compact_pos; split_ifs <;> omega) hjk hf
  · intro j k f hij hj hjk hf
    simp only [hread] at hjk hf hj
    have hne : k ≠ key :=
      hother _ k (by unfold swap_pos compact_pos; split_ifs <;> omega)
        (by unfold swap_pos compact_pos; split_ifs <;> omega) hjk
    rw [List.getElem?_set_ne (fun h => hne h.symm)] at hf
    exact hinv.done _ k f (by unfold swap_pos compact_pos; split_ifs <;> omega)
      (by unfold swap_pos compact_pos; split_ifs <;> omega) hjk hf
  · intro k f hk hnot hf
    simp only [hread] at hnot hf
    by_cases hkk : k = key
    · subst hkk
      rw [List.getElem?_set, if_pos rfl, if_pos hkl] at hf
      simp only [Option.some.injEq] at hf
      subst hf
      show cur.state.cur_layer + 1 = cur.state.tot_layer + 1 ∧ cur.state.tot_layer < l
      omega
    · have hnot1 : ∀ j, j < s.nbr_active_forms → s.active_idxs[j]? ≠ some k := by
        intro j hj hjk
        have hjr : j ≠ r := by
          intro h
          rw [h, hkey] at hjk
          simp only [Option.some.injEq] at hjk
          exact hkk hjk.symm
        refine hnot (if swap_pos i r j = s.nbr_active_forms - 1 then i else swap_pos i r j)
          (by unfold swap_pos; split_ifs <;> omega) ?_
        have : swap_pos i r (compact_pos i (s.nbr_active_forms - 1)
            (if swap_pos i r j = s.nbr_active_forms - 1 then i else swap_pos i r j)) = j := by
          unfold swap_pos compact_pos; split_ifs <;> omega
        rw [this]
        exact hjk
      rw [List.getElem?_set_ne (fun h => hkk h.symm)] at hf
      exact hinv.gone k f hk hnot1 hf
  · intro k f hk hf
    by_cases hkk : k = key
    · subst hkk
      rw [List.getElem?_set, if_pos rfl, if_pos hkl] at hf
      simp only [Option.some.injEq] at hf
      subst hf
      have hold := hinv.out_ok k cur hk hcur
      have h1 : min cur.incr_cur_layer.state.cur_layer cur.incr_cur_layer.state.tot_layer
          = min cur.state.cur_layer cur.state.tot_layer := by
        show min (cur.state.cur_layer + 1) cur.state.tot_layer = _
        omega
      rw [h1, layers_upto_incr]
      exact hold
    · rw [List.getElem?_set_ne (fun h => hkk h.symm)] at hf
      exact hinv.out_ok k f hk hf
  · exact hinv.out_slot

end SchedInvLemmas

section SchedRun

variable {α : Type} [LinearOrderedField α]

/-- The invariant passes through every iteration of the inner loop. -/
theorem sched_visit_inv (ps : GoozPrintSettings α) (n : Nat) (rand : Nat → Nat) (l i : Nat)
    (s s1 : GoozSched α) (hs : SchedSafe ps n s) (hinv : SchedInv n l (i + 1) s)
    (h : sched_visit rand l i s = some s1) : SchedInv n l i s1 := by
  obtain ⟨temp, key, last, cur, htemp, hkey, hkn, hcur, _, hlast, hE⟩ :=
    sched_visit_spec ps n rand l i s hs hinv.cnt_le
  have hr : rand s.rand_calls % (i + 1) ≤ i :=
    Nat.le_of_lt_succ (Nat.mod_lt _ (by omega))
  rw [hE] at h
  simp only [Option.some.injEq] at h
  subst h
  split_ifs with hc
  · exact sched_inv_drop n l i _ temp key last _ cur s hinv hr htemp hkey hcur hlast hc
  · exact sched_inv_keep n l i _ temp key _ cur s hinv hr htemp hkey hkn hcur hc

/-- The inner loop establishes the end-of-round invariant. -/
theorem sched_round_from_inv (ps : GoozPrintSettings α) (n : Nat) (rand : Nat → Nat) (l : Nat)
    (cnt : Nat) (s : GoozSched α) (hs : SchedSafe ps n s) (hinv : SchedInv n l cnt s) :
    ∃ s1, sched_round_from rand l cnt s = some s1 ∧ SchedSafe ps n s1 ∧ SchedInv n l 0 s1 ∧
      s1.st.forms.map (fun f => f.at_layer 0) = s.st.forms.map (fun f => f.at_layer 0) := by
  induction cnt generalizing s with
  | zero => exact ⟨s, rfl, hs, hinv, rfl⟩
  | succ i ih =>
    obtain ⟨s1, h1, hs1, _, _, hf1⟩ := sched_visit_safe ps n rand l i s hs hinv.cnt_le
    obtain ⟨s2, h2, hs2, hinv2, hf2⟩ := ih s1 hs1 (sched_visit_inv ps n rand l i s s1 hs hinv h1)
    refine ⟨s2, ?_, hs2, hinv2, by rw [hf2, hf1]⟩
    simp only [sched_round_from, h1, h2]

omit [LinearOrderedField α] in
/-- The end-of-round invariant of round `l` is the start-of-round invariant
of round `l + 1`. -/
theorem sched_inv_next (n l : Nat) (s : GoozSched α) (hinv : SchedInv n l 0 s) :
    SchedInv n (l + 1) s.nbr_active_forms s where
  cnt_le := le_rfl
  ainj := hinv.ainj
  todo := by
    intro j k f hj hjk hf
    have := hinv.done j k f (Nat.zero_le _) hj hjk hf
    omega
  done := by
    intro j k f h1 h2
    omega
  gone := by
    intro k f hk hnot hf
    have := hinv.gone k f hk hnot hf
    omega
  out_ok := hinv.out_ok
  out_slot := hinv.out_slot

/-- The outer loop, run for `cnt` rounds from the start of round `l`, returns
in the start-of-round invariant of round `l + cnt`. -/
theorem sched_layers_inv (ps : GoozPrintSettings α) (n : Nat) (rand : Nat → Nat)
    (cnt l : Nat) (s : GoozSched α) (hs : SchedSafe ps n s)
    (hinv : SchedInv n l s.nbr_active_forms s) :
    ∃ s1, sched_layers rand cnt l s = some s1 ∧ SchedSafe ps n s1 ∧
      SchedInv n (l + cnt) s1.nbr_active_forms s1 ∧
      s1.st.forms.map (fun f => f.at_layer 0) = s.st.forms.map (fun f => f.at_layer 0) := by
  induction cnt generalizing s l with
  | zero => exact ⟨s, rfl, hs, hinv, rfl⟩
  | succ c ih =>
    obtain ⟨s1, h1, hs1, hinv1, hf1⟩ := sched_round_from_inv ps n rand l _ s hs hinv
    obtain ⟨s2, h2, hs2, hinv2, hf2⟩ := ih (l + 1) s1 hs1 (sched_inv_next n l s1 hinv1)
    refine ⟨s2, ?_, hs2, ?_, by rw [hf2, hf1]⟩
    · simp only [sched_layers, sched_round, h1, h2]
    · rw [show l + (c + 1) = l + 1 + c by omega]
      exact hinv2

omit [LinearOrderedField α] in
/-- The scheduler enters its outer loop in the start-of-round invariant of
round 1 when no registered shape has received a layer yet. -/
theorem sched_init_inv (st : GoozState α)
    (hf : st.fresh) : SchedInv st.nbr_forms 1 st.nbr_forms (sched_init st) where
  cnt_le := le_rfl
  ainj := by
    intro j1 j2 k h1 h2 e1 e2
    simp only [sched_init, getElem?_range_zero] at e1 e2 h1 h2
    rw [if_pos h1] at e1
    rw [if_pos h2] at e2
    simp only [Option.some.injEq] at e1 e2
    omega
  todo := by
    intro j k f hj hjk hfk
    simp only [sched_init, getElem?_range_zero, hj, if_true, Option.some.injEq] at hjk hfk
    have hmem : f ∈ st.stored := by
      rw [List.mem_iff_getElem?]
      refine ⟨k, ?_⟩
      simp only [GoozState.stored, List.getElem?_take]
      rw [if_pos (by omega)]
      exact hfk
    have := hf f hmem
    omega
  done := by
    intro j k f h1 h2
    simp only [sched_init] at h2
    omega
  gone := by
    intro k f hk hnot
    exact absurd (by simp only [sched_init, getElem?_range_zero, hk, if_true]) (hnot k hk)
  out_ok := by
    intro k f hk hfk
    have hmem : f ∈ st.stored := by
      rw [List.mem_iff_getElem?]
      refine ⟨k, ?_⟩
      simp only [GoozState.stored, List.getElem?_take]
      rw [if_pos hk]
      exact hfk
    have h0 := hf f hmem
    simp only [sched_init] at hfk ⊢
    rw [h0]
    simp [dispatches_of, layers_upto]
  out_slot := by
    intro d hd
    simp [sched_init] at hd

omit [LinearOrderedField α] in
theorem foldl_max_ge (L : List (GoozForm α)) (m : Nat) :
    m ≤ L.foldl (fun m f => if f.state.tot_layer > m then f.state.tot_layer else m) m ∧
    ∀ f, f ∈ L →
      f.state.tot_layer
        ≤ L.foldl (fun m f => if f.state.tot_layer > m then f.state.tot_layer else m) m := by
  induction L generalizing m with
  | nil => simp
  | cons g L ih =>
    simp only [List.foldl_cons, List.mem_cons]
    obtain ⟨h1, h2⟩ := ih (if g.state.tot_layer > m then g.state.tot_layer else m)
    have h3 : m ≤ (if g.state.tot_layer > m then g.state.tot_layer else m) ∧
        g.state.tot_layer ≤ (if g.state.tot_layer > m then g.state.tot_layer else m) := by
      split_ifs <;> omega
    refine ⟨by omega, ?_⟩
    rintro f (rfl | hf)
    · omega
    · exact h2 f hf

omit [LinearOrderedField α] in
/-- No registered shape has more layers than `max_nbr_layers`. -/
theorem tot_layer_le_max (st : GoozState α) (f : GoozForm α) (hf : f ∈ st.stored) :
    f.state.tot_layer ≤ max_nbr_layers st :=
  (foldl_max_ge st.stored 0).2 f hf

/-- The run of the scheduler on a fresh well-formed registry: it returns, and
the dispatches of every slot are the layers `1 .. tot_layer` of its shape, in
order, each in the round of its number. -/
theorem generate_fresh (ps : GoozPrintSettings α) (st : GoozState α) (hwf : st.WF ps)
    (hfresh : st.fresh) (rand : Nat → Nat) :
    ∃ st1 out, gooz_generate_gcode rand st = some (st1, out) ∧
      (∀ (k : Nat) (f : GoozForm α), k < st.nbr_forms → st.forms[k]? = some f →
        dispatches_of k out = layers_upto f f.state.tot_layer) ∧
      (∀ (d : GoozDispatch α), GoozOut.dispatch d ∈ out →
        d.slot < st.nbr_forms ∧ d.form.state.cur_layer ≤ d.form.state.tot_layer ∧
        d.calls = dispatch_calls d.form.type) := by
  obtain ⟨s1, h1, hs1, hinv, hfr⟩ :=
    sched_layers_inv ps st.nbr_forms rand (max_nbr_layers st) 1 (sched_init st)
      (sched_init_safe ps st hwf) (sched_init_inv st hfresh)
  refine ⟨s1.st, s1.out ++ [GoozOut.emit_shutdown], ?_, ?_, ?_⟩
  · simp only [gooz_generate_gcode, h1]
  · intro k f hk hf
    have hkl : k < s1.st.forms.length := by
      have := hs1.wf.len
      have := hs1.wf.le
      have := hs1.nbr
      omega
    obtain ⟨f1, hf1⟩ : ∃ f1, s1.st.forms[k]? = some f1 :=
      ⟨s1.st.forms[k], List.getElem?_eq_getElem hkl⟩
    have hsame : f1.at_layer 0 = f.at_layer 0 := by
      have := congrArg (fun L => L[k]?) hfr
      simp only [List.getElem?_map, hf1, sched_init, hf, Option.map_some',
        Option.some.injEq] at this
      exact this
    have htot : f1.state.tot_layer = f.state.tot_layer :=
      congrArg (fun g => g.state.tot_layer) hsame
    have hlay : ∀ c, layers_upto f1 c = layers_upto f c := by
      intro c
      simp only [layers_upto]
      apply List.map_congr_left
      intro d _
      have : f1.at_layer (d + 1) = f.at_layer (d + 1) :=
        congrArg (fun g => g.at_layer (d + 1)) hsame
      rw [this]
    have hmax : f.state.tot_layer ≤ max_nbr_layers st := by
      apply tot_layer_le_max
      rw [List.mem_iff_getElem?]
      refine ⟨k, ?_⟩
      simp only [GoozState.stored, List.getElem?_take]
      rw [if_pos hk]
      exact hf
    have hout := hinv.out_ok k f1 hk hf1
    have hmin : min f1.state.cur_layer f1.state.tot_layer = f.state.tot_layer := by
      by_cases hact : ∃ j, j < s1.nbr_active_forms ∧ s1.active_idxs[j]? = some k
      · obtain ⟨j, hj, hjk⟩ := hact
        have := hinv.todo j k f1 hj hjk hf1
        omega
      · push_neg at hact
        have := hinv.gone k f1 hk hact hf1
        omega
    rw [dispatches_of_append, hout, hmin, hlay]
    simp [dispatches_of]
  · intro d hd
    rcases List.mem_append.mp hd with hd | hd
    · exact hinv.out_slot d hd
    · simp at hd

end SchedRun

/-! ## The claims about the registry and the scheduler -/

section SchedOut

variable {α : Type} [LinearOrderedField α]

/-- An iteration of the inner loop writes nothing or one dispatch. -/
theorem sched_visit_out (ps : GoozPrintSettings α) (n : Nat) (rand : Nat → Nat) (l i : Nat)
    (s : GoozSched α) (hs : SchedSafe ps n s) (hi : i < s.nbr_active_forms) :
    ∃ s1 ds, sched_visit rand l i s = some s1 ∧ SchedSafe ps n s1 ∧
      i ≤ s1.nbr_active_forms ∧ s1.out = s.out ++ List.map GoozOut.dispatch ds := by
  obtain ⟨s1, h1, hs1, hi1, _, _⟩ := sched_visit_safe ps n rand l i s hs hi
  obtain ⟨_, key, _, cur, _, _, _, _, _, _, hE⟩ := sched_visit_spec ps n rand l i s hs hi
  have h0 := h1
  rw [hE] at h1
  simp only [Option.some.injEq] at h1
  split_ifs at h1 with hc
  · refine ⟨s1, [], h0, hs1, hi1, ?_⟩
    rw [← h1]
    simp
  · refine ⟨s1, [GoozDispatch.mk l key cur.incr_cur_layer
        (dispatch_calls cur.incr_cur_layer.type)], h0, hs1, hi1, ?_⟩
    rw [← h1]
    rfl

/-- The inner loop writes dispatches only. -/
theorem sched_round_from_out (ps : GoozPrintSettings α) (n : Nat) (rand : Nat → Nat) (l : Nat)
    (cnt : Nat) (s : GoozSched α) (hs : SchedSafe ps n s) (hcnt : cnt ≤ s.nbr_active_forms) :
    ∃ s1 ds, sched_round_from rand l cnt s = some s1 ∧ SchedSafe ps n s1 ∧
      s1.out = s.out ++ List.map GoozOut.dispatch ds := by
  induction cnt generalizing s with
  | zero => exact ⟨s, [], rfl, hs, by simp⟩
  | succ i ih =>
    obtain ⟨s1, ds1, h1, hs1, hi1, ho1⟩ := sched_visit_out ps n rand l i s hs (by omega)
    obtain ⟨s2, ds2, h2, hs2, ho2⟩ := ih s1 hs1 hi1
    refine ⟨s2, ds1 ++ ds2, ?_, hs2, ?_⟩
    · simp only [sched_round_from, h1, h2]
    · rw [ho2, ho1, List.map_append, List.append_assoc]

/-- The outer loop writes dispatches only. -/
theorem sched_layers_out (ps : GoozPrintSettings α) (n : Nat) (rand : Nat → Nat)
    (cnt l : Nat) (s : GoozSched α) (hs : SchedSafe ps n s) :
    ∃ s1 ds, sched_layers rand cnt l s = some s1 ∧
      s1.out = s.out ++ List.map GoozOut.dispatch ds := by
  induction cnt generalizing s l with
  | zero => exact ⟨s, [], rfl, by simp⟩
  | succ c ih =>
    obtain ⟨s1, ds1, h1, hs1, ho1⟩ := sched_round_from_out ps n rand l _ s hs le_rfl
    obtain ⟨s2, ds2, h2, ho2⟩ := ih (l + 1) s1 hs1
    refine ⟨s2, ds1 ++ ds2, ?_, ?_⟩
    · simp only [sched_layers, sched_round, h1, h2]
    · rw [ho2, ho1, List.map_append, List.append_assoc]

/-- What `gooz_generate_gcode` does with the output stream on a well-formed
registry: one `emit_startup`, then dispatches only, then one
`emit_shutdown`. -/
theorem generate_out_bracket (ps : GoozPrintSettings α) (rand : Nat → Nat)
    (st st1 : GoozState α) (out : List (GoozOut α)) (h : st.WF ps)
    (hE : gooz_generate_gcode rand st = some (st1, out)) :
    ∃ ds : List (GoozDispatch α),
      out = GoozOut.emit_startup :: (List.map GoozOut.dispatch ds ++ [GoozOut.emit_shutdown]) := by
  obtain ⟨s1, ds, h1, ho⟩ := sched_layers_out ps st.nbr_forms rand (max_nbr_layers st) 1
    (sched_init st) (sched_init_safe ps st h)
  simp only [gooz_generate_gcode, h1, Option.some.injEq, Prod.mk.injEq] at hE
  refine ⟨ds, ?_⟩
  rw [← hE.2, ho]
  rfl

end SchedOut

section Claims

variable {α : Type} [LinearOrderedField α] [FloorRing α]

theorem registered_reachable (ps : GoozPrintSettings α) (st : GoozState α)
    (h : Registered ps st) : Reachable ps st := by
  induction h with
  | init => exact Reachable.init
  | add_cube ok x y size _ ih => exact Reachable.add_cube ok x y size ih
  | add_cylinder ok x y radius height _ ih => exact Reachable.add_cylinder ok x y radius height ih
  | free _ ih => exact Reachable.free ih

theorem example_registry_registered : Registered example_settings example_registry :=
  Registered.add_cylinder true 100 100 5 3 (Registered.add_cube true 50 50 10 Registered.init)

omit [LinearOrderedField α] [FloorRing α] in
/-- Every dispatch recorded in the output is listed among the dispatches of
its slot. -/
theorem mem_dispatches_of (d : GoozDispatch α) (out : List (GoozOut α))
    (h : GoozOut.dispatch d ∈ out) : (d.l, d.form) ∈ dispatches_of d.slot out := by
  induction out with
  | nil => simp at h
  | cons o rest ih =>
    rcases List.mem_cons.mp h with rfl | h1
    · simp [dispatches_of]
    · have h2 := ih h1
      clear h ih
      cases o with
      | emit_startup => simpa [dispatches_of] using h2
      | emit_shutdown => simpa [dispatches_of] using h2
      | dispatch e =>
        simp only [dispatches_of]
        split_ifs
        · exact List.mem_cons_of_mem _ h2
        · exact h2

/-- C1: on a registry built by registrations from the empty one, and for
every sequence of values returned by `rand()`, `gooz_generate_gcode` runs to
its end and dispatches to the generators, for the shape of every slot `k`,
exactly its layers `1, 2, ..., tot_layer` in that order, layer `l` in outer
round `l`.  The calls on the output stream are one `emit_startup`, then
dispatches only, then one `emit_shutdown`.  Every dispatch passes a
registered shape, with `cur_layer` between 1 and its `tot_layer`, in the
round of that number, and calls on it
`add_cube_perimeter` and then `add_cube_infill_spiral_inward` when it is a
cube, `add_cylinder_perimeter` when it is a cylinder; so no generator is
called on a shape whose `cur_layer` exceeds its `tot_layer`.  Of two shapes,
in a round beyond the `tot_layer` of the first and within that of the second,
the second receives its layer and the first receives none. -/
theorem C1_layers_dispatched_in_order (ps : GoozPrintSettings α) (st : GoozState α)
    (hreg : Registered ps st) (rand : Nat → Nat) :
    ∃ st1 out, gooz_generate_gcode rand st = some (st1, out) ∧
      (∀ (k : Nat) (f : GoozForm α), k < st.nbr_forms → st.forms[k]? = some f →
        f.state.cur_layer = 0 ∧
        dispatches_of k out
          = (List.range f.state.tot_layer).map (fun c => (c + 1, f.at_layer (c + 1)))) ∧
      (∃ ds : List (GoozDispatch α),
        out = GoozOut.emit_startup ::
          (List.map GoozOut.dispatch ds ++ [GoozOut.emit_shutdown])) ∧
      (∀ (d : GoozDispatch α), GoozOut.dispatch d ∈ out →
        d.slot < st.nbr_forms ∧
        1 ≤ d.form.state.cur_layer ∧ d.form.state.cur_layer ≤ d.form.state.tot_layer ∧
        d.l = d.form.state.cur_layer ∧
        (∃ f, st.forms[d.slot]? = some f ∧ d.form = f.at_layer d.form.state.cur_layer) ∧
        (d.form.type = GoozFormType.FORM_CUBE →
          d.calls = [GoozGenerator.add_cube_perimeter,
            GoozGenerator.add_cube_infill_spiral_inward]) ∧
        (d.form.type = GoozFormType.FORM_CYLINDER →
          d.calls = [GoozGenerator.add_cylinder_perimeter])) ∧
      (∀ (k1 k2 l : Nat) (f1 f2 : GoozForm α), k1 < st.nbr_forms → k2 < st.nbr_forms →
        st.forms[k1]? = some f1 → st.forms[k2]? = some f2 →
        f1.state.tot_layer < l → l ≤ f2.state.tot_layer →
        (l, f2.at_layer l) ∈ dispatches_of k2 out ∧
        ∀ g, (l, g) ∉ dispatches_of k1 out) := by
  obtain ⟨hwf, hfresh⟩ := registered_wf_fresh ps st hreg
  obtain ⟨st1, out, hE, hdis, hslot⟩ := generate_fresh ps st hwf hfresh rand
  refine ⟨st1, out, hE, ?_, generate_out_bracket ps rand st st1 out hwf hE, ?_, ?_⟩
  · intro k f hk hf
    refine ⟨?_, hdis k f hk hf⟩
    apply hfresh
    rw [List.mem_iff_getElem?]
    refine ⟨k, ?_⟩
    simp only [GoozState.stored, List.getElem?_take]
    rw [if_pos hk]
    exact hf
  · intro d hd
    obtain ⟨h1, h2, h3⟩ := hslot d hd
    have hlen : d.slot < st.forms.length := by
      have := hwf.len
      have := hwf.le
      omega
    have hf : st.forms[d.slot]? = some st.forms[d.slot] := List.getElem?_eq_getElem hlen
    have hmem : (d.l, d.form) ∈ dispatches_of d.slot out := mem_dispatches_of d out hd
    rw [hdis d.slot _ h1 hf] at hmem
    simp only [layers_upto, List.mem_map, List.mem_range, Prod.mk.injEq] at hmem
    obtain ⟨c, hc, hl, hform⟩ := hmem
    have hcur : d.form.state.cur_layer = c + 1 := by rw [← hform]; rfl
    refine ⟨h1, by omega, h2, by omega, ⟨_, hf, by rw [hcur, hform]⟩, ?_, ?_⟩
    · intro ht
      rw [h3, ht]
      rfl
    · intro ht
      rw [h3, ht]
      rfl
  · intro k1 k2 l f1 f2 hk1 hk2 hf1 hf2 hlt hle
    rw [hdis k1 f1 hk1 hf1, hdis k2 f2 hk2 hf2]
    simp only [layers_upto, List.mem_map, List.mem_range, Prod.mk.injEq]
    refine ⟨⟨l - 1, by omega, by omega, ?_⟩, ?_⟩
    · rw [show l - 1 + 1 = l by omega]
    · rintro g ⟨c, hc, hcl, _⟩
      omega

/-- Witness of C1: the registry of `example_registry` (a cube of 50 layers
and a cylinder of 15 layers) with `rand()` returning 0 at every call. -/
theorem C1_layers_dispatched_in_order_witness :
    Registered example_settings example_registry ∧
    ∃ st1 out, gooz_generate_gcode (fun _ => 0) example_registry = some (st1, out) ∧
      (∀ (k : Nat) (f : GoozForm ℚ), k < example_registry.nbr_forms →
        example_registry.forms[k]? = some f →
        f.state.cur_layer = 0 ∧
        dispatches_of k out
          = (List.range f.state.tot_layer).map (fun c => (c + 1, f.at_layer (c + 1)))) :=
  ⟨example_registry_registered,
    (C1_layers_dispatched_in_order example_settings example_registry
      example_registry_registered (fun _ => 0)).imp
      (fun _ h => h.imp (fun _ h2 => ⟨h2.1, h2.2.1⟩))⟩

omit [LinearOrderedField α] [FloorRing α] in
theorem stored_getElem? (st : GoozState α) (i : Nat) (h : i < st.nbr_forms) :
    st.stored[i]? = st.forms[i]? := by
  simp only [GoozState.stored, List.getElem?_take, h, if_true]

/-- C4: a cube or a cylinder that violates a bound of the build volume
(negative size, radius or height; footprint below 0 or beyond `build_width`
or `build_depth`; height above `build_height`) is refused with -1 and the
registry is left as it was, in `nbr_forms`, `capacity` and every slot. -/
theorem C4_out_of_bounds_rejected (ps : GoozPrintSettings α) (ok : Bool) (st : GoozState α) :
    (∀ x y size : α,
      (size < 0 ∨ x - size / 2 < 0 ∨ y - size / 2 < 0 ∨ x + size / 2 > ps.build_width ∨
        y + size / 2 > ps.build_depth ∨ size > ps.build_height) →
      gooz_add_cube ps ok st x y size = (-1, st)) ∧
    (∀ x y radius height : α,
      (radius < 0 ∨ height < 0 ∨ x - radius < 0 ∨ y - radius < 0 ∨
        x + radius > ps.build_width ∨ y + radius > ps.build_depth ∨
        height > ps.build_height) →
      gooz_add_cylinder ps ok st x y radius height = (-1, st)) := by
  constructor
  · intro x y size hv
    have hc : check_within_build ps x y (size / 2) size = false := by
      rw [← Bool.not_eq_true, check_within_build_eq_true_iff]
      rintro ⟨hw, hh, hx, hy, hbw, hbd, hbh⟩
      rcases hv with h | h | h | h | h | h <;> linarith
    simp [gooz_add_cube, hc]
  · intro x y radius height hv
    have hc : check_within_build ps x y radius height = false := by
      rw [← Bool.not_eq_true, check_within_build_eq_true_iff]
      rintro ⟨hw, hh, hx, hy, hbw, hbd, hbh⟩
      rcases hv with h | h | h | h | h | h | h <;> linarith
    simp [gooz_add_cylinder, hc]

/-- Witness of C4: under the settings of `example.c` a cube of side 20 at
(215, 50) reaches X = 225, beyond the build width 220. -/
theorem C4_out_of_bounds_rejected_witness :
    (215 : ℚ) + 20 / 2 > example_settings.build_width ∧
    gooz_add_cube example_settings true GoozState.init 215 50 20 = (-1, GoozState.init) :=
  ⟨by norm_num [example_settings],
    (C4_out_of_bounds_rejected example_settings true GoozState.init).1 215 50 20
      (Or.inr (Or.inr (Or.inr (Or.inl (by norm_num [example_settings])))))⟩

/-- What a successful `gooz_add_cube` does to a well-formed registry. -/
theorem gooz_add_cube_success (ps : GoozPrintSettings α) (ok : Bool) (st : GoozState α)
    (x y size : α) (hwf : st.WF ps)
    (h : (gooz_add_cube ps ok st x y size).1 = 0 ∨
      (check_within_build ps x y (size / 2) size = true ∧
        (ok = true ∨ st.nbr_forms < st.capacity))) :
    (gooz_add_cube ps ok st x y size).1 = 0 ∧
    (gooz_add_cube ps ok st x y size).2.nbr_forms = st.nbr_forms + 1 ∧
    (∀ i, i < st.nbr_forms → (gooz_add_cube ps ok st x y size).2.forms[i]? = st.forms[i]?) ∧
    (gooz_add_cube ps ok st x y size).2.forms[st.nbr_forms]? = some
      { x := x, y := y, type := GoozFormType.FORM_CUBE, shape := GoozShape.cube size,
        state := { idx_key := st.nbr_forms, cur_layer := 0,
                   tot_layer := compute_nbr_pass size ps.layer_height,
                   height_layer := size / (compute_nbr_pass size ps.layer_height : α) } } := by
  have hl := stored_length st hwf.len hwf.le
  rcases gooz_add_cube_spec ps ok st x y size hwf.len hwf.le with
    ⟨hc, hE⟩ | ⟨hc, hok, hcap, hE⟩ | ⟨hc, _, h0, hn, _, _, hst⟩
  · rcases h with h | ⟨h, _⟩
    · rw [hE] at h; simp at h
    · rw [hc] at h; simp at h
  · rcases h with h | ⟨_, h | h⟩
    · rw [hE] at h; simp at h
    · rw [hok] at h; simp at h
    · omega
  · refine ⟨h0, hn, ?_, ?_⟩
    · intro i hi
      rw [← stored_getElem? _ i (by omega), hst, List.getElem?_append_left (by omega),
        stored_getElem? st i hi]
    · rw [← stored_getElem? _ st.nbr_forms (by omega), hst,
        List.getElem?_append_right (by omega), hl]
      simp

/-- What a successful `gooz_add_cylinder` does to a well-formed registry. -/
theorem gooz_add_cylinder_success (ps : GoozPrintSettings α) (ok : Bool) (st : GoozState α)
    (x y radius height : α) (hwf : st.WF ps)
    (h : (gooz_add_cylinder ps ok st x y radius height).1 = 0 ∨
      (check_within_build ps x y radius height = true ∧
        (ok = true ∨ st.nbr_forms < st.capacity))) :
    (gooz_add_cylinder ps ok st x y radius height).1 = 0 ∧
    (gooz_add_cylinder ps ok st x y radius height).2.nbr_forms = st.nbr_forms + 1 ∧
    (∀ i, i < st.nbr_forms →
      (gooz_add_cylinder ps ok st x y radius height).2.forms[i]? = st.forms[i]?) ∧
    (gooz_add_cylinder ps ok st x y radius height).2.forms[st.nbr_forms]? = some
      { x := x, y := y, type := GoozFormType.FORM_CYLINDER,
        shape := GoozShape.cylinder radius height,
        state := { idx_key := st.nbr_forms, cur_layer := 0,
                   tot_layer := compute_nbr_pass height ps.layer_height,
                   height_layer := height / (compute_nbr_pass height ps.layer_height : α) } } := by
  have hl := stored_length st hwf.len hwf.le
  rcases gooz_add_cylinder_spec ps ok st x y radius height hwf.len hwf.le with
    ⟨hc, hE⟩ | ⟨hc, hok, hcap, hE⟩ | ⟨hc, _, h0, hn, _, _, hst⟩
  · rcases h with h | ⟨h, _⟩
    · rw [hE] at h; simp at h
    · rw [hc] at h; simp at h
  · rcases h with h | ⟨_, h | h⟩
    · rw [hE] at h; simp at h
    · rw [hok] at h; simp at h
    · omega
  · refine ⟨h0, hn, ?_, ?_⟩
    · intro i hi
      rw [← stored_getElem? _ i (by omega), hst, List.getElem?_append_left (by omega),
        stored_getElem? st i hi]
    · rw [← stored_getElem? _ st.nbr_forms (by omega), hst,
        List.getElem?_append_right (by omega), hl]
      simp

/-- C5: on a reachable registry, when `realloc` succeeds or no growth is
needed, a cube or a cylinder placed inside the build volume is registered:
the call returns 0, `nbr_forms` grows by one, the slots of the shapes
registered before are unchanged, and the next slot holds the new shape with
the given position and geometry, `cur_layer = 0`, `idx_key` the former
`nbr_forms` and `tot_layer = compute_nbr_pass` of the side (cube) or height
(cylinder) and `layer_height`. -/
theorem C5_registration_appends (ps : GoozPrintSettings α) (st : GoozState α)
    (hst : Reachable ps st) (ok : Bool) (hgrow : ok = true ∨ st.nbr_forms < st.capacity) :
    (∀ x y size : α, 0 ≤ size → 0 ≤ x - size / 2 → 0 ≤ y - size / 2 →
      x + size / 2 ≤ ps.build_width → y + size / 2 ≤ ps.build_depth →
      size ≤ ps.build_height →
      (gooz_add_cube ps ok st x y size).1 = 0 ∧
      (gooz_add_cube ps ok st x y size).2.nbr_forms = st.nbr_forms + 1 ∧
      (∀ i, i < st.nbr_forms → (gooz_add_cube ps ok st x y size).2.forms[i]? = st.forms[i]?) ∧
      (gooz_add_cube ps ok st x y size).2.forms[st.nbr_forms]? = some
        { x := x, y := y, type := GoozFormType.FORM_CUBE, shape := GoozShape.cube size,
          state := { idx_key := st.nbr_forms, cur_layer := 0,
                     tot_layer := compute_nbr_pass size ps.layer_height,
                     height_layer := size / (compute_nbr_pass size ps.layer_height : α) } }) ∧
    (∀ x y radius height : α, 0 ≤ radius → 0 ≤ height → 0 ≤ x - radius → 0 ≤ y - radius →
      x + radius ≤ ps.build_width → y + radius ≤ ps.build_depth →
      height ≤ ps.build_height →
      (gooz_add_cylinder ps ok st x y radius height).1 = 0 ∧
      (gooz_add_cylinder ps ok st x y radius height).2.nbr_forms = st.nbr_forms + 1 ∧
      (∀ i, i < st.nbr_forms →
        (gooz_add_cylinder ps ok st x y radius height).2.forms[i]? = st.forms[i]?) ∧
      (gooz_add_cylinder ps ok st x y radius height).2.forms[st.nbr_forms]? = some
        { x := x, y := y, type := GoozFormType.FORM_CYLINDER,
          shape := GoozShape.cylinder radius height,
          state := { idx_key := st.nbr_forms, cur_layer := 0,
                     tot_layer := compute_nbr_pass height ps.layer_height,
                     height_layer :=
                       height / (compute_nbr_pass height ps.layer_height : α) } }) := by
  have hwf := reachable_wf ps st hst
  constructor
  · intro x y size h0 hx hy hbw hbd hbh
    have hc : check_within_build ps x y (size / 2) size = true :=
      (check_within_build_eq_true_iff ps _ _ _ _).mpr
        ⟨by linarith, h0, hx, hy, hbw, hbd, hbh⟩
    exact gooz_add_cube_success ps ok st x y size hwf (Or.inr ⟨hc, hgrow⟩)
  · intro x y radius height hr hh hx hy hbw hbd hbh
    have hc : check_within_build ps x y radius height = true :=
      (check_within_build_eq_true_iff ps _ _ _ _).mpr ⟨hr, hh, hx, hy, hbw, hbd, hbh⟩
    exact gooz_add_cylinder_success ps ok st x y radius height hwf (Or.inr ⟨hc, hgrow⟩)

/-- Witness of C5: the cube of side 10 at (50, 50) registered on the initial
registry under the settings of `example.c`. -/
theorem C5_registration_appends_witness :
    Reachable example_settings (GoozState.init : GoozState ℚ) ∧
    (gooz_add_cube example_settings true GoozState.init 50 50 10).1 = 0 ∧
    (gooz_add_cube example_settings true GoozState.init 50 50 10).2.nbr_forms = 1 :=
  ⟨Reachable.init,
    ((C5_registration_appends example_settings GoozState.init Reachable.init true
      (Or.inl rfl)).1 50 50 10 (by norm_num) (by norm_num) (by norm_num)
      (by norm_num [example_settings]) (by norm_num [example_settings])
      (by norm_num [example_settings])).1,
    ((C5_registration_appends example_settings GoozState.init Reachable.init true
      (Or.inl rfl)).1 50 50 10 (by norm_num) (by norm_num) (by norm_num)
      (by norm_num [example_settings]) (by norm_num [example_settings])
      (by norm_num [example_settings])).2.1⟩

/-- The values `gooz_add_cube` and `gooz_add_cylinder` return on a
well-formed registry are the status codes 0, -1 and -2. -/
theorem add_returns_status (ps : GoozPrintSettings α) (ok : Bool) (st : GoozState α)
    (hwf : st.WF ps) :
    (∀ x y size : α, (gooz_add_cube ps ok st x y size).1 = 0 ∨
      (gooz_add_cube ps ok st x y size).1 = -1 ∨ (gooz_add_cube ps ok st x y size).1 = -2) ∧
    (∀ x y radius height : α, (gooz_add_cylinder ps ok st x y radius height).1 = 0 ∨
      (gooz_add_cylinder ps ok st x y radius height).1 = -1 ∨
      (gooz_add_cylinder ps ok st x y radius height).1 = -2) := by
  constructor
  · intro x y size
    rcases gooz_add_cube_spec ps ok st x y size hwf.len hwf.le with
      ⟨_, hE⟩ | ⟨_, _, _, hE⟩ | ⟨_, _, h0, _⟩
    · right; left; rw [hE]
    · right; right; rw [hE]
    · left; exact h0
  · intro x y radius height
    rcases gooz_add_cylinder_spec ps ok st x y radius height hwf.len hwf.le with
      ⟨_, hE⟩ | ⟨_, _, _, hE⟩ | ⟨_, _, h0, _⟩
    · right; left; rw [hE]
    · right; right; rw [hE]
    · left; exact h0

/-- C6, as the code has it: a registration call returns a status code, 0 on
success, never a key; the key of a registered shape is its `idx_key` field,
which is the number of its slot, so the shapes of a reachable registry carry
pairwise different keys, and a successful registration gives the new shape
the key `nbr_forms`, which no shape registered before carries. -/
theorem C6_keys_unique (ps : GoozPrintSettings α) (st : GoozState α)
    (hst : Reachable ps st) :
    (∀ (ok : Bool) (x y size : α), (gooz_add_cube ps ok st x y size).1 = 0 ∨
      (gooz_add_cube ps ok st x y size).1 = -1 ∨ (gooz_add_cube ps ok st x y size).1 = -2) ∧
    (∀ (ok : Bool) (x y radius height : α),
      (gooz_add_cylinder ps ok st x y radius height).1 = 0 ∨
      (gooz_add_cylinder ps ok st x y radius height).1 = -1 ∨
      (gooz_add_cylinder ps ok st x y radius height).1 = -2) ∧
    (∀ (i j : Nat) (f g : GoozForm α), st.stored[i]? = some f → st.stored[j]? = some g →
      f.state.idx_key = g.state.idx_key → i = j) ∧
    (∀ (ok : Bool) (x y size : α), (gooz_add_cube ps ok st x y size).1 = 0 →
      ∃ f, (gooz_add_cube ps ok st x y size).2.forms[st.nbr_forms]? = some f ∧
        f.state.idx_key = st.nbr_forms ∧
        ∀ g, g ∈ st.stored → g.state.idx_key ≠ f.state.idx_key) ∧
    (∀ (ok : Bool) (x y radius height : α),
      (gooz_add_cylinder ps ok st x y radius height).1 = 0 →
      ∃ f, (gooz_add_cylinder ps ok st x y radius height).2.forms[st.nbr_forms]? = some f ∧
        f.state.idx_key = st.nbr_forms ∧
        ∀ g, g ∈ st.stored → g.state.idx_key ≠ f.state.idx_key) := by
  have hwf := reachable_wf ps st hst
  have hl := stored_length st hwf.len hwf.le
  have hold : ∀ g, g ∈ st.stored → g.state.idx_key ≠ st.nbr_forms := by
    intro g hg
    obtain ⟨i, hi⟩ := List.mem_iff_getElem?.mp hg
    have h1 := hwf.key i g hi
    have h2 := (List.getElem?_eq_some.mp hi).1
    omega
  refine ⟨fun ok => (add_returns_status ps ok st hwf).1,
    fun ok => (add_returns_status ps ok st hwf).2, ?_, ?_, ?_⟩
  · intro i j f g hf hg hfg
    have h1 := hwf.key i f hf
    have h2 := hwf.key j g hg
    omega
  · intro ok x y size h0
    obtain ⟨_, _, _, hnew⟩ := gooz_add_cube_success ps ok st x y size hwf (Or.inl h0)
    exact ⟨_, hnew, rfl, hold⟩
  · intro ok x y radius height h0
    obtain ⟨_, _, _, hnew⟩ :=
      gooz_add_cylinder_success ps ok st x y radius height hwf (Or.inl h0)
    exact ⟨_, hnew, rfl, hold⟩

/-- Witness of C6: the two shapes of `example_registry` carry the keys of
their slots, 0 and 1. -/
theorem C6_keys_unique_witness :
    Reachable example_settings example_registry ∧
    ∀ (i j : Nat) (f g : GoozForm ℚ), example_registry.stored[i]? = some f →
      example_registry.stored[j]? = some g → f.state.idx_key = g.state.idx_key → i = j :=
  ⟨registered_reachable _ _ example_registry_registered,
    (C6_keys_unique example_settings example_registry
      (registered_reachable _ _ example_registry_registered)).2.2.1⟩

/-- C6 as stated fails: under the settings of `example.c`, registering a cube
and then a cylinder on the same registry succeeds twice (two shapes are
stored) and both calls return the same value, 0. -/
theorem C6_returned_values_equal :
    (gooz_add_cube example_settings true GoozState.init 50 50 10).1 = 0 ∧
    (gooz_add_cylinder example_settings true
      (gooz_add_cube example_settings true GoozState.init 50 50 10).2 100 100 5 3).1 = 0 ∧
    (gooz_add_cylinder example_settings true
      (gooz_add_cube example_settings true GoozState.init 50 50 10).2 100 100 5 3).2.nbr_forms
      = 2 ∧
    ¬ ((gooz_add_cube example_settings true GoozState.init 50 50 10).1 ≠
      (gooz_add_cylinder example_settings true
        (gooz_add_cube example_settings true GoozState.init 50 50 10).2 100 100 5 3).1) := by
  have hc1 : check_within_build example_settings (50 : ℚ) 50 (10 / 2) 10 = true := by
    rw [check_within_build_eq_true_iff]
    norm_num [example_settings]
  have hc2 : check_within_build example_settings (100 : ℚ) 100 5 3 = true := by
    rw [check_within_build_eq_true_iff]
    norm_num [example_settings]
  have h1 := gooz_add_cube_success example_settings true GoozState.init 50 50 10
    (wf_init example_settings) (Or.inr ⟨hc1, Or.inl rfl⟩)
  have h2 := gooz_add_cylinder_success example_settings true
    (gooz_add_cube example_settings true GoozState.init 50 50 10).2 100 100 5 3
    (wf_add_cube example_settings true GoozState.init 50 50 10 (wf_init example_settings))
    (Or.inr ⟨hc2, Or.inl rfl⟩)
  refine ⟨h1.1, h2.1, ?_, ?_⟩
  · rw [h2.2.1, h1.2.1]
    rfl
  · rw [h1.1, h2.1]
    simp

/-- The cube registered first in `example_registry`. -/
theorem example_registry_cube :
    example_registry.forms[0]? = some example_cube := by
  have hc1 : check_within_build example_settings (50 : ℚ) 50 (10 / 2) 10 = true := by
    rw [check_within_build_eq_true_iff]
    norm_num [example_settings]
  have hc2 : check_within_build example_settings (100 : ℚ) 100 5 3 = true := by
    rw [check_within_build_eq_true_iff]
    norm_num [example_settings]
  have h1 := gooz_add_cube_success example_settings true GoozState.init 50 50 10
    (wf_init example_settings) (Or.inr ⟨hc1, Or.inl rfl⟩)
  have h2 := gooz_add_cylinder_success example_settings true
    (gooz_add_cube example_settings true GoozState.init 50 50 10).2 100 100 5 3
    (wf_add_cube example_settings true GoozState.init 50 50 10 (wf_init example_settings))
    (Or.inr ⟨hc2, Or.inl rfl⟩)
  have h3 := h2.2.2.1 0 (by rw [h1.2.1]; decide)
  rw [example_registry, h3]
  exact h1.2.2.2

theorem example_registry_nbr_forms : example_registry.nbr_forms = 2 := by
  have hc1 : check_within_build example_settings (50 : ℚ) 50 (10 / 2) 10 = true := by
    rw [check_within_build_eq_true_iff]
    norm_num [example_settings]
  have hc2 : check_within_build example_settings (100 : ℚ) 100 5 3 = true := by
    rw [check_within_build_eq_true_iff]
    norm_num [example_settings]
  have h1 := gooz_add_cube_success example_settings true GoozState.init 50 50 10
    (wf_init example_settings) (Or.inr ⟨hc1, Or.inl rfl⟩)
  have h2 := gooz_add_cylinder_success example_settings true
    (gooz_add_cube example_settings true GoozState.init 50 50 10).2 100 100 5 3
    (wf_add_cube example_settings true GoozState.init 50 50 10 (wf_init example_settings))
    (Or.inr ⟨hc2, Or.inl rfl⟩)
  rw [example_registry, h2.2.1, h1.2.1]
  rfl

theorem compute_nbr_pass_ten (lh : α) (h : lh = (0.2 : α)) : compute_nbr_pass (10 : α) lh = 50 := by
  have := compute_nbr_pass_multiple (1 / 5 : α) (by norm_num) 50 (by norm_num)
  rw [h]
  norm_num at this ⊢
  exact this

theorem compute_nbr_pass_three (lh : α) (h : lh = (0.2 : α)) : compute_nbr_pass (3 : α) lh = 15 := by
  have := compute_nbr_pass_multiple (1 / 5 : α) (by norm_num) 15 (by norm_num)
  rw [h]
  norm_num at this ⊢
  exact this

end Claims

/-! ## The emitter -/

section EmitterClaims

variable {α : Type} [LinearOrderedField α]

/-- The distance computed by `add_line` and `add_move_oozing`, when `sqrt` is
the square root: it is non-negative and its square is the sum of the squares
of the three coordinate differences. -/
theorem libm_dist_spec (m : GoozLibm α)
    (hsqrt : ∀ v : α, 0 ≤ v → 0 ≤ m.sqrt v ∧ m.sqrt v * m.sqrt v = v) (dx dy dz : α) :
    0 ≤ m.sqrt (|dx| * |dx| + |dy| * |dy| + |dz| * |dz|) ∧
    m.sqrt (|dx| * |dx| + |dy| * |dy| + |dz| * |dz|) *
      m.sqrt (|dx| * |dx| + |dy| * |dy| + |dz| * |dz|) = dx ^ 2 + dy ^ 2 + dz ^ 2 := by
  have h0 : 0 ≤ |dx| * |dx| + |dy| * |dy| + |dz| * |dz| := by positivity
  obtain ⟨h1, h2⟩ := hsqrt _ h0
  refine ⟨h1, ?_⟩
  rw [h2, abs_mul_abs_self, abs_mul_abs_self, abs_mul_abs_self]
  ring

/-- C11: `add_line` moves the cursor to the destination and adds to its
extrusion length `(width * layer_height * print_width_ratio * d) /
(pi * (filament_diameter / 2) ^ 2)`, `d` being the Euclidean distance from
the old position to the destination (`sqrt` being the square root); the line
written carries the new extrusion length; the amount added is the product of
`d`, of the cross-section area and of a constant, and is 0 when the
destination is the current position. -/
theorem C11_add_line_extrusion (m : GoozLibm α) (ps : GoozPrintSettings α)
    (hsqrt : ∀ v : α, 0 ≤ v → 0 ≤ m.sqrt v ∧ m.sqrt v * m.sqrt v = v)
    (x y z width : α) (em : GoozEmitter α) :
    ∃ d : α, 0 ≤ d ∧
      d * d = (x - em.nozzle_state.x) ^ 2 + (y - em.nozzle_state.y) ^ 2
        + (z - em.nozzle_state.z) ^ 2 ∧
      (add_line m ps x y z width em).nozzle_state =
        { x := x, y := y, z := z,
          e := em.nozzle_state.e + (width * ps.layer_height * ps.print_width_ratio * d) /
            (m.M_PI * (ps.filament_diameter / 2) ^ 2),
          layer := em.nozzle_state.layer } ∧
      (add_line m ps x y z width em).out = em.out ++
        [GoozLine.line x y z
          (em.nozzle_state.e + (width * ps.layer_height * ps.print_width_ratio * d) /
            (m.M_PI * (ps.filament_diameter / 2) ^ 2)) ps.print_speed] ∧
      (width * ps.layer_height * ps.print_width_ratio * d) /
          (m.M_PI * (ps.filament_diameter / 2) ^ 2)
        = d * (width * ps.layer_height * ps.print_width_ratio) *
          (1 / (m.M_PI * (ps.filament_diameter / 2) ^ 2)) ∧
      (x = em.nozzle_state.x → y = em.nozzle_state.y → z = em.nozzle_state.z →
        (add_line m ps x y z width em).nozzle_state.e = em.nozzle_state.e) := by
  obtain ⟨h1, h2⟩ := libm_dist_spec m hsqrt (x - em.nozzle_state.x) (y - em.nozzle_state.y)
    (z - em.nozzle_state.z)
  refine ⟨_, h1, h2, ?_, ?_, ?_, ?_⟩
  · simp only [add_line, set_nozzle, extrusion_length]
    congr 2
    ring
  · simp only [add_line, extrusion_length]
    congr 4
    ring
  · ring
  · intro hx hy hz
    have hd : m.sqrt (|x - em.nozzle_state.x| * |x - em.nozzle_state.x|
        + |y - em.nozzle_state.y| * |y - em.nozzle_state.y|
        + |z - em.nozzle_state.z| * |z - em.nozzle_state.z|) = 0 := by
      have h3 := h2
      rw [hx, hy, hz] at h3
      simp only [sub_self, ne_eq, OfNat.ofNat_ne_zero, not_false_eq_true, zero_pow, add_zero,
        mul_self_eq_zero] at h3
      rw [hx, hy, hz]
      simp only [sub_self]
      exact h3
    simp only [add_line, set_nozzle, extrusion_length, hd, mul_zero, zero_div, add_zero]

/-- Witness of C11: over the reals, with the square root of `math.h`, a line
from the origin to (3, 4, 0) under the settings of `example.c`. -/
theorem C11_add_line_extrusion_witness :
    (∀ v : ℝ, 0 ≤ v → 0 ≤ Real.sqrt v ∧ Real.sqrt v * Real.sqrt v = v) ∧
    ∃ d : ℝ, 0 ≤ d ∧
      (add_line (GoozLibm.mk Real.pi Real.sqrt Real.cos Real.sin) (example_settings_in ℝ)
        3 4 0 (2 / 5) GoozEmitter.init).nozzle_state.e =
        (GoozEmitter.init : GoozEmitter ℝ).nozzle_state.e +
          (2 / 5 * (example_settings_in ℝ).layer_height *
            (example_settings_in ℝ).print_width_ratio * d) /
          (Real.pi * ((example_settings_in ℝ).filament_diameter / 2) ^ 2) := by
  have hs : ∀ v : ℝ, 0 ≤ v → 0 ≤ Real.sqrt v ∧ Real.sqrt v * Real.sqrt v = v :=
    fun v hv => ⟨Real.sqrt_nonneg v, Real.mul_self_sqrt hv⟩
  obtain ⟨d, hd, _, hn, _⟩ := C11_add_line_extrusion
    (GoozLibm.mk Real.pi Real.sqrt Real.cos Real.sin) (example_settings_in ℝ) hs
    3 4 0 (2 / 5) GoozEmitter.init
  exact ⟨hs, d, hd, by rw [hn]⟩

/-- C12: `add_move_oozing` moves the cursor to the destination and sets its
extrusion length to `(nozzle_diameter * layer_height * print_width_ratio * d
* oozing_ratio) / (pi * (filament_diameter / 2) ^ 2)`, `d` being the
Euclidean distance travelled (`sqrt` being the square root); the extrusion
length of the cursor before the call has no influence on the result. -/
theorem C12_add_move_oozing_resets (m : GoozLibm α) (ps : GoozPrintSettings α)
    (hsqrt : ∀ v : α, 0 ≤ v → 0 ≤ m.sqrt v ∧ m.sqrt v * m.sqrt v = v)
    (x y z : α) (em : GoozEmitter α) :
    ∃ d : α, 0 ≤ d ∧
      d * d = (x - em.nozzle_state.x) ^ 2 + (y - em.nozzle_state.y) ^ 2
        + (z - em.nozzle_state.z) ^ 2 ∧
      (add_move_oozing m ps x y z em).nozzle_state =
        { x := x, y := y, z := z,
          e := (ps.nozzle_diameter * ps.layer_height * ps.print_width_ratio * d *
              ps.oozing_ratio) / (m.M_PI * (ps.filament_diameter / 2) ^ 2),
          layer := em.nozzle_state.layer } ∧
      ∀ e0 : α,
        add_move_oozing m ps x y z
            { em with nozzle_state := { em.nozzle_state with e := e0 } }
          = add_move_oozing m ps x y z em := by
  obtain ⟨h1, h2⟩ := libm_dist_spec m hsqrt (x - em.nozzle_state.x) (y - em.nozzle_state.y)
    (z - em.nozzle_state.z)
  refine ⟨_, h1, h2, ?_, ?_⟩
  · simp only [add_move_oozing, set_nozzle, extrusion_length]
    congr 1
    ring
  · intro e0
    rfl

/-- Witness of C12: over the reals, with the square root of `math.h`, an
anti-oozing travel from the origin to (3, 4, 0). -/
theorem C12_add_move_oozing_resets_witness :
    (∀ v : ℝ, 0 ≤ v → 0 ≤ Real.sqrt v ∧ Real.sqrt v * Real.sqrt v = v) ∧
    ∀ e0 : ℝ,
      add_move_oozing (GoozLibm.mk Real.pi Real.sqrt Real.cos Real.sin) (example_settings_in ℝ)
          3 4 0 { (GoozEmitter.init : GoozEmitter ℝ) with
            nozzle_state := { (GoozEmitter.init : GoozEmitter ℝ).nozzle_state with e := e0 } }
        = add_move_oozing (GoozLibm.mk Real.pi Real.sqrt Real.cos Real.sin)
          (example_settings_in ℝ) 3 4 0 GoozEmitter.init := by
  have hs : ∀ v : ℝ, 0 ≤ v → 0 ≤ Real.sqrt v ∧ Real.sqrt v * Real.sqrt v = v :=
    fun v hv => ⟨Real.sqrt_nonneg v, Real.mul_self_sqrt hv⟩
  obtain ⟨_, _, _, _, h⟩ := C12_add_move_oozing_resets
    (GoozLibm.mk Real.pi Real.sqrt Real.cos Real.sin) (example_settings_in ℝ) hs
    3 4 0 GoozEmitter.init
  exact ⟨hs, h⟩

/-- C13: `add_move` writes a Z line then an XY line when the destination is
more than 5e-4 above the cursor, an XY line then a Z line when it is more
than 5e-4 below, and a single XY line otherwise; in the three cases the
cursor is set to the destination and its extrusion length is unchanged. -/
theorem C13_add_move_order (ps : GoozPrintSettings α) (x y z : α) (em : GoozEmitter α) :
    (z > em.nozzle_state.z + 5 / 10000 →
      (add_move ps x y z em).out = em.out ++
        [GoozLine.move_up z ps.travel_speed, GoozLine.move_xy x y ps.travel_speed]) ∧
    (z < em.nozzle_state.z - 5 / 10000 →
      (add_move ps x y z em).out = em.out ++
        [GoozLine.move_xy x y ps.travel_speed, GoozLine.move_down z ps.travel_speed]) ∧
    (¬ (z > em.nozzle_state.z + 5 / 10000) → ¬ (z < em.nozzle_state.z - 5 / 10000) →
      (add_move ps x y z em).out = em.out ++ [GoozLine.move_xy x y ps.travel_speed]) ∧
    (add_move ps x y z em).nozzle_state =
      { x := x, y := y, z := z, e := em.nozzle_state.e, layer := em.nozzle_state.layer } := by
  refine ⟨?_, ?_, ?_, rfl⟩
  · intro h
    simp only [add_move, GOOZ_TINY_VALUE, h, if_true]
  · intro h
    have h1 : ¬ (z > em.nozzle_state.z + 5 / 10000) := by
      intro h2
      have : em.nozzle_state.z + 5 / 10000 < em.nozzle_state.z - 5 / 10000 := lt_trans h2 h
      linarith
    simp only [add_move, GOOZ_TINY_VALUE, h, h1, if_true, if_false]
  · intro h1 h2
    simp only [add_move, GOOZ_TINY_VALUE, h1, h2, if_false]

/-- Witness of C13: the first travel of `emit_startup`, from z = 0 up to the
layer height 1/5. -/
theorem C13_add_move_order_witness :
    (1 / 5 : ℚ) > (GoozEmitter.init : GoozEmitter ℚ).nozzle_state.z + 5 / 10000 ∧
    (add_move example_settings 0 0 (1 / 5) (GoozEmitter.init : GoozEmitter ℚ)).out =
      (GoozEmitter.init : GoozEmitter ℚ).out ++
        [GoozLine.move_up (1 / 5) example_settings.travel_speed,
         GoozLine.move_xy 0 0 example_settings.travel_speed] := by
  have h : (1 / 5 : ℚ) > (GoozEmitter.init : GoozEmitter ℚ).nozzle_state.z + 5 / 10000 := by
    norm_num [GoozEmitter.init, GoozNozzleState.init]
  exact ⟨h, (C13_add_move_order example_settings 0 0 (1 / 5) GoozEmitter.init).1 h⟩

theorem cylinder_segments_spec (m : GoozLibm α) (ps : GoozPrintSettings α)
    (x y r step area : α) (n i : Nat) (sx sy : α) :
    (cylinder_segments m ps x y r step area n i sx sy).length = n ∧
    ∀ l, l ∈ cylinder_segments m ps x y r step area n i sx sy →
      ∃ (nx ny e : α), l = GoozLine.cyl_seg nx ny e ps.print_speed := by
  induction n generalizing i sx sy with
  | zero => simp [cylinder_segments]
  | succ n ih =>
    simp only [cylinder_segments, List.length_cons, List.mem_cons]
    refine ⟨by rw [(ih _ _ _).1], ?_⟩
    rintro l (rfl | hl)
    · exact ⟨_, _, _, rfl⟩
    · exact (ih _ _ _).2 l hl

/-- C14: for every shape, layer and cursor, `add_cylinder_perimeter` writes
one positioning line to the first boundary point `(x + r, y)`, then exactly
80 extruding-segment lines, then one `G92 E0`, and nothing else. -/
theorem C14_cylinder_perimeter_lines (m : GoozLibm α) (ps : GoozPrintSettings α)
    (f : GoozForm α) (em : GoozEmitter α) :
    ∃ segs : List (GoozLine α),
      (add_cylinder_perimeter m ps f em).out = em.out ++
        [GoozLine.cyl_start (f.x + f.cylinder_radius) f.y
          ((f.state.cur_layer : α) * f.state.height_layer - 1 / 10)
          ps.travel_speed f.state.cur_layer] ++ segs ++ [GoozLine.cyl_reset] ∧
      segs.length = 80 ∧
      ∀ l, l ∈ segs → ∃ (nx ny e : α), l = GoozLine.cyl_seg nx ny e ps.print_speed := by
  refine ⟨cylinder_segments m ps f.x f.y f.cylinder_radius (2 * m.M_PI / ((80 : ℕ) : α))
    (ps.nozzle_diameter * ps.layer_height) 80 1 (f.x + f.cylinder_radius) f.y, rfl, ?_, ?_⟩
  · exact (cylinder_segments_spec m ps _ _ _ _ _ 80 1 _ _).1
  · exact (cylinder_segments_spec m ps _ _ _ _ _ 80 1 _ _).2

/-- C20, what the code does: `add_cylinder_perimeter` never writes to
`nozzle_state`.  On the first layer of the cylinder of the end-to-end
scenario, run right after `emit_startup`, the circle is written at z = 1/10
from (105, 100) and closed by `G92 E0`, while the cursor stays where
`emit_startup` left it, at (0, 0) and z = 1/5. -/
theorem C20_cylinder_cursor_stale (m : GoozLibm ℚ) :
    (∀ (ps : GoozPrintSettings ℚ) (f : GoozForm ℚ) (em : GoozEmitter ℚ),
      (add_cylinder_perimeter m ps f em).nozzle_state = em.nozzle_state) ∧
    (add_cylinder_perimeter m example_settings (example_cylinder_in ℚ 1)
      (emit_startup m example_settings GoozEmitter.init)).nozzle_state.x = 0 ∧
    (add_cylinder_perimeter m example_settings (example_cylinder_in ℚ 1)
      (emit_startup m example_settings GoozEmitter.init)).nozzle_state.y = 0 ∧
    (add_cylinder_perimeter m example_settings (example_cylinder_in ℚ 1)
      (emit_startup m example_settings GoozEmitter.init)).nozzle_state.z = 1 / 5 ∧
    ∃ segs : List (GoozLine ℚ),
      (add_cylinder_perimeter m example_settings (example_cylinder_in ℚ 1)
        (emit_startup m example_settings GoozEmitter.init)).out =
        (emit_startup m example_settings GoozEmitter.init).out ++
          [GoozLine.cyl_start 105 100 (1 / 10) 6000 1] ++ segs ++ [GoozLine.cyl_reset] := by
  refine ⟨fun _ _ _ => rfl, rfl, rfl, rfl, ?_⟩
  refine ⟨cylinder_segments m example_settings 100 100 5 (2 * m.M_PI / ((80 : ℕ) : ℚ))
    (example_settings.nozzle_diameter * example_settings.layer_height) 80 1 (100 + 5) 100, ?_⟩
  simp only [add_cylinder_perimeter, example_cylinder_in, GoozForm.cylinder_radius,
    GOOZ_OFFSET_Z, example_settings]
  norm_num

/-- On an array of four points `closest_coord_idx` returns the index of a
point at the least squared planar distance from the cursor, the lowest such
index. -/
theorem closest_coord_idx_four (ns : GoozNozzleState α) (c0 c1 c2 c3 : α × α) :
    closest_coord_idx ns [c0, c1, c2, c3] < 4 ∧
    (∀ j, j < 4 →
      sq_dist ns (coord_at [c0, c1, c2, c3] (closest_coord_idx ns [c0, c1, c2, c3]))
        ≤ sq_dist ns (coord_at [c0, c1, c2, c3] j)) ∧
    (∀ j, j < closest_coord_idx ns [c0, c1, c2, c3] →
      sq_dist ns (coord_at [c0, c1, c2, c3] (closest_coord_idx ns [c0, c1, c2, c3]))
        < sq_dist ns (coord_at [c0, c1, c2, c3] j)) := by
  simp only [closest_coord_idx, closest_coord_idx_from]
  split_ifs with h1 h2 h3 h3 h2 h3 h3 <;>
  · refine ⟨by norm_num, ?_, ?_⟩
    · intro j hj
      interval_cases j <;> simp only [coord_at, List.getD_cons_zero, List.getD_cons_succ,
        sq_dist] <;> linarith
    · intro j hj
      interval_cases j <;> simp only [coord_at, List.getD_cons_zero, List.getD_cons_succ,
        sq_dist] <;> linarith

theorem add_line_nozzle (m : GoozLibm α) (ps : GoozPrintSettings α) (x y z width : α)
    (em : GoozEmitter α) :
    (add_line m ps x y z width em).nozzle_state.x = x ∧
    (add_line m ps x y z width em).nozzle_state.y = y ∧
    (add_line m ps x y z width em).nozzle_state.z = z :=
  ⟨rfl, rfl, rfl⟩

/-- What `add_line` writes: one extruding line to its destination. -/
theorem add_line_out (m : GoozLibm α) (ps : GoozPrintSettings α) (x y z width : α)
    (em : GoozEmitter α) :
    ∃ e : α, (add_line m ps x y z width em).out
      = em.out ++ [GoozLine.line x y z e ps.print_speed] :=
  ⟨_, rfl⟩

/-- The four corners of `square_coords`, by index. -/
theorem coord_at_square (x y s : α) :
    coord_at (square_coords x y s) 0 = (x - s, y - s) ∧
    coord_at (square_coords x y s) 1 = (x - s, y + s) ∧
    coord_at (square_coords x y s) 2 = (x + s, y + s) ∧
    coord_at (square_coords x y s) 3 = (x + s, y - s) :=
  ⟨rfl, rfl, rfl, rfl⟩

/-- The four iterations of the loop of `add_cube_perimeter`: four extruding
lines, to the entries `min_idx + 1 .. min_idx + 4` (modulo 4) of `coords`,
the cursor ending on the last of them. -/
theorem cube_perimeter_lines_four (m : GoozLibm α) (ps : GoozPrintSettings α)
    (coords : List (α × α)) (min_idx : Nat) (z : α) (em : GoozEmitter α) :
    ∃ e1 e2 e3 e4 : α,
      (cube_perimeter_lines m ps coords min_idx z 4 1 em).out = em.out ++
        [GoozLine.line (coord_at coords ((min_idx + 1) % 4)).1
           (coord_at coords ((min_idx + 1) % 4)).2 z e1 ps.print_speed,
         GoozLine.line (coord_at coords ((min_idx + 2) % 4)).1
           (coord_at coords ((min_idx + 2) % 4)).2 z e2 ps.print_speed,
         GoozLine.line (coord_at coords ((min_idx + 3) % 4)).1
           (coord_at coords ((min_idx + 3) % 4)).2 z e3 ps.print_speed,
         GoozLine.line (coord_at coords ((min_idx + 4) % 4)).1
           (coord_at coords ((min_idx + 4) % 4)).2 z e4 ps.print_speed] ∧
      (cube_perimeter_lines m ps coords min_idx z 4 1 em).nozzle_state.x
        = (coord_at coords ((min_idx + 4) % 4)).1 ∧
      (cube_perimeter_lines m ps coords min_idx z 4 1 em).nozzle_state.y
        = (coord_at coords ((min_idx + 4) % 4)).2 ∧
      (cube_perimeter_lines m ps coords min_idx z 4 1 em).nozzle_state.z = z := by
  obtain ⟨e1, h1⟩ := add_line_out m ps (coord_at coords ((min_idx + 1) % 4)).1
    (coord_at coords ((min_idx + 1) % 4)).2 z ps.nozzle_diameter em
  obtain ⟨e2, h2⟩ := add_line_out m ps (coord_at coords ((min_idx + 2) % 4)).1
    (coord_at coords ((min_idx + 2) % 4)).2 z ps.nozzle_diameter
    (add_line m ps (coord_at coords ((min_idx + 1) % 4)).1
      (coord_at coords ((min_idx + 1) % 4)).2 z ps.nozzle_diameter em)
  obtain ⟨e3, h3⟩ := add_line_out m ps (coord_at coords ((min_idx + 3) % 4)).1
    (coord_at coords ((min_idx + 3) % 4)).2 z ps.nozzle_diameter
    (add_line m ps (coord_at coords ((min_idx + 2) % 4)).1
      (coord_at coords ((min_idx + 2) % 4)).2 z ps.nozzle_diameter
      (add_line m ps (coord_at coords ((min_idx + 1) % 4)).1
        (coord_at coords ((min_idx + 1) % 4)).2 z ps.nozzle_diameter em))
  obtain ⟨e4, h4⟩ := add_line_out m ps (coord_at coords ((min_idx + 4) % 4)).1
    (coord_at coords ((min_idx + 4) % 4)).2 z ps.nozzle_diameter
    (add_line m ps (coord_at coords ((min_idx + 3) % 4)).1
      (coord_at coords ((min_idx + 3) % 4)).2 z ps.nozzle_diameter
      (add_line m ps (coord_at coords ((min_idx + 2) % 4)).1
        (coord_at coords ((min_idx + 2) % 4)).2 z ps.nozzle_diameter
        (add_line m ps (coord_at coords ((min_idx + 1) % 4)).1
          (coord_at coords ((min_idx + 1) % 4)).2 z ps.nozzle_diameter em)))
  refine ⟨e1, e2, e3, e4, ?_, rfl, rfl, rfl⟩
  show (add_line m ps (coord_at coords ((min_idx + 4) % 4)).1
    (coord_at coords ((min_idx + 4) % 4)).2 z ps.nozzle_diameter
    (add_line m ps (coord_at coords ((min_idx + 3) % 4)).1
      (coord_at coords ((min_idx + 3) % 4)).2 z ps.nozzle_diameter
      (add_line m ps (coord_at coords ((min_idx + 2) % 4)).1
        (coord_at coords ((min_idx + 2) % 4)).2 z ps.nozzle_diameter
        (add_line m ps (coord_at coords ((min_idx + 1) % 4)).1
          (coord_at coords ((min_idx + 1) % 4)).2 z ps.nozzle_diameter em)))).out = _
  rw [h4, h3, h2, h1]
  simp only [List.append_assoc, List.singleton_append, List.cons_append, List.nil_append]

/-- C17: for a cube, `add_cube_perimeter` makes an anti-oozing travel to the
corner of the square `(x ± s, y ± s)`, `s = side / 2 - nozzle_diameter / 2`,
that is nearest to the cursor in squared planar distance (the one of lowest
index among the nearest), at `z = cur_layer * height_layer - 0.1`; it then
writes the perimeter note and exactly four extruding lines, to the next
three corners in the cyclic order of the array and back to the chosen
corner, where the cursor ends. -/
theorem C17_cube_perimeter_loop (m : GoozLibm α) (ps : GoozPrintSettings α) (f : GoozForm α)
    (em : GoozEmitter α) (side : α) (hcube : f.shape = GoozShape.cube side) :
    ∃ idx : Nat, idx < 4 ∧
      (∀ j, j < 4 →
        sq_dist em.nozzle_state
            (coord_at (square_coords f.x f.y (side / 2 - ps.nozzle_diameter / 2)) idx)
          ≤ sq_dist em.nozzle_state
            (coord_at (square_coords f.x f.y (side / 2 - ps.nozzle_diameter / 2)) j)) ∧
      (∀ j, j < idx →
        sq_dist em.nozzle_state
            (coord_at (square_coords f.x f.y (side / 2 - ps.nozzle_diameter / 2)) idx)
          < sq_dist em.nozzle_state
            (coord_at (square_coords f.x f.y (side / 2 - ps.nozzle_diameter / 2)) j)) ∧
      ∃ L : List (GoozLine α),
        (add_cube_perimeter m ps f em).out =
          (add_move_oozing m ps
            (coord_at (square_coords f.x f.y (side / 2 - ps.nozzle_diameter / 2)) idx).1
            (coord_at (square_coords f.x f.y (side / 2 - ps.nozzle_diameter / 2)) idx).2
            ((f.state.cur_layer : α) * f.state.height_layer - 1 / 10) em).out ++
          [GoozLine.cube_perimeter_note f.state.cur_layer] ++ L ∧
        L.map line_target =
          [some ((coord_at (square_coords f.x f.y (side / 2 - ps.nozzle_diameter / 2))
                  ((idx + 1) % 4)).1,
                 (coord_at (square_coords f.x f.y (side / 2 - ps.nozzle_diameter / 2))
                  ((idx + 1) % 4)).2,
                 (f.state.cur_layer : α) * f.state.height_layer - 1 / 10),
           some ((coord_at (square_coords f.x f.y (side / 2 - ps.nozzle_diameter / 2))
                  ((idx + 2) % 4)).1,
                 (coord_at (square_coords f.x f.y (side / 2 - ps.nozzle_diameter / 2))
                  ((idx + 2) % 4)).2,
                 (f.state.cur_layer : α) * f.state.height_layer - 1 / 10),
           some ((coord_at (square_coords f.x f.y (side / 2 - ps.nozzle_diameter / 2))
                  ((idx + 3) % 4)).1,
                 (coord_at (square_coords f.x f.y (side / 2 - ps.nozzle_diameter / 2))
                  ((idx + 3) % 4)).2,
                 (f.state.cur_layer : α) * f.state.height_layer - 1 / 10),
           some ((coord_at (square_coords f.x f.y (side / 2 - ps.nozzle_diameter / 2)) idx).1,
                 (coord_at (square_coords f.x f.y (side / 2 - ps.nozzle_diameter / 2)) idx).2,
                 (f.state.cur_layer : α) * f.state.height_layer - 1 / 10)] ∧
        (add_cube_perimeter m ps f em).nozzle_state.x =
          (coord_at (square_coords f.x f.y (side / 2 - ps.nozzle_diameter / 2)) idx).1 ∧
        (add_cube_perimeter m ps f em).nozzle_state.y =
          (coord_at (square_coords f.x f.y (side / 2 - ps.nozzle_diameter / 2)) idx).2 ∧
        (add_cube_perimeter m ps f em).nozzle_state.z =
          (f.state.cur_layer : α) * f.state.height_layer - 1 / 10 := by
  have hside : f.cube_side = side := by simp only [GoozForm.cube_side, hcube]
  obtain ⟨h4, hmin, hlow⟩ := closest_coord_idx_four em.nozzle_state
    (f.x - (side / 2 - ps.nozzle_diameter / 2), f.y - (side / 2 - ps.nozzle_diameter / 2))
    (f.x - (side / 2 - ps.nozzle_diameter / 2), f.y + (side / 2 - ps.nozzle_diameter / 2))
    (f.x + (side / 2 - ps.nozzle_diameter / 2), f.y + (side / 2 - ps.nozzle_diameter / 2))
    (f.x + (side / 2 - ps.nozzle_diameter / 2), f.y - (side / 2 - ps.nozzle_diameter / 2))
  refine ⟨closest_coord_idx em.nozzle_state
    (square_coords f.x f.y (side / 2 - ps.nozzle_diameter / 2)), h4, hmin, hlow, ?_⟩
  have hmod : (closest_coord_idx em.nozzle_state
      (square_coords f.x f.y (side / 2 - ps.nozzle_diameter / 2)) + 4) % 4
      = closest_coord_idx em.nozzle_state
        (square_coords f.x f.y (side / 2 - ps.nozzle_diameter / 2)) := by
    have : closest_coord_idx em.nozzle_state
        (square_coords f.x f.y (side / 2 - ps.nozzle_diameter / 2)) < 4 := h4
    omega
  have key : add_cube_perimeter m ps f em =
      cube_perimeter_lines m ps (square_coords f.x f.y (side / 2 - ps.nozzle_diameter / 2))
        (closest_coord_idx em.nozzle_state
          (square_coords f.x f.y (side / 2 - ps.nozzle_diameter / 2)))
        ((f.state.cur_layer : α) * f.state.height_layer - 1 / 10) 4 1
        { nozzle_state := (add_move_oozing m ps
            (coord_at (square_coords f.x f.y (side / 2 - ps.nozzle_diameter / 2))
              (closest_coord_idx em.nozzle_state
                (square_coords f.x f.y (side / 2 - ps.nozzle_diameter / 2)))).1
            (coord_at (square_coords f.x f.y (side / 2 - ps.nozzle_diameter / 2))
              (closest_coord_idx em.nozzle_state
                (square_coords f.x f.y (side / 2 - ps.nozzle_diameter / 2)))).2
            ((f.state.cur_layer : α) * f.state.height_layer - 1 / 10) em).nozzle_state,
          out := (add_move_oozing m ps
            (coord_at (square_coords f.x f.y (side / 2 - ps.nozzle_diameter / 2))
              (closest_coord_idx em.nozzle_state
                (square_coords f.x f.y (side / 2 - ps.nozzle_diameter / 2)))).1
            (coord_at (square_coords f.x f.y (side / 2 - ps.nozzle_diameter / 2))
              (closest_coord_idx em.nozzle_state
                (square_coords f.x f.y (side / 2 - ps.nozzle_diameter / 2)))).2
            ((f.state.cur_layer : α) * f.state.height_layer - 1 / 10) em).out ++
            [GoozLine.cube_perimeter_note f.state.cur_layer] } := by
    simp only [add_cube_perimeter, hside, GOOZ_OFFSET_Z]
  rw [key]
  generalize square_coords f.x f.y (side / 2 - ps.nozzle_diameter / 2) = c at hmod ⊢
  generalize closest_coord_idx em.nozzle_state c = i at hmod ⊢
  generalize (f.state.cur_layer : α) * f.state.height_layer - 1 / 10 = z
  generalize add_move_oozing m ps (coord_at c i).1 (coord_at c i).2 z em = em1
  obtain ⟨e1, e2, e3, e4, hout, hx, hy, hz⟩ := cube_perimeter_lines_four m ps c i z
    { nozzle_state := em1.nozzle_state,
      out := em1.out ++ [GoozLine.cube_perimeter_note f.state.cur_layer] }
  rw [hmod] at hout hx hy
  refine ⟨_, hout, ?_, hx, hy, hz⟩
  simp only [List.map_cons, List.map_nil, line_target]

/-- Witness of C17: over the reals, the first layer of a cube of side 10 at
(50, 50) under the settings of `example.c`, the cursor at the origin. -/
theorem C17_cube_perimeter_loop_witness :
    (example_cube_in ℝ 10 1 50).shape = GoozShape.cube 10 ∧
    (add_cube_perimeter (GoozLibm.mk Real.pi Real.sqrt Real.cos Real.sin)
      (example_settings_in ℝ) (example_cube_in ℝ 10 1 50) GoozEmitter.init).nozzle_state.z
      = ((example_cube_in ℝ 10 1 50).state.cur_layer : ℝ) *
          (example_cube_in ℝ 10 1 50).state.height_layer - 1 / 10 := by
  obtain ⟨_, _, _, _, _, _, _, _, _, hz⟩ := C17_cube_perimeter_loop
    (GoozLibm.mk Real.pi Real.sqrt Real.cos Real.sin) (example_settings_in ℝ)
    (example_cube_in ℝ 10 1 50) GoozEmitter.init 10 rfl
  exact ⟨rfl, hz⟩

theorem abs_sign_mul (a k r : α) (ha : a = 1 ∨ a = -1) (hk : k = 1 ∨ k = -1) (hr : 0 ≤ r) :
    |a * k * r| = r := by
  rcases ha with rfl | rfl <;> rcases hk with rfl | rfl <;>
    simp [abs_of_nonneg hr]

theorem spiral_inward_loop_0_eq (m : GoozLibm α) (ps : GoozPrintSettings α) (z width : α)
    (i : Nat) (k : α) (em : GoozEmitter α) :
    spiral_inward_loop_0 m ps z width i k em
      = spiral_loop m ps z width true 1 (-1) i k em := by
  induction i generalizing k em with
  | zero => rfl
  | succ i ih =>
    simp only [spiral_inward_loop_0, spiral_loop, if_true, one_mul, neg_one_mul,
      ← sub_eq_add_neg]
    exact ih _ _

theorem spiral_inward_loop_1_eq (m : GoozLibm α) (ps : GoozPrintSettings α) (z width : α)
    (i : Nat) (k : α) (em : GoozEmitter α) :
    spiral_inward_loop_1 m ps z width i k em
      = spiral_loop m ps z width false (-1) (-1) i k em := by
  induction i generalizing k em with
  | zero => rfl
  | succ i ih =>
    simp only [spiral_inward_loop_1, spiral_loop, Bool.false_eq_true, if_false, neg_one_mul,
      ← sub_eq_add_neg]
    exact ih _ _

theorem spiral_inward_loop_2_eq (m : GoozLibm α) (ps : GoozPrintSettings α) (z width : α)
    (i : Nat) (k : α) (em : GoozEmitter α) :
    spiral_inward_loop_2 m ps z width i k em
      = spiral_loop m ps z width true (-1) 1 i k em := by
  induction i generalizing k em with
  | zero => rfl
  | succ i ih =>
    simp only [spiral_inward_loop_2, spiral_loop, if_true, one_mul, neg_one_mul,
      ← sub_eq_add_neg]
    exact ih _ _

theorem spiral_inward_loop_3_eq (m : GoozLibm α) (ps : GoozPrintSettings α) (z width : α)
    (i : Nat) (k : α) (em : GoozEmitter α) :
    spiral_inward_loop_3 m ps z width i k em
      = spiral_loop m ps z width false 1 1 i k em := by
  induction i generalizing k em with
  | zero => rfl
  | succ i ih =>
    simp only [spiral_inward_loop_3, spiral_loop, Bool.false_eq_true, if_false, one_mul]
    exact ih _ _

/-- The loop of the inward spiral that moves X first, entered with `i`
iterations to run at a corner of the ring of half side `r = width * i / 2 + δ`
around `(cx, cy)`, `δ` being 0 or `width / 2`: it writes extruding lines only,
each parallel to an axis, with all end points within `r` of the centre on
both axes and a total length of `width * i * (i + 1)`; the cursor ends at
distance `δ` (for even `i`) or `width / 2 - δ` (for odd `i`) from the centre
on both axes. -/
theorem spiral_loop_spec_x (m : GoozLibm α) (ps : GoozPrintSettings α) (z w a b cx cy : α)
    (ha : a = 1 ∨ a = -1) (hb : b = 1 ∨ b = -1) (hw : 0 ≤ w) :
    ∀ (i : Nat) (k δ : α) (em : GoozEmitter α), (k = 1 ∨ k = -1) → (δ = 0 ∨ δ = w / 2) →
      em.nozzle_state.x - cx = -(a * k * (w * (i : α) / 2 + δ)) →
      em.nozzle_state.y - cy = -(b * k * (w * (i : α) / 2 + δ)) →
      ∃ L : List (GoozLine α),
        (spiral_loop m ps z w true a b i k em).out = em.out ++ L ∧
        (∀ l, l ∈ L → ∃ (x y e : α), l = GoozLine.line x y z e ps.print_speed) ∧
        axis_path (em.nozzle_state.x, em.nozzle_state.y) (line_points L) ∧
        (∀ q, q ∈ line_points L →
          |q.1 - cx| ≤ w * (i : α) / 2 + δ ∧ |q.2 - cy| ≤ w * (i : α) / 2 + δ) ∧
        path_length (em.nozzle_state.x, em.nozzle_state.y) (line_points L)
          = w * (i : α) * ((i : α) + 1) ∧
        |(spiral_loop m ps z w true a b i k em).nozzle_state.x - cx|
          = (if i % 2 = 0 then δ else w / 2 - δ) ∧
        |(spiral_loop m ps z w true a b i k em).nozzle_state.y - cy|
          = (if i % 2 = 0 then δ else w / 2 - δ) := by
  intro i
  induction i with
  | zero =>
    intro k δ em hk hδ hx hy
    have hδ0 : 0 ≤ δ := by rcases hδ with rfl | rfl <;> linarith
    refine ⟨[], by simp [spiral_loop], by simp, by simp [line_points, axis_path],
      by simp [line_points], by simp [line_points, path_length], ?_, ?_⟩
    · simp only [spiral_loop, Nat.zero_mod, if_true]
      rw [hx, abs_neg]
      simpa using abs_sign_mul a k δ ha hk hδ0
    · simp only [spiral_loop, Nat.zero_mod, if_true]
      rw [hy, abs_neg]
      simpa using abs_sign_mul b k δ hb hk hδ0
  | succ i ih =>
    intro k δ em hk hδ hx hy
    have hδ0 : 0 ≤ δ := by rcases hδ with rfl | rfl <;> linarith
    have hδw : δ ≤ w / 2 := by rcases hδ with rfl | rfl <;> linarith
    have hδ1 : w / 2 - δ = 0 ∨ w / 2 - δ = w / 2 := by
      rcases hδ with rfl | rfl
      · right; ring
      · left; ring
    have hk1 : k * -1 = 1 ∨ k * -1 = -1 := by
      rcases hk with rfl | rfl
      · right; ring
      · left; ring
    have hi0 : (0 : α) ≤ (i : α) := Nat.cast_nonneg i
    have hr1 : 0 ≤ w * (i : α) / 2 + (w / 2 - δ) := by
      have : 0 ≤ w * (i : α) := mul_nonneg hw hi0
      linarith
    have hcast : (((i + 1 : ℕ) : α)) = (i : α) + 1 := by push_cast; ring
    obtain ⟨e1, ho1⟩ := add_line_out m ps
      (em.nozzle_state.x + a * (w * ((i + 1 : ℕ) : α) * k)) em.nozzle_state.y z w em
    obtain ⟨e2, ho2⟩ := add_line_out m ps
      (em.nozzle_state.x + a * (w * ((i + 1 : ℕ) : α) * k))
      (em.nozzle_state.y + b * (w * ((i + 1 : ℕ) : α) * k)) z w
      (add_line m ps (em.nozzle_state.x + a * (w * ((i + 1 : ℕ) : α) * k))
        em.nozzle_state.y z w em)
    have hx2 : em.nozzle_state.x + a * (w * ((i + 1 : ℕ) : α) * k) - cx
        = -(a * (k * -1) * (w * (i : α) / 2 + (w / 2 - δ))) := by
      rw [hcast] at hx ⊢
      linear_combination hx
    have hy2 : em.nozzle_state.y + b * (w * ((i + 1 : ℕ) : α) * k) - cy
        = -(b * (k * -1) * (w * (i : α) / 2 + (w / 2 - δ))) := by
      rw [hcast] at hy ⊢
      linear_combination hy
    obtain ⟨L, hL, hlines, haxis, hbox, hlen, hfx, hfy⟩ := ih (k * -1) (w / 2 - δ)
      (add_line m ps (em.nozzle_state.x + a * (w * ((i + 1 : ℕ) : α) * k))
        (em.nozzle_state.y + b * (w * ((i + 1 : ℕ) : α) * k)) z w
        (add_line m ps (em.nozzle_state.x + a * (w * ((i + 1 : ℕ) : α) * k))
          em.nozzle_state.y z w em)) hk1 hδ1 hx2 hy2
    have hstep : spiral_loop m ps z w true a b (i + 1) k em
        = spiral_loop m ps z w true a b i (k * -1)
          (add_line m ps (em.nozzle_state.x + a * (w * ((i + 1 : ℕ) : α) * k))
            (em.nozzle_state.y + b * (w * ((i + 1 : ℕ) : α) * k)) z w
            (add_line m ps (em.nozzle_state.x + a * (w * ((i + 1 : ℕ) : α) * k))
              em.nozzle_state.y z w em)) := rfl
    have habs1 : |em.nozzle_state.x + a * (w * ((i + 1 : ℕ) : α) * k) - cx|
        = w * (i : α) / 2 + (w / 2 - δ) := by
      rw [hx2, abs_neg]
      exact abs_sign_mul a (k * -1) _ ha hk1 hr1
    have habs2 : |em.nozzle_state.y + b * (w * ((i + 1 : ℕ) : α) * k) - cy|
        = w * (i : α) / 2 + (w / 2 - δ) := by
      rw [hy2, abs_neg]
      exact abs_sign_mul b (k * -1) _ hb hk1 hr1
    have habs0 : |em.nozzle_state.y - cy| = w * ((i + 1 : ℕ) : α) / 2 + δ := by
      rw [hy, abs_neg]
      refine abs_sign_mul b k _ hb hk ?_
      have : 0 ≤ w * ((i + 1 : ℕ) : α) := mul_nonneg hw (Nat.cast_nonneg _)
      linarith
    have hD : |w * ((i + 1 : ℕ) : α) * k| = w * ((i : α) + 1) := by
      rw [hcast]
      have h0 : 0 ≤ w * ((i : α) + 1) := mul_nonneg hw (by linarith)
      rcases hk with rfl | rfl
      · rw [mul_one, abs_of_nonneg h0]
      · rw [mul_neg, mul_one, abs_neg, abs_of_nonneg h0]
    have hDa : |a * (w * ((i + 1 : ℕ) : α) * k)| = w * ((i : α) + 1) := by
      rw [abs_mul, hD]
      rcases ha with rfl | rfl <;> simp
    have hDb : |b * (w * ((i + 1 : ℕ) : α) * k)| = w * ((i : α) + 1) := by
      rw [abs_mul, hD]
      rcases hb with rfl | rfl <;> simp
    refine ⟨GoozLine.line (em.nozzle_state.x + a * (w * ((i + 1 : ℕ) : α) * k))
        em.nozzle_state.y z e1 ps.print_speed ::
      GoozLine.line (em.nozzle_state.x + a * (w * ((i + 1 : ℕ) : α) * k))
        (em.nozzle_state.y + b * (w * ((i + 1 : ℕ) : α) * k)) z e2 ps.print_speed :: L,
      ?_, ?_, ?_, ?_, ?_, ?_, ?_⟩
    · rw [hstep, hL, ho2, ho1]
      simp only [List.append_assoc, List.singleton_append, List.cons_append, List.nil_append]
    · intro l hl
      simp only [List.mem_cons] at hl
      rcases hl with rfl | rfl | hl
      · exact ⟨_, _, _, rfl⟩
      · exact ⟨_, _, _, rfl⟩
      · exact hlines l hl
    · simp only [line_points, axis_path]
      exact ⟨Or.inr trivial, Or.inl trivial, haxis⟩
    · intro q hq
      simp only [line_points, List.mem_cons] at hq
      rw [hcast]
      rcases hq with rfl | rfl | hq
      · refine ⟨?_, ?_⟩
        · show |em.nozzle_state.x + a * (w * ((i + 1 : ℕ) : α) * k) - cx| ≤ _
          rw [habs1]; linarith
        · show |em.nozzle_state.y - cy| ≤ _
          rw [habs0, hcast]
      · refine ⟨?_, ?_⟩
        · show |em.nozzle_state.x + a * (w * ((i + 1 : ℕ) : α) * k) - cx| ≤ _
          rw [habs1]; linarith
        · show |em.nozzle_state.y + b * (w * ((i + 1 : ℕ) : α) * k) - cy| ≤ _
          rw [habs2]; linarith
      · obtain ⟨h1, h2⟩ := hbox q hq
        constructor <;> linarith
    · simp only [line_points, path_length]
      have hl : path_length (em.nozzle_state.x + a * (w * ((i + 1 : ℕ) : α) * k),
          em.nozzle_state.y + b * (w * ((i + 1 : ℕ) : α) * k)) (line_points L)
          = w * (i : α) * ((i : α) + 1) := hlen
      rw [hl]
      simp only [add_sub_cancel_left, sub_self, abs_zero, add_zero, zero_add]
      rw [hDa, hDb, hcast]
      ring
    · rw [hstep, hfx]
      rcases Nat.mod_two_eq_zero_or_one i with h | h
      · have h' : (i + 1) % 2 = 1 := by omega
        simp only [h, h', if_true]
        norm_num
      · have h' : (i + 1) % 2 = 0 := by omega
        simp only [h, h', if_true]
        norm_num
    · rw [hstep, hfy]
      rcases Nat.mod_two_eq_zero_or_one i with h | h
      · have h' : (i + 1) % 2 = 1 := by omega
        simp only [h, h', if_true]
        norm_num
      · have h' : (i + 1) % 2 = 0 := by omega
        simp only [h, h', if_true]
        norm_num

/-- The loop of the inward spiral that moves Y first, entered with `i`
iterations to run at a corner of the ring of half side `r = width * i / 2 + δ`
around `(cx, cy)`, `δ` being 0 or `width / 2`: it writes extruding lines only,
each parallel to an axis, with all end points within `r` of the centre on
both axes and a total length of `width * i * (i + 1)`; the cursor ends at
distance `δ` (for even `i`) or `width / 2 - δ` (for odd `i`) from the centre
on both axes. -/
theorem spiral_loop_spec_y (m : GoozLibm α) (ps : GoozPrintSettings α) (z w a b cx cy : α)
    (ha : a = 1 ∨ a = -1) (hb : b = 1 ∨ b = -1) (hw : 0 ≤ w) :
    ∀ (i : Nat) (k δ : α) (em : GoozEmitter α), (k = 1 ∨ k = -1) → (δ = 0 ∨ δ = w / 2) →
      em.nozzle_state.x - cx = -(a * k * (w * (i : α) / 2 + δ)) →
      em.nozzle_state.y - cy = -(b * k * (w * (i : α) / 2 + δ)) →
      ∃ L : List (GoozLine α),
        (spiral_loop m ps z w false b a i k em).out = em.out ++ L ∧
        (∀ l, l ∈ L → ∃ (x y e : α), l = GoozLine.line x y z e ps.print_speed) ∧
        axis_path (em.nozzle_state.x, em.nozzle_state.y) (line_points L) ∧
        (∀ q, q ∈ line_points L →
          |q.1 - cx| ≤ w * (i : α) / 2 + δ ∧ |q.2 - cy| ≤ w * (i : α) / 2 + δ) ∧
        path_length (em.nozzle_state.x, em.nozzle_state.y) (line_points L)
          = w * (i : α) * ((i : α) + 1) ∧
        |(spiral_loop m ps z w false b a i k em).nozzle_state.x - cx|
          = (if i % 2 = 0 then δ else w / 2 - δ) ∧
        |(spiral_loop m ps z w false b a i k em).nozzle_state.y - cy|
          = (if i % 2 = 0 then δ else w / 2 - δ) := by
  intro i
  induction i with
  | zero =>
    intro k δ em hk hδ hx hy
    have hδ0 : 0 ≤ δ := by rcases hδ with rfl | rfl <;> linarith
    refine ⟨[], by simp [spiral_loop], by simp, by simp [line_points, axis_path],
      by simp [line_points], by simp [line_points, path_length], ?_, ?_⟩
    · simp only [spiral_loop, Nat.zero_mod, if_true]
      rw [hx, abs_neg]
      simpa using abs_sign_mul a k δ ha hk hδ0
    · simp only [spiral_loop, Nat.zero_mod, if_true]
      rw [hy, abs_neg]
      simpa using abs_sign_mul b k δ hb hk hδ0
  | succ i ih =>
    intro k δ em hk hδ hx hy
    have hδ0 : 0 ≤ δ := by rcases hδ with rfl | rfl <;> linarith
    have hδw : δ ≤ w / 2 := by rcases hδ with rfl | rfl <;> linarith
    have hδ1 : w / 2 - δ = 0 ∨ w / 2 - δ = w / 2 := by
      rcases hδ with rfl | rfl
      · right; ring
      · left; ring
    have hk1 : k * -1 = 1 ∨ k * -1 = -1 := by
      rcases hk with rfl | rfl
      · right; ring
      · left; ring
    have hi0 : (0 : α) ≤ (i : α) := Nat.cast_nonneg i
    have hr1 : 0 ≤ w * (i : α) / 2 + (w / 2 - δ) := by
      have : 0 ≤ w * (i : α) := mul_nonneg hw hi0
      linarith
    have hcast : (((i + 1 : ℕ) : α)) = (i : α) + 1 := by push_cast; ring
    obtain ⟨e1, ho1⟩ := add_line_out m ps
      em.nozzle_state.x (em.nozzle_state.y + b * (w * ((i + 1 : ℕ) : α) * k)) z w em
    obtain ⟨e2, ho2⟩ := add_line_out m ps
      (em.nozzle_state.x + a * (w * ((i + 1 : ℕ) : α) * k))
      (em.nozzle_state.y + b * (w * ((i + 1 : ℕ) : α) * k)) z w
      (add_line m ps em.nozzle_state.x
        (em.nozzle_state.y + b * (w * ((i + 1 : ℕ) : α) * k)) z w em)
    have hx2 : em.nozzle_state.x + a * (w * ((i + 1 : ℕ) : α) * k) - cx
        = -(a * (k * -1) * (w * (i : α) / 2 + (w / 2 - δ))) := by
      rw [hcast] at hx ⊢
      linear_combination hx
    have hy2 : em.nozzle_state.y + b * (w * ((i + 1 : ℕ) : α) * k) - cy
        = -(b * (k * -1) * (w * (i : α) / 2 + (w / 2 - δ))) := by
      rw [hcast] at hy ⊢
      linear_combination hy
    obtain ⟨L, hL, hlines, haxis, hbox, hlen, hfx, hfy⟩ := ih (k * -1) (w / 2 - δ)
      (add_line m ps (em.nozzle_state.x + a * (w * ((i + 1 : ℕ) : α) * k))
        (em.nozzle_state.y + b * (w * ((i + 1 : ℕ) : α) * k)) z w
        (add_line m ps em.nozzle_state.x
          (em.nozzle_state.y + b * (w * ((i + 1 : ℕ) : α) * k)) z w em)) hk1 hδ1 hx2 hy2
    have hstep : spiral_loop m ps z w false b a (i + 1) k em
        = spiral_loop m ps z w false b a i (k * -1)
          (add_line m ps (em.nozzle_state.x + a * (w * ((i + 1 : ℕ) : α) * k))
            (em.nozzle_state.y + b * (w * ((i + 1 : ℕ) : α) * k)) z w
            (add_line m ps em.nozzle_state.x
              (em.nozzle_state.y + b * (w * ((i + 1 : ℕ) : α) * k)) z w em)) := rfl
    have habs1 : |em.nozzle_state.x + a * (w * ((i + 1 : ℕ) : α) * k) - cx|
        = w * (i : α) / 2 + (w / 2 - δ) := by
      rw [hx2, abs_neg]
      exact abs_sign_mul a (k * -1) _ ha hk1 hr1
    have habs2 : |em.nozzle_state.y + b * (w * ((i + 1 : ℕ) : α) * k) - cy|
        = w * (i : α) / 2 + (w / 2 - δ) := by
      rw [hy2, abs_neg]
      exact abs_sign_mul b (k * -1) _ hb hk1 hr1
    have habs0 : |em.nozzle_state.x - cx| = w * ((i + 1 : ℕ) : α) / 2 + δ := by
      rw [hx, abs_neg]
      refine abs_sign_mul a k _ ha hk ?_
      have : 0 ≤ w * ((i + 1 : ℕ) : α) := mul_nonneg hw (Nat.cast_nonneg _)
      linarith
    have hD : |w * ((i + 1 : ℕ) : α) * k| = w * ((i : α) + 1) := by
      rw [hcast]
      have h0 : 0 ≤ w * ((i : α) + 1) := mul_nonneg hw (by linarith)
      rcases hk with rfl | rfl
      · rw [mul_one, abs_of_nonneg h0]
      · rw [mul_neg, mul_one, abs_neg, abs_of_nonneg h0]
    have hDa : |a * (w * ((i + 1 : ℕ) : α) * k)| = w * ((i : α) + 1) := by
      rw [abs_mul, hD]
      rcases ha with rfl | rfl <;> simp
    have hDb : |b * (w * ((i + 1 : ℕ) : α) * k)| = w * ((i : α) + 1) := by
      rw [abs_mul, hD]
      rcases hb with rfl | rfl <;> simp
    refine ⟨GoozLine.line em.nozzle_state.x
        (em.nozzle_state.y + b * (w * ((i + 1 : ℕ) : α) * k)) z e1 ps.print_speed ::
      GoozLine.line (em.nozzle_state.x + a * (w * ((i + 1 : ℕ) : α) * k))
        (em.nozzle_state.y + b * (w * ((i + 1 : ℕ) : α) * k)) z e2 ps.print_speed :: L,
      ?_, ?_, ?_, ?_, ?_, ?_, ?_⟩
    · rw [hstep, hL, ho2, ho1]
      simp only [List.append_assoc, List.singleton_append, List.cons_append, List.nil_append]
    · intro l hl
      simp only [List.mem_cons] at hl
      rcases hl with rfl | rfl | hl
      · exact ⟨_, _, _, rfl⟩
      · exact ⟨_, _, _, rfl⟩
      · exact hlines l hl
    · simp only [line_points, axis_path]
      exact ⟨Or.inl trivial, Or.inr trivial, haxis⟩
    · intro q hq
      simp only [line_points, List.mem_cons] at hq
      rw [hcast]
      rcases hq with rfl | rfl | hq
      · refine ⟨?_, ?_⟩
        · show |em.nozzle_state.x - cx| ≤ _
          rw [habs0, hcast]
        · show |em.nozzle_state.y + b * (w * ((i + 1 : ℕ) : α) * k) - cy| ≤ _
          rw [habs2]; linarith
      · refine ⟨?_, ?_⟩
        · show |em.nozzle_state.x + a * (w * ((i + 1 : ℕ) : α) * k) - cx| ≤ _
          rw [habs1]; linarith
        · show |em.nozzle_state.y + b * (w * ((i + 1 : ℕ) : α) * k) - cy| ≤ _
          rw [habs2]; linarith
      · obtain ⟨h1, h2⟩ := hbox q hq
        constructor <;> linarith
    · simp only [line_points, path_length]
      have hl : path_length (em.nozzle_state.x + a * (w * ((i + 1 : ℕ) : α) * k),
          em.nozzle_state.y + b * (w * ((i + 1 : ℕ) : α) * k)) (line_points L)
          = w * (i : α) * ((i : α) + 1) := hlen
      rw [hl]
      simp only [add_sub_cancel_left, sub_self, abs_zero, add_zero, zero_add]
      rw [hDa, hDb, hcast]
      ring
    · rw [hstep, hfx]
      rcases Nat.mod_two_eq_zero_or_one i with h | h
      · have h' : (i + 1) % 2 = 1 := by omega
        simp only [h, h', if_true]
        norm_num
      · have h' : (i + 1) % 2 = 0 := by omega
        simp only [h, h', if_true]
        norm_num
    · rw [hstep, hfy]
      rcases Nat.mod_two_eq_zero_or_one i with h | h
      · have h' : (i + 1) % 2 = 1 := by omega
        simp only [h, h', if_true]
        norm_num
      · have h' : (i + 1) % 2 = 0 := by omega
        simp only [h, h', if_true]
        norm_num

end EmitterClaims

section SpiralLemmas

variable {α : Type} [LinearOrderedField α]

/-- The first line of the inward spiral followed by its loop. -/
theorem spiral_first_then_loop (m : GoozLibm α) (ps : GoozPrintSettings α)
    (z w x y s c : α) (em1 res : GoozEmitter α) (X2 Y2 : α) (L1 : List (GoozLine α))
    (hout : res.out = (add_line m ps X2 Y2 z w em1).out ++ L1)
    (hlines : ∀ l, l ∈ L1 → ∃ (x y e : α), l = GoozLine.line x y z e ps.print_speed)
    (haxis : axis_path (X2, Y2) (line_points L1))
    (hbox : ∀ q, q ∈ line_points L1 → |q.1 - x| ≤ s ∧ |q.2 - y| ≤ s)
    (hlen : path_length (X2, Y2) (line_points L1) = w * c * (c + 1))
    (hax0 : em1.nozzle_state.x = X2 ∨ em1.nozzle_state.y = Y2)
    (hb0 : |X2 - x| ≤ s ∧ |Y2 - y| ≤ s)
    (hl0 : |X2 - em1.nozzle_state.x| + |Y2 - em1.nozzle_state.y| = w * c) :
    ∃ L : List (GoozLine α),
      res.out = em1.out ++ L ∧
      (∀ l, l ∈ L → ∃ (x y e : α), l = GoozLine.line x y z e ps.print_speed) ∧
      axis_path (em1.nozzle_state.x, em1.nozzle_state.y) (line_points L) ∧
      (∀ q, q ∈ line_points L → |q.1 - x| ≤ s ∧ |q.2 - y| ≤ s) ∧
      path_length (em1.nozzle_state.x, em1.nozzle_state.y) (line_points L)
        = w * ((c + 1) ^ 2 - 1) := by
  obtain ⟨e0, h0⟩ := add_line_out m ps X2 Y2 z w em1
  refine ⟨GoozLine.line X2 Y2 z e0 ps.print_speed :: L1, ?_, ?_, ?_, ?_, ?_⟩
  · rw [hout, h0]
    simp only [List.append_assoc, List.singleton_append]
  · intro l hl
    simp only [List.mem_cons] at hl
    rcases hl with rfl | hl
    · exact ⟨_, _, _, rfl⟩
    · exact hlines l hl
  · simp only [line_points, axis_path]
    exact ⟨hax0, haxis⟩
  · intro q hq
    simp only [line_points, List.mem_cons] at hq
    rcases hq with rfl | hq
    · exact hb0
    · exact hbox q hq
  · simp only [line_points, path_length]
    rw [hlen, hl0]
    ring

/-- The `switch` of the inward spiral, entered with the cursor on the corner
`min_idx` of the square of half side `s` around `(x, y)`, where
`width * (nbr_pass - 1) = 2 * s`: it writes extruding lines only, each
parallel to an axis, with every end point in the square and a total length of
`width * (nbr_pass ^ 2 - 1)`; the cursor ends at the centre on both axes when
`nbr_pass` is odd and at `width / 2` from it on both axes when `nbr_pass` is
even. -/
theorem spiral_inward_switch_spec (m : GoozLibm α) (ps : GoozPrintSettings α)
    (z w x y s : α) (n idx : Nat) (em1 : GoozEmitter α)
    (hw : 0 ≤ w) (hn : 1 ≤ n) (hs : w * ((n - 1 : ℕ) : α) = 2 * s) (hidx : idx < 4)
    (hpx : em1.nozzle_state.x = (coord_at (square_coords x y s) idx).1)
    (hpy : em1.nozzle_state.y = (coord_at (square_coords x y s) idx).2) :
    ∃ L : List (GoozLine α),
      (spiral_inward_switch m ps z w n idx em1).out = em1.out ++ L ∧
      (∀ l, l ∈ L → ∃ (x y e : α), l = GoozLine.line x y z e ps.print_speed) ∧
      axis_path (em1.nozzle_state.x, em1.nozzle_state.y) (line_points L) ∧
      (∀ q, q ∈ line_points L → |q.1 - x| ≤ s ∧ |q.2 - y| ≤ s) ∧
      path_length (em1.nozzle_state.x, em1.nozzle_state.y) (line_points L)
        = w * ((n : α) ^ 2 - 1) ∧
      |(spiral_inward_switch m ps z w n idx em1).nozzle_state.x - x|
        = (if (n - 1) % 2 = 0 then 0 else w / 2) ∧
      |(spiral_inward_switch m ps z w n idx em1).nozzle_state.y - y|
        = (if (n - 1) % 2 = 0 then 0 else w / 2) := by
  have hc0 : (0 : α) ≤ ((n - 1 : ℕ) : α) := Nat.cast_nonneg _
  have hs0 : 0 ≤ s := by
    have : 0 ≤ w * ((n - 1 : ℕ) : α) := mul_nonneg hw hc0
    linarith
  have hcn : ((n - 1 : ℕ) : α) + 1 = (n : α) := by
    rw [Nat.cast_sub hn]
    simp
  have hr : w * ((n - 1 : ℕ) : α) / 2 + 0 = s := by linarith
  have habs : |s| = s := abs_of_nonneg hs0
  have habs2 : |2 * s| = 2 * s := abs_of_nonneg (by linarith)
  obtain ⟨c0, c1, c2, c3⟩ := coord_at_square x y s
  have hδ : (0 : α) = 0 ∨ (0 : α) = w / 2 := Or.inl rfl
  have hk : (1 : α) = 1 ∨ (1 : α) = -1 := Or.inl rfl
  have hp1 : (1 : α) = 1 ∨ (1 : α) = -1 := Or.inl rfl
  have hm1 : (-1 : α) = 1 ∨ (-1 : α) = -1 := Or.inr rfl
  interval_cases idx
  · -- corner (x - s, y - s): up along Y, then X first
    rw [c0] at hpx hpy
    simp only at hpx hpy
    obtain ⟨L1, hL, hlines, haxis, hbox, hlen, hfx, hfy⟩ :=
      spiral_loop_spec_x m ps z w 1 (-1) x y hp1 hm1 hw (n - 1) 1 0
        (add_line m ps em1.nozzle_state.x
          (em1.nozzle_state.y + w * ((n - 1 : ℕ) : α) * 1) z w em1) hk hδ
        (by show em1.nozzle_state.x - x = _
            rw [hpx, hr]; ring)
        (by show em1.nozzle_state.y + w * ((n - 1 : ℕ) : α) * 1 - y = _
            rw [hpy, hr]; linear_combination hs)
    rw [hr] at hbox
    obtain ⟨L, h1, h2, h3, h4, h5⟩ := spiral_first_then_loop m ps z w x y s
      ((n - 1 : ℕ) : α) em1
      (spiral_inward_switch m ps z w n 0 em1) em1.nozzle_state.x
      (em1.nozzle_state.y + w * ((n - 1 : ℕ) : α) * 1) L1
      (by simp only [spiral_inward_switch, spiral_inward_loop_0_eq]; exact hL)
      hlines haxis hbox hlen (Or.inl rfl)
      (by rw [hpx, hpy]
          constructor
          · rw [show x - s - x = -s by ring, abs_neg, habs]
          · rw [show y - s + w * ((n - 1 : ℕ) : α) * 1 - y = s by linear_combination hs, habs])
      (by rw [sub_self, abs_zero, zero_add,
            show em1.nozzle_state.y + w * ((n - 1 : ℕ) : α) * 1 - em1.nozzle_state.y
              = 2 * s by linear_combination hs, habs2, hs])
    rw [hcn] at h5
    refine ⟨L, h1, h2, h3, h4, h5, ?_, ?_⟩
    · simp only [spiral_inward_switch, spiral_inward_loop_0_eq]
      rw [hfx]
      split_ifs <;> ring
    · simp only [spiral_inward_switch, spiral_inward_loop_0_eq]
      rw [hfy]
      split_ifs <;> ring
  · -- corner (x - s, y + s): right along X, then Y first
    rw [c1] at hpx hpy
    simp only at hpx hpy
    obtain ⟨L1, hL, hlines, haxis, hbox, hlen, hfx, hfy⟩ :=
      spiral_loop_spec_y m ps z w (-1) (-1) x y hm1 hm1 hw (n - 1) 1 0
        (add_line m ps (em1.nozzle_state.x + w * ((n - 1 : ℕ) : α) * 1)
          em1.nozzle_state.y z w em1) hk hδ
        (by show em1.nozzle_state.x + w * ((n - 1 : ℕ) : α) * 1 - x = _
            rw [hpx, hr]; linear_combination hs)
        (by show em1.nozzle_state.y - y = _
            rw [hpy, hr]; ring)
    rw [hr] at hbox
    obtain ⟨L, h1, h2, h3, h4, h5⟩ := spiral_first_then_loop m ps z w x y s
      ((n - 1 : ℕ) : α) em1
      (spiral_inward_switch m ps z w n 1 em1)
      (em1.nozzle_state.x + w * ((n - 1 : ℕ) : α) * 1) em1.nozzle_state.y L1
      (by simp only [spiral_inward_switch, spiral_inward_loop_1_eq]; exact hL)
      hlines haxis hbox hlen (Or.inr rfl)
      (by rw [hpx, hpy]
          constructor
          · rw [show x - s + w * ((n - 1 : ℕ) : α) * 1 - x = s by linear_combination hs, habs]
          · rw [show y + s - y = s by ring, habs])
      (by rw [sub_self, abs_zero, add_zero,
            show em1.nozzle_state.x + w * ((n - 1 : ℕ) : α) * 1 - em1.nozzle_state.x
              = 2 * s by linear_combination hs, habs2, hs])
    rw [hcn] at h5
    refine ⟨L, h1, h2, h3, h4, h5, ?_, ?_⟩
    · simp only [spiral_inward_switch, spiral_inward_loop_1_eq]
      rw [hfx]
      split_ifs <;> ring
    · simp only [spiral_inward_switch, spiral_inward_loop_1_eq]
      rw [hfy]
      split_ifs <;> ring
  · -- corner (x + s, y + s): down along Y, then X first
    rw [c2] at hpx hpy
    simp only at hpx hpy
    obtain ⟨L1, hL, hlines, haxis, hbox, hlen, hfx, hfy⟩ :=
      spiral_loop_spec_x m ps z w (-1) 1 x y hm1 hp1 hw (n - 1) 1 0
        (add_line m ps em1.nozzle_state.x
          (em1.nozzle_state.y - w * ((n - 1 : ℕ) : α) * 1) z w em1) hk hδ
        (by show em1.nozzle_state.x - x = _
            rw [hpx, hr]; ring)
        (by show em1.nozzle_state.y - w * ((n - 1 : ℕ) : α) * 1 - y = _
            rw [hpy, hr]; linear_combination -hs)
    rw [hr] at hbox
    obtain ⟨L, h1, h2, h3, h4, h5⟩ := spiral_first_then_loop m ps z w x y s
      ((n - 1 : ℕ) : α) em1
      (spiral_inward_switch m ps z w n 2 em1) em1.nozzle_state.x
      (em1.nozzle_state.y - w * ((n - 1 : ℕ) : α) * 1) L1
      (by simp only [spiral_inward_switch, spiral_inward_loop_2_eq]; exact hL)
      hlines haxis hbox hlen (Or.inl rfl)
      (by rw [hpx, hpy]
          constructor
          · rw [show x + s - x = s by ring, habs]
          · rw [show y + s - w * ((n - 1 : ℕ) : α) * 1 - y = -s by linear_combination -hs,
              abs_neg, habs])
      (by rw [sub_self, abs_zero, zero_add,
            show em1.nozzle_state.y - w * ((n - 1 : ℕ) : α) * 1 - em1.nozzle_state.y
              = -(2 * s) by linear_combination -hs, abs_neg, habs2, hs])
    rw [hcn] at h5
    refine ⟨L, h1, h2, h3, h4, h5, ?_, ?_⟩
    · simp only [spiral_inward_switch, spiral_inward_loop_2_eq]
      rw [hfx]
      split_ifs <;> ring
    · simp only [spiral_inward_switch, spiral_inward_loop_2_eq]
      rw [hfy]
      split_ifs <;> ring
  · -- corner (x + s, y - s): left along X, then Y first
    rw [c3] at hpx hpy
    simp only at hpx hpy
    obtain ⟨L1, hL, hlines, haxis, hbox, hlen, hfx, hfy⟩ :=
      spiral_loop_spec_y m ps z w 1 1 x y hp1 hp1 hw (n - 1) 1 0
        (add_line m ps (em1.nozzle_state.x - w * ((n - 1 : ℕ) : α) * 1)
          em1.nozzle_state.y z w em1) hk hδ
        (by show em1.nozzle_state.x - w * ((n - 1 : ℕ) : α) * 1 - x = _
            rw [hpx, hr]; linear_combination -hs)
        (by show em1.nozzle_state.y - y = _
            rw [hpy, hr]; ring)
    rw [hr] at hbox
    obtain ⟨L, h1, h2, h3, h4, h5⟩ := spiral_first_then_loop m ps z w x y s
      ((n - 1 : ℕ) : α) em1
      (spiral_inward_switch m ps z w n 3 em1)
      (em1.nozzle_state.x - w * ((n - 1 : ℕ) : α) * 1) em1.nozzle_state.y L1
      (by simp only [spiral_inward_switch, spiral_inward_loop_3_eq]; exact hL)
      hlines haxis hbox hlen (Or.inr rfl)
      (by rw [hpx, hpy]
          constructor
          · rw [show x + s - w * ((n - 1 : ℕ) : α) * 1 - x = -s by linear_combination -hs,
              abs_neg, habs]
          · rw [show y - s - y = -s by ring, abs_neg, habs])
      (by rw [sub_self, abs_zero, add_zero,
            show em1.nozzle_state.x - w * ((n - 1 : ℕ) : α) * 1 - em1.nozzle_state.x
              = -(2 * s) by linear_combination -hs, abs_neg, habs2, hs])
    rw [hcn] at h5
    refine ⟨L, h1, h2, h3, h4, h5, ?_, ?_⟩
    · simp only [spiral_inward_switch, spiral_inward_loop_3_eq]
      rw [hfx]
      split_ifs <;> ring
    · simp only [spiral_inward_switch, spiral_inward_loop_3_eq]
      rw [hfy]
      split_ifs <;> ring

end SpiralLemmas

/-! ## The inward spiral -/

section SpiralCover

variable {α : Type} [LinearOrderedField α]

theorem on_line_iff (p q c : α × α) :
    on_line p q c = true ↔
      c ≠ p ∧ ((p.1 ≤ c.1 ∧ c.1 ≤ q.1) ∨ (q.1 ≤ c.1 ∧ c.1 ≤ p.1)) ∧
        ((p.2 ≤ c.2 ∧ c.2 ≤ q.2) ∨ (q.2 ≤ c.2 ∧ c.2 ≤ p.2)) := by
  simp only [on_line, Bool.and_eq_true, Bool.or_eq_true, decide_eq_true_eq, and_assoc]

/-- On a line of points spaced by `w > 0` in the direction `u`, the point of
number `A` lies between those of numbers `I` and `J` exactly when `A` lies
between `I` and `J`. -/
theorem lattice_between (w u x : α) (hw : 0 < w) (hu : u = 1 ∨ u = -1) (I J A : ℤ) :
    ((x + u * (w * (I : α)) ≤ x + u * (w * (A : α)) ∧
        x + u * (w * (A : α)) ≤ x + u * (w * (J : α))) ∨
      (x + u * (w * (J : α)) ≤ x + u * (w * (A : α)) ∧
        x + u * (w * (A : α)) ≤ x + u * (w * (I : α)))) ↔
      ((I ≤ A ∧ A ≤ J) ∨ (J ≤ A ∧ A ≤ I)) := by
  have key : ∀ M N : ℤ, w * (M : α) ≤ w * (N : α) ↔ M ≤ N := by
    intro M N
    rw [mul_le_mul_left hw]
    exact Int.cast_le
  rcases hu with rfl | rfl
  · simp only [one_mul, add_le_add_iff_left, key]
  · simp only [neg_one_mul, add_le_add_iff_left, neg_le_neg_iff, key]
    tauto

theorem lattice_eq (w u x : α) (hw : 0 < w) (hu : u = 1 ∨ u = -1) (I A : ℤ) :
    x + u * (w * (A : α)) = x + u * (w * (I : α)) ↔ A = I := by
  have hu0 : u ≠ 0 := by rcases hu with rfl | rfl <;> norm_num
  constructor
  · intro h
    have h1 : u * (w * (A : α)) = u * (w * (I : α)) := add_left_cancel h
    have h2 : w * (A : α) = w * (I : α) := mul_left_cancel₀ hu0 h1
    have h3 : (A : α) = (I : α) := mul_left_cancel₀ hw.ne' h2
    exact_mod_cast h3
  · rintro rfl
    rfl

/-- The lines between points of a grid of spacing `w > 0`: the line from the
point `(I1, J1)` to the point `(I2, J2)` passes over the point `(A, B)`
exactly when `(A, B)` is in the rectangle spanned by the two and is not the
first of them. -/
theorem on_line_lattice (w u v x y : α) (hw : 0 < w) (hu : u = 1 ∨ u = -1)
    (hv : v = 1 ∨ v = -1) (I1 J1 I2 J2 A B : ℤ) :
    on_line (x + u * (w * (I1 : α)), y + v * (w * (J1 : α)))
        (x + u * (w * (I2 : α)), y + v * (w * (J2 : α)))
        (x + u * (w * (A : α)), y + v * (w * (B : α))) = true ↔
      ¬ (A = I1 ∧ B = J1) ∧ ((I1 ≤ A ∧ A ≤ I2) ∨ (I2 ≤ A ∧ A ≤ I1)) ∧
        ((J1 ≤ B ∧ B ≤ J2) ∨ (J2 ≤ B ∧ B ≤ J1)) := by
  rw [on_line_iff]
  simp only [ne_eq, Prod.mk.injEq, lattice_between w u x hw hu, lattice_between w v y hw hv,
    lattice_eq w u x hw hu, lattice_eq w v y hw hv]

/-- The lines of the loop that moves X first, entered with `i` iterations to
run at the point `p` of a grid of spacing `w`: they pass once over every grid
point at `1 .. i` steps from `p` along X and `0 .. i` steps along Y, in the
directions `a * k` and `b * k`, and over no other grid point. -/
theorem spiral_pts_cover_x (w a b : α) (hw : 0 < w) (ha : a = 1 ∨ a = -1)
    (hb : b = 1 ∨ b = -1) :
    ∀ (i : Nat) (k : α) (p : α × α) (A B : ℤ), (k = 1 ∨ k = -1) →
      lines_over (p.1 + a * k * (w * (A : α)), p.2 + b * k * (w * (B : α))) p
          (spiral_pts w true a b i k p)
        = if 1 ≤ A ∧ A ≤ (i : ℤ) ∧ 0 ≤ B ∧ B ≤ (i : ℤ) then 1 else 0 := by
  intro i
  induction i with
  | zero =>
    intro k p A B _
    simp only [spiral_pts, lines_over]
    rw [if_neg]
    omega
  | succ i ih =>
    intro k p A B hk
    have hu : a * k = 1 ∨ a * k = -1 := by
      rcases ha with rfl | rfl <;> rcases hk with rfl | rfl <;> simp
    have hv : b * k = 1 ∨ b * k = -1 := by
      rcases hb with rfl | rfl <;> rcases hk with rfl | rfl <;> simp
    have hk' : k * -1 = 1 ∨ k * -1 = -1 := by
      rcases hk with rfl | rfl <;> simp
    have hP : (p.1 + a * k * (w * ((0 : ℤ) : α)), p.2 + b * k * (w * ((0 : ℤ) : α))) = p := by
      simp
    have hP1 : (p.1 + a * k * (w * (((i + 1 : ℕ) : ℤ) : α)),
        p.2 + b * k * (w * ((0 : ℤ) : α)))
        = (p.1 + a * (w * ((i + 1 : ℕ) : α) * k), p.2) := by
      ext
      · simp only [Int.cast_natCast]; ring
      · simp
    have hP2 : (p.1 + a * k * (w * (((i + 1 : ℕ) : ℤ) : α)),
        p.2 + b * k * (w * (((i + 1 : ℕ) : ℤ) : α)))
        = (p.1 + a * (w * ((i + 1 : ℕ) : α) * k),
            p.2 + b * (w * ((i + 1 : ℕ) : α) * k)) := by
      ext
      · simp only [Int.cast_natCast]; ring
      · simp only [Int.cast_natCast]; ring
    have e1 := on_line_lattice w (a * k) (b * k) p.1 p.2 hw hu hv 0 0 ((i + 1 : ℕ) : ℤ) 0 A B
    have e2 := on_line_lattice w (a * k) (b * k) p.1 p.2 hw hu hv ((i + 1 : ℕ) : ℤ) 0
      ((i + 1 : ℕ) : ℤ) ((i + 1 : ℕ) : ℤ) A B
    rw [hP, hP1] at e1
    rw [hP1, hP2] at e2
    have hC : (p.1 + a * k * (w * (A : α)), p.2 + b * k * (w * (B : α)))
        = ((p.1 + a * (w * ((i + 1 : ℕ) : α) * k))
              + a * (k * -1) * (w * ((((i + 1 : ℕ) : ℤ) - A : ℤ) : α)),
            (p.2 + b * (w * ((i + 1 : ℕ) : α) * k))
              + b * (k * -1) * (w * ((((i + 1 : ℕ) : ℤ) - B : ℤ) : α))) := by
      ext
      · simp only [Int.cast_sub, Int.cast_natCast]; ring
      · simp only [Int.cast_sub, Int.cast_natCast]; ring
    have e3 := ih (k * -1) (p.1 + a * (w * ((i + 1 : ℕ) : α) * k),
      p.2 + b * (w * ((i + 1 : ℕ) : α) * k)) (((i + 1 : ℕ) : ℤ) - A) (((i + 1 : ℕ) : ℤ) - B) hk'
    rw [← hC] at e3
    simp only [spiral_pts, if_true, lines_over]
    rw [e3]
    by_cases h1 : on_line p (p.1 + a * (w * ((i + 1 : ℕ) : α) * k), p.2)
        (p.1 + a * k * (w * (A : α)), p.2 + b * k * (w * (B : α))) = true <;>
    by_cases h2 : on_line (p.1 + a * (w * ((i + 1 : ℕ) : α) * k), p.2)
        (p.1 + a * (w * ((i + 1 : ℕ) : α) * k), p.2 + b * (w * ((i + 1 : ℕ) : α) * k))
        (p.1 + a * k * (w * (A : α)), p.2 + b * k * (w * (B : α))) = true <;>
    · simp only [h1, h2, if_true, if_false, Bool.false_eq_true]
      rw [e1] at h1
      rw [e2] at h2
      split_ifs <;> omega

theorem on_line_swap (p q c : α × α) : on_line p.swap q.swap c.swap = on_line p q c := by
  rw [Bool.eq_iff_iff, on_line_iff, on_line_iff]
  simp only [Prod.fst_swap, Prod.snd_swap, ne_eq, Prod.swap_inj]
  tauto

theorem lines_over_swap (c : α × α) (pts : List (α × α)) :
    ∀ p : α × α, lines_over c.swap p.swap (pts.map Prod.swap) = lines_over c p pts := by
  induction pts with
  | nil => intro p; rfl
  | cons q rest ih =>
    intro p
    simp only [List.map_cons, lines_over, on_line_swap, ih]

theorem ring_path_swap (cx cy : α) (pts : List (α × α)) :
    ∀ p : α × α, ring_path cy cx p.swap (pts.map Prod.swap) ↔ ring_path cx cy p pts := by
  induction pts with
  | nil => intro p; exact Iff.rfl
  | cons q rest ih =>
    intro p
    simp only [List.map_cons, ring_path, ih, Prod.fst_swap, Prod.snd_swap]
    rw [max_comm |q.2 - cy|, max_comm |p.2 - cy|]

/-- The loop that moves Y first writes the path of the loop that moves X
first with the two coordinates exchanged. -/
theorem spiral_pts_swap (w a b : α) :
    ∀ (i : Nat) (k : α) (p : α × α),
      spiral_pts w false a b i k p = (spiral_pts w true a b i k p.swap).map Prod.swap := by
  intro i
  induction i with
  | zero => intro k p; rfl
  | succ i ih =>
    intro k p
    simp only [spiral_pts, Bool.false_eq_true, if_false, if_true, List.map_cons,
      Prod.swap_prod_mk, Prod.fst_swap, Prod.snd_swap, ih]

/-- The lines of the loop that moves Y first, entered with `i` iterations to
run at the point `p` of a grid of spacing `w`: they pass once over every grid
point at `1 .. i` steps from `p` along Y and `0 .. i` steps along X, in the
directions `a * k` and `b * k`, and over no other grid point. -/
theorem spiral_pts_cover_y (w a b : α) (hw : 0 < w) (ha : a = 1 ∨ a = -1)
    (hb : b = 1 ∨ b = -1) (i : Nat) (k : α) (p : α × α) (A B : ℤ) (hk : k = 1 ∨ k = -1) :
    lines_over (p.1 + b * k * (w * (B : α)), p.2 + a * k * (w * (A : α))) p
        (spiral_pts w false a b i k p)
      = if 1 ≤ A ∧ A ≤ (i : ℤ) ∧ 0 ≤ B ∧ B ≤ (i : ℤ) then 1 else 0 := by
  rw [spiral_pts_swap, ← spiral_pts_cover_x w a b hw ha hb i k p.swap A B hk]
  exact lines_over_swap (p.swap.1 + a * k * (w * (A : α)), p.swap.2 + b * k * (w * (B : α)))
    (spiral_pts w true a b i k p.swap) p.swap

theorem abs_sign_mul2 (a k r : α) (ha : a = 1 ∨ a = -1) (hk : k = 1 ∨ k = -1) :
    |a * k * r| = |r| := by
  rcases ha with rfl | rfl <;> rcases hk with rfl | rfl <;> simp

/-- The loop that moves X first, entered with `i` iterations to run at a
corner of the ring of half side `w * i / 2 + δ` around `(cx, cy)`, `δ` being
0 or `w / 2`, never moves away from the centre. -/
theorem spiral_pts_ring_x (w a b cx cy : α) (hw : 0 ≤ w) (ha : a = 1 ∨ a = -1)
    (hb : b = 1 ∨ b = -1) :
    ∀ (i : Nat) (k δ : α) (p : α × α), (k = 1 ∨ k = -1) → (δ = 0 ∨ δ = w / 2) →
      p.1 - cx = -(a * k * (w * (i : α) / 2 + δ)) →
      p.2 - cy = -(b * k * (w * (i : α) / 2 + δ)) →
      ring_path cx cy p (spiral_pts w true a b i k p) := by
  intro i
  induction i with
  | zero => intro k δ p _ _ _ _; trivial
  | succ i ih =>
    intro k δ p hk hδ hx hy
    have hk' : k * -1 = 1 ∨ k * -1 = -1 := by
      rcases hk with rfl | rfl <;> simp
    have hi0 : (0 : α) ≤ (i : α) := Nat.cast_nonneg i
    have hδ0 : 0 ≤ δ := by rcases hδ with rfl | rfl <;> linarith
    have hδ1 : δ ≤ w / 2 := by rcases hδ with rfl | rfl <;> linarith
    have hδ' : w / 2 - δ = 0 ∨ w / 2 - δ = w / 2 := by
      rcases hδ with rfl | rfl
      · right; ring
      · left; ring
    have hcast : ((i + 1 : ℕ) : α) = (i : α) + 1 := by push_cast; ring
    have hr0 : 0 ≤ w * ((i + 1 : ℕ) : α) / 2 + δ := by
      rw [hcast]; nlinarith
    have hq0 : 0 ≤ w * ((i + 1 : ℕ) : α) / 2 - δ := by
      rw [hcast]; nlinarith
    have hpx : |p.1 - cx| = w * ((i + 1 : ℕ) : α) / 2 + δ := by
      rw [hx, abs_neg, abs_sign_mul2 a k _ ha hk, abs_of_nonneg hr0]
    have hpy : |p.2 - cy| = w * ((i + 1 : ℕ) : α) / 2 + δ := by
      rw [hy, abs_neg, abs_sign_mul2 b k _ hb hk, abs_of_nonneg hr0]
    have h1x : p.1 + a * (w * ((i + 1 : ℕ) : α) * k) - cx
        = a * k * (w * ((i + 1 : ℕ) : α) / 2 - δ) := by
      linear_combination hx
    have h2y : p.2 + b * (w * ((i + 1 : ℕ) : α) * k) - cy
        = b * k * (w * ((i + 1 : ℕ) : α) / 2 - δ) := by
      linear_combination hy
    have hq1 : |p.1 + a * (w * ((i + 1 : ℕ) : α) * k) - cx|
        = w * ((i + 1 : ℕ) : α) / 2 - δ := by
      rw [h1x, abs_sign_mul2 a k _ ha hk, abs_of_nonneg hq0]
    have hq2 : |p.2 + b * (w * ((i + 1 : ℕ) : α) * k) - cy|
        = w * ((i + 1 : ℕ) : α) / 2 - δ := by
      rw [h2y, abs_sign_mul2 b k _ hb hk, abs_of_nonneg hq0]
    simp only [spiral_pts, if_true, ring_path]
    refine ⟨?_, ?_, ?_⟩
    · rw [hq1, hpx, hpy, max_self]
      exact max_le (by linarith) le_rfl
    · rw [hq1, hq2, hpy, max_self]
      exact le_max_of_le_right (by linarith)
    · apply ih (k * -1) (w / 2 - δ) _ hk' hδ'
      · rw [h1x, hcast]; ring
      · rw [h2y, hcast]; ring

/-- The loop that moves Y first never moves away from the centre. -/
theorem spiral_pts_ring_y (w a b cx cy : α) (hw : 0 ≤ w) (ha : a = 1 ∨ a = -1)
    (hb : b = 1 ∨ b = -1) (i : Nat) (k δ : α) (p : α × α) (hk : k = 1 ∨ k = -1)
    (hδ : δ = 0 ∨ δ = w / 2)
    (hy : p.2 - cy = -(a * k * (w * (i : α) / 2 + δ)))
    (hx : p.1 - cx = -(b * k * (w * (i : α) / 2 + δ))) :
    ring_path cx cy p (spiral_pts w false a b i k p) := by
  rw [spiral_pts_swap]
  have h1 := spiral_pts_ring_x w a b cy cx hw ha hb i k δ p.swap hk hδ hy hx
  have h2 := (ring_path_swap cy cx (spiral_pts w true a b i k p.swap) p.swap).mpr h1
  rw [Prod.swap_swap] at h2
  exact h2

/-- The first line of a case of the inward spiral followed by a loop that
moves X first, on a grid of spacing `w` with `N + 1` points a side: started at
the corner `p`, the first line runs `N` steps along Y in the direction `-b`
and the loop starts along X in the direction `a`.  The lines pass once over
every point of the grid but `p`, and never over `p`. -/
theorem spiral_first_cover_x (w a b : α) (hw : 0 < w) (ha : a = 1 ∨ a = -1)
    (hb : b = 1 ∨ b = -1) (N : Nat) (p : α × α) (A B : ℤ)
    (hA : 0 ≤ A ∧ A ≤ (N : ℤ)) (hB : 0 ≤ B ∧ B ≤ (N : ℤ)) :
    lines_over (p.1 + a * (w * (A : α)), p.2 + -b * (w * (B : α))) p
        ((p.1, p.2 + -b * (w * (N : α))) ::
          spiral_pts w true a b N 1 (p.1, p.2 + -b * (w * (N : α))))
      = if A = 0 ∧ B = 0 then 0 else 1 := by
  have hnb : -b = 1 ∨ -b = -1 := by rcases hb with rfl | rfl <;> simp
  have hP : (p.1 + a * (w * ((0 : ℤ) : α)), p.2 + -b * (w * ((0 : ℤ) : α))) = p := by simp
  have hP1 : (p.1 + a * (w * ((0 : ℤ) : α)), p.2 + -b * (w * (((N : ℕ) : ℤ) : α)))
      = (p.1, p.2 + -b * (w * (N : α))) := by
    ext <;> simp
  have e1 := on_line_lattice w a (-b) p.1 p.2 hw ha hnb 0 0 0 (N : ℤ) A B
  rw [hP, hP1] at e1
  have hC : (p.1 + a * (w * (A : α)), p.2 + -b * (w * (B : α)))
      = ((p.1, p.2 + -b * (w * (N : α))).1 + a * 1 * (w * (A : α)),
          (p.1, p.2 + -b * (w * (N : α))).2 + b * 1 * (w * ((((N : ℕ) : ℤ) - B : ℤ) : α))) := by
    ext
    · simp
    · simp only [Int.cast_sub, Int.cast_natCast]; ring
  have e2 := spiral_pts_cover_x w a b hw ha hb N 1 (p.1, p.2 + -b * (w * (N : α)))
    A (((N : ℕ) : ℤ) - B) (Or.inl rfl)
  rw [← hC] at e2
  simp only [lines_over]
  rw [e2]
  by_cases h1 : on_line p (p.1, p.2 + -b * (w * (N : α)))
      (p.1 + a * (w * (A : α)), p.2 + -b * (w * (B : α))) = true
  · simp only [h1, if_true]
    rw [e1] at h1
    split_ifs <;> omega
  · simp only [h1, if_false, Bool.false_eq_true]
    rw [e1] at h1
    split_ifs <;> omega

/-- The first line of a case of the inward spiral followed by a loop that
moves Y first: started at the corner `p`, the first line runs `N` steps along
X in the direction `-b` and the loop starts along Y in the direction `a`.
The lines pass once over every point of the grid but `p`, and never over
`p`. -/
theorem spiral_first_cover_y (w a b : α) (hw : 0 < w) (ha : a = 1 ∨ a = -1)
    (hb : b = 1 ∨ b = -1) (N : Nat) (p : α × α) (A B : ℤ)
    (hA : 0 ≤ A ∧ A ≤ (N : ℤ)) (hB : 0 ≤ B ∧ B ≤ (N : ℤ)) :
    lines_over (p.1 + -b * (w * (B : α)), p.2 + a * (w * (A : α))) p
        ((p.1 + -b * (w * (N : α)), p.2) ::
          spiral_pts w false a b N 1 (p.1 + -b * (w * (N : α)), p.2))
      = if A = 0 ∧ B = 0 then 0 else 1 := by
  have h := spiral_first_cover_x w a b hw ha hb N p.swap A B hA hB
  rw [← lines_over_swap] at h
  simp only [List.map_cons, Prod.swap_swap, Prod.swap_prod_mk, Prod.fst_swap,
    Prod.snd_swap] at h
  rw [spiral_pts_swap]
  simp only [Prod.swap_prod_mk]
  exact h

theorem grid_eq_iff (w x0 : α) (hw : 0 < w) (i I : ℕ) :
    x0 + w * (i : α) = x0 + w * (I : α) ↔ i = I := by
  constructor
  · intro h
    have h1 : w * (i : α) = w * (I : α) := add_left_cancel h
    have h2 : (i : α) = (I : α) := mul_left_cancel₀ hw.ne' h1
    exact_mod_cast h2
  · rintro rfl
    rfl

/-- On a grid of `N + 1` points spaced by `w` from `x - s` to `x + s`, the
point of number `i` counted from `x - s` is a point counted from the end
`x - c * s` in the direction `c`, and it is that end exactly when its number
from there is 0. -/
theorem grid_coord (w x s : α) (hw : 0 < w) (N : Nat) (hs : w * (N : α) = 2 * s)
    (c : α) (hc : c = 1 ∨ c = -1) (i : ℕ) (hi : i ≤ N) :
    ∃ A : ℕ, A ≤ N ∧ x - c * s + c * (w * ((A : ℤ) : α)) = x - s + w * (i : α) ∧
      (x - s + w * (i : α) = x - c * s ↔ A = 0) := by
  rcases hc with rfl | rfl
  · refine ⟨i, hi, by simp only [Int.cast_natCast]; ring, ?_⟩
    rw [show x - 1 * s = x - s + w * ((0 : ℕ) : α) by simp]
    exact grid_eq_iff w _ hw i 0
  · have hiN : ((N - i : ℕ) : α) = (N : α) - (i : α) := Nat.cast_sub hi
    refine ⟨N - i, by omega, ?_, ?_⟩
    · simp only [Int.cast_natCast, hiN]
      linear_combination (-1 : α) * hs
    · rw [show x - -1 * s = x - s + w * (N : α) by rw [hs]; ring, grid_eq_iff w _ hw i N]
      omega

/-- A case of the inward spiral whose loop moves X first, on the grid of the
`(N + 1) x (N + 1)` points `(x - s + w * i, y - s + w * j)`, with
`w * N = 2 * s`: started at the corner `(x - a * s, y + b * s)`, the first
line runs along Y to the corner `(x - a * s, y - b * s)` and the loop follows.
The lines pass once over every point of the grid but the start, never over
the start, and never move away from the centre `(x, y)`. -/
theorem spiral_case_x (w a b x y s : α) (hw : 0 < w) (ha : a = 1 ∨ a = -1)
    (hb : b = 1 ∨ b = -1) (N : Nat) (hs : w * (N : α) = 2 * s) :
    (∀ i j : ℕ, i ≤ N → j ≤ N →
      lines_over (x - s + w * (i : α), y - s + w * (j : α)) (x - a * s, y + b * s)
          ((x - a * s, y - b * s) :: spiral_pts w true a b N 1 (x - a * s, y - b * s))
        = if (x - s + w * (i : α), y - s + w * (j : α)) = (x - a * s, y + b * s)
            then 0 else 1) ∧
    ring_path x y (x - a * s, y + b * s)
      ((x - a * s, y - b * s) :: spiral_pts w true a b N 1 (x - a * s, y - b * s)) := by
  have hN0 : (0 : α) ≤ (N : α) := Nat.cast_nonneg N
  have hs0 : 0 ≤ s := by nlinarith
  have hnb : -b = 1 ∨ -b = -1 := by rcases hb with rfl | rfl <;> simp
  have hQ : ((x - a * s, y + b * s).1, (x - a * s, y + b * s).2 + -b * (w * (N : α)))
      = (x - a * s, y - b * s) := by
    ext
    · rfl
    · show y + b * s + -b * (w * (N : α)) = y - b * s
      rw [hs]; ring
  have habs : ∀ c : α, c = 1 ∨ c = -1 → |c * s| = s := by
    intro c hc
    rcases hc with rfl | rfl
    · rw [one_mul, abs_of_nonneg hs0]
    · rw [neg_one_mul, abs_neg, abs_of_nonneg hs0]
  constructor
  · intro i j hi hj
    obtain ⟨A, hA, hA1, hA2⟩ := grid_coord w x s hw N hs a ha i hi
    obtain ⟨B, hB, hB1, hB2⟩ := grid_coord w y s hw N hs (-b) hnb j hj
    have hyb : y - -b * s = y + b * s := by ring
    rw [hyb] at hB1 hB2
    have key := spiral_first_cover_x w a b hw ha hb N (x - a * s, y + b * s) (A : ℤ) (B : ℤ)
      ⟨by omega, by omega⟩ ⟨by omega, by omega⟩
    rw [hQ] at key
    have hC : ((x - a * s, y + b * s).1 + a * (w * ((A : ℤ) : α)),
        (x - a * s, y + b * s).2 + -b * (w * ((B : ℤ) : α)))
        = (x - s + w * (i : α), y - s + w * (j : α)) := by
      ext
      · exact hA1
      · exact hB1
    rw [hC] at key
    rw [key]
    apply if_congr _ rfl rfl
    rw [Prod.mk.injEq, hA2, hB2]
    omega
  · simp only [ring_path]
    have e1 : |x - a * s - x| = s := by
      rw [show x - a * s - x = -(a * s) by ring, abs_neg, habs a ha]
    have e2 : |y + b * s - y| = s := by
      rw [show y + b * s - y = b * s by ring, habs b hb]
    have e3 : |y - b * s - y| = s := by
      rw [show y - b * s - y = -(b * s) by ring, abs_neg, habs b hb]
    refine ⟨?_, ?_⟩
    · rw [e1, e2, e3]
    · apply spiral_pts_ring_x w a b x y hw.le ha hb N 1 0 _ (Or.inl rfl) (Or.inl rfl)
      · show x - a * s - x = -(a * 1 * (w * (N : α) / 2 + 0))
        rw [hs]; ring
      · show y - b * s - y = -(b * 1 * (w * (N : α) / 2 + 0))
        rw [hs]; ring

/-- A case of the inward spiral whose loop moves Y first: started at the
corner `(x + b * s, y - a * s)`, the first line runs along X to the corner
`(x - b * s, y - a * s)` and the loop follows.  The lines pass once over every
point of the grid but the start, never over the start, and never move away
from the centre `(x, y)`. -/
theorem spiral_case_y (w a b x y s : α) (hw : 0 < w) (ha : a = 1 ∨ a = -1)
    (hb : b = 1 ∨ b = -1) (N : Nat) (hs : w * (N : α) = 2 * s) :
    (∀ i j : ℕ, i ≤ N → j ≤ N →
      lines_over (x - s + w * (i : α), y - s + w * (j : α)) (x + b * s, y - a * s)
          ((x - b * s, y - a * s) :: spiral_pts w false a b N 1 (x - b * s, y - a * s))
        = if (x - s + w * (i : α), y - s + w * (j : α)) = (x + b * s, y - a * s)
            then 0 else 1) ∧
    ring_path x y (x + b * s, y - a * s)
      ((x - b * s, y - a * s) :: spiral_pts w false a b N 1 (x - b * s, y - a * s)) := by
  obtain ⟨h1, h2⟩ := spiral_case_x w a b y x s hw ha hb N hs
  have hmap : List.map Prod.swap
      ((x - b * s, y - a * s) :: spiral_pts w false a b N 1 (x - b * s, y - a * s))
      = (y - a * s, x - b * s) :: spiral_pts w true a b N 1 (y - a * s, x - b * s) := by
    rw [spiral_pts_swap]
    simp only [List.map_cons, List.map_map, Prod.swap_swap_eq, List.map_id, Prod.swap_prod_mk]
  constructor
  · intro i j hi hj
    rw [← lines_over_swap (x - s + w * (i : α), y - s + w * (j : α)) _ (x + b * s, y - a * s),
      hmap]
    simp only [Prod.swap_prod_mk]
    rw [h1 j i hj hi]
    apply if_congr _ rfl rfl
    simp only [Prod.mk.injEq]
    tauto
  · rw [← ring_path_swap x y _ (x + b * s, y - a * s), hmap]
    exact h2

/-- The lines that `spiral_loop` writes: extruding lines only, to the points
of `spiral_pts`, the cursor following them. -/
theorem spiral_loop_points (m : GoozLibm α) (ps : GoozPrintSettings α) (z w : α)
    (xfirst : Bool) (a b : α) :
    ∀ (i : Nat) (k : α) (em : GoozEmitter α),
      ∃ L : List (GoozLine α),
        (spiral_loop m ps z w xfirst a b i k em).out = em.out ++ L ∧
        line_points L = spiral_pts w xfirst a b i k (em.nozzle_state.x, em.nozzle_state.y) := by
  intro i
  induction i with
  | zero => intro k em; exact ⟨[], by simp [spiral_loop], rfl⟩
  | succ i ih =>
    intro k em
    cases xfirst with
    | true =>
      obtain ⟨L1, h1, h2⟩ := ih (k * -1)
        (add_line m ps
          (add_line m ps (em.nozzle_state.x + a * (w * ((i + 1 : ℕ) : α) * k))
            em.nozzle_state.y z w em).nozzle_state.x
          ((add_line m ps (em.nozzle_state.x + a * (w * ((i + 1 : ℕ) : α) * k))
            em.nozzle_state.y z w em).nozzle_state.y + b * (w * ((i + 1 : ℕ) : α) * k)) z w
          (add_line m ps (em.nozzle_state.x + a * (w * ((i + 1 : ℕ) : α) * k))
            em.nozzle_state.y z w em))
      obtain ⟨e1, he1⟩ := add_line_out m ps (em.nozzle_state.x + a * (w * ((i + 1 : ℕ) : α) * k))
        em.nozzle_state.y z w em
      obtain ⟨e2, he2⟩ := add_line_out m ps
        (add_line m ps (em.nozzle_state.x + a * (w * ((i + 1 : ℕ) : α) * k))
          em.nozzle_state.y z w em).nozzle_state.x
        ((add_line m ps (em.nozzle_state.x + a * (w * ((i + 1 : ℕ) : α) * k))
          em.nozzle_state.y z w em).nozzle_state.y + b * (w * ((i + 1 : ℕ) : α) * k)) z w
        (add_line m ps (em.nozzle_state.x + a * (w * ((i + 1 : ℕ) : α) * k))
          em.nozzle_state.y z w em)
      refine ⟨GoozLine.line (em.nozzle_state.x + a * (w * ((i + 1 : ℕ) : α) * k))
          em.nozzle_state.y z e1 ps.print_speed ::
        GoozLine.line (em.nozzle_state.x + a * (w * ((i + 1 : ℕ) : α) * k))
          (em.nozzle_state.y + b * (w * ((i + 1 : ℕ) : α) * k)) z e2 ps.print_speed
        :: L1, ?_, ?_⟩
      · simp only [spiral_loop, if_true]
        rw [h1, he2, he1]
        simp only [List.append_assoc, List.cons_append, List.nil_append]
        rfl
      · simp only [line_points, spiral_pts, if_true]
        rw [h2]
        rfl
    | false =>
      obtain ⟨L1, h1, h2⟩ := ih (k * -1)
        (add_line m ps
          ((add_line m ps em.nozzle_state.x
            (em.nozzle_state.y + a * (w * ((i + 1 : ℕ) : α) * k)) z w em).nozzle_state.x
              + b * (w * ((i + 1 : ℕ) : α) * k))
          (add_line m ps em.nozzle_state.x
            (em.nozzle_state.y + a * (w * ((i + 1 : ℕ) : α) * k)) z w em).nozzle_state.y z w
          (add_line m ps em.nozzle_state.x
            (em.nozzle_state.y + a * (w * ((i + 1 : ℕ) : α) * k)) z w em))
      obtain ⟨e1, he1⟩ := add_line_out m ps em.nozzle_state.x
        (em.nozzle_state.y + a * (w * ((i + 1 : ℕ) : α) * k)) z w em
      obtain ⟨e2, he2⟩ := add_line_out m ps
        ((add_line m ps em.nozzle_state.x
          (em.nozzle_state.y + a * (w * ((i + 1 : ℕ) : α) * k)) z w em).nozzle_state.x
            + b * (w * ((i + 1 : ℕ) : α) * k))
        (add_line m ps em.nozzle_state.x
          (em.nozzle_state.y + a * (w * ((i + 1 : ℕ) : α) * k)) z w em).nozzle_state.y z w
        (add_line m ps em.nozzle_state.x
          (em.nozzle_state.y + a * (w * ((i + 1 : ℕ) : α) * k)) z w em)
      refine ⟨GoozLine.line em.nozzle_state.x
          (em.nozzle_state.y + a * (w * ((i + 1 : ℕ) : α) * k)) z e1 ps.print_speed ::
        GoozLine.line (em.nozzle_state.x + b * (w * ((i + 1 : ℕ) : α) * k))
          (em.nozzle_state.y + a * (w * ((i + 1 : ℕ) : α) * k)) z e2 ps.print_speed
        :: L1, ?_, ?_⟩
      · simp only [spiral_loop, Bool.false_eq_true, if_false]
        rw [h1, he2, he1]
        simp only [List.append_assoc, List.cons_append, List.nil_append]
        rfl
      · simp only [line_points, spiral_pts, Bool.false_eq_true, if_false]
        rw [h2]
        rfl

/-- The `switch` of the inward spiral, entered with the cursor on the corner
`idx` of the square of half side `s` around `(x, y)`, where
`w * (nbr_pass - 1) = 2 * s`, on the grid of the `nbr_pass x nbr_pass` points
`(x - s + w * i, y - s + w * j)`: the lines written pass once over every point
of the grid but the start corner, never over the start corner, and never move
away from the centre. -/
theorem spiral_inward_switch_cover (m : GoozLibm α) (ps : GoozPrintSettings α)
    (z w x y s : α) (n idx : Nat) (em1 : GoozEmitter α)
    (hw : 0 < w) (hn : 1 ≤ n) (hs : w * ((n - 1 : ℕ) : α) = 2 * s) (hidx : idx < 4)
    (hpx : em1.nozzle_state.x = (coord_at (square_coords x y s) idx).1)
    (hpy : em1.nozzle_state.y = (coord_at (square_coords x y s) idx).2) :
    ∀ L : List (GoozLine α), (spiral_inward_switch m ps z w n idx em1).out = em1.out ++ L →
      (∀ i j : ℕ, i < n → j < n →
        lines_over (x - s + w * (i : α), y - s + w * (j : α))
            (coord_at (square_coords x y s) idx) (line_points L)
          = if (x - s + w * (i : α), y - s + w * (j : α)) = coord_at (square_coords x y s) idx
              then 0 else 1) ∧
      ring_path x y (coord_at (square_coords x y s) idx) (line_points L) := by
  obtain ⟨c0, c1, c2, c3⟩ := coord_at_square x y s
  interval_cases idx
  · -- corner 0
    rw [c0] at hpx hpy
    simp only at hpx hpy
    obtain ⟨e0, h0⟩ := add_line_out m ps em1.nozzle_state.x (em1.nozzle_state.y + w * ((n - 1 : ℕ) : α) * 1) z w em1
    obtain ⟨L1, hL1, hP1⟩ := spiral_loop_points m ps z w true (1) (-1) (n - 1) 1
      (add_line m ps em1.nozzle_state.x (em1.nozzle_state.y + w * ((n - 1 : ℕ) : α) * 1) z w em1)
    have hout : (spiral_inward_switch m ps z w n 0 em1).out = em1.out ++
        (GoozLine.line em1.nozzle_state.x (em1.nozzle_state.y + w * ((n - 1 : ℕ) : α) * 1) z e0 ps.print_speed :: L1) := by
      show (spiral_inward_loop_0 m ps z w (n - 1) 1
        (add_line m ps em1.nozzle_state.x (em1.nozzle_state.y + w * ((n - 1 : ℕ) : α) * 1) z w em1)).out = _
      rw [spiral_inward_loop_0_eq, hL1, h0]
      simp only [List.append_assoc, List.singleton_append]
    intro L hL
    have hLeq : L = GoozLine.line em1.nozzle_state.x (em1.nozzle_state.y + w * ((n - 1 : ℕ) : α) * 1) z e0 ps.print_speed :: L1 :=
      List.append_cancel_left (hL.symm.trans hout)
    have hq : ((em1.nozzle_state.x, (em1.nozzle_state.y + w * ((n - 1 : ℕ) : α) * 1)) : α × α) = (x - 1 * s, y - -1 * s) := by
      ext
      · show em1.nozzle_state.x = _
        rw [hpx]
        ring
      · show (em1.nozzle_state.y + w * ((n - 1 : ℕ) : α) * 1) = _
        rw [hpy]
        linear_combination hs
    have hpts : line_points L = (x - 1 * s, y - -1 * s) :: spiral_pts w true (1) (-1) (n - 1) 1 (x - 1 * s, y - -1 * s) := by
      rw [hLeq]
      simp only [line_points]
      rw [hP1]
      show (em1.nozzle_state.x, (em1.nozzle_state.y + w * ((n - 1 : ℕ) : α) * 1)) :: spiral_pts w true (1) (-1) (n - 1) 1 (em1.nozzle_state.x, (em1.nozzle_state.y + w * ((n - 1 : ℕ) : α) * 1)) = _
      rw [hq]
    have hst : coord_at (square_coords x y s) 0 = (x - 1 * s, y + -1 * s) := by
      rw [c0]
      ext <;> simp [sub_eq_add_neg]
    rw [hpts, hst]
    obtain ⟨k1, k2⟩ := spiral_case_x w (1) (-1) x y s hw (Or.inl rfl) (Or.inr rfl) (n - 1) hs
    exact ⟨fun i j hi hj => k1 i j (by omega) (by omega), k2⟩
  · -- corner 1
    rw [c1] at hpx hpy
    simp only at hpx hpy
    obtain ⟨e0, h0⟩ := add_line_out m ps (em1.nozzle_state.x + w * ((n - 1 : ℕ) : α) * 1) em1.nozzle_state.y z w em1
    obtain ⟨L1, hL1, hP1⟩ := spiral_loop_points m ps z w false (-1) (-1) (n - 1) 1
      (add_line m ps (em1.nozzle_state.x + w * ((n - 1 : ℕ) : α) * 1) em1.nozzle_state.y z w em1)
    have hout : (spiral_inward_switch m ps z w n 1 em1).out = em1.out ++
        (GoozLine.line (em1.nozzle_state.x + w * ((n - 1 : ℕ) : α) * 1) em1.nozzle_state.y z e0 ps.print_speed :: L1) := by
      show (spiral_inward_loop_1 m ps z w (n - 1) 1
        (add_line m ps (em1.nozzle_state.x + w * ((n - 1 : ℕ) : α) * 1) em1.nozzle_state.y z w em1)).out = _
      rw [spiral_inward_loop_1_eq, hL1, h0]
      simp only [List.append_assoc, List.singleton_append]
    intro L hL
    have hLeq : L = GoozLine.line (em1.nozzle_state.x + w * ((n - 1 : ℕ) : α) * 1) em1.nozzle_state.y z e0 ps.print_speed :: L1 :=
      List.append_cancel_left (hL.symm.trans hout)
    have hq : (((em1.nozzle_state.x + w * ((n - 1 : ℕ) : α) * 1), em1.nozzle_state.y) : α × α) = (x - -1 * s, y - -1 * s) := by
      ext
      · show (em1.nozzle_state.x + w * ((n - 1 : ℕ) : α) * 1) = _
        rw [hpx]
        linear_combination hs
      · show em1.nozzle_state.y = _
        rw [hpy]
        ring
    have hpts : line_points L = (x - -1 * s, y - -1 * s) :: spiral_pts w false (-1) (-1) (n - 1) 1 (x - -1 * s, y - -1 * s) := by
      rw [hLeq]
      simp only [line_points]
      rw [hP1]
      show ((em1.nozzle_state.x + w * ((n - 1 : ℕ) : α) * 1), em1.nozzle_state.y) :: spiral_pts w false (-1) (-1) (n - 1) 1 ((em1.nozzle_state.x + w * ((n - 1 : ℕ) : α) * 1), em1.nozzle_state.y) = _
      rw [hq]
    have hst : coord_at (square_coords x y s) 1 = (x + -1 * s, y - -1 * s) := by
      rw [c1]
      ext <;> simp [sub_eq_add_neg]
    rw [hpts, hst]
    obtain ⟨k1, k2⟩ := spiral_case_y w (-1) (-1) x y s hw (Or.inr rfl) (Or.inr rfl) (n - 1) hs
    exact ⟨fun i j hi hj => k1 i j (by omega) (by omega), k2⟩
  · -- corner 2
    rw [c2] at hpx hpy
    simp only at hpx hpy
    obtain ⟨e0, h0⟩ := add_line_out m ps em1.nozzle_state.x (em1.nozzle_state.y - w * ((n - 1 : ℕ) : α) * 1) z w em1
    obtain ⟨L1, hL1, hP1⟩ := spiral_loop_points m ps z w true (-1) (1) (n - 1) 1
      (add_line m ps em1.nozzle_state.x (em1.nozzle_state.y - w * ((n - 1 : ℕ) : α) * 1) z w em1)
    have hout : (spiral_inward_switch m ps z w n 2 em1).out = em1.out ++
        (GoozLine.line em1.nozzle_state.x (em1.nozzle_state.y - w * ((n - 1 : ℕ) : α) * 1) z e0 ps.print_speed :: L1) := by
      show (spiral_inward_loop_2 m ps z w (n - 1) 1
        (add_line m ps em1.nozzle_state.x (em1.nozzle_state.y - w * ((n - 1 : ℕ) : α) * 1) z w em1)).out = _
      rw [spiral_inward_loop_2_eq, hL1, h0]
      simp only [List.append_assoc, List.singleton_append]
    intro L hL
    have hLeq : L = GoozLine.line em1.nozzle_state.x (em1.nozzle_state.y - w * ((n - 1 : ℕ) : α) * 1) z e0 ps.print_speed :: L1 :=
      List.append_cancel_left (hL.symm.trans hout)
    have hq : ((em1.nozzle_state.x, (em1.nozzle_state.y - w * ((n - 1 : ℕ) : α) * 1)) : α × α) = (x - -1 * s, y - 1 * s) := by
      ext
      · show em1.nozzle_state.x = _
        rw [hpx]
        ring
      · show (em1.nozzle_state.y - w * ((n - 1 : ℕ) : α) * 1) = _
        rw [hpy]
        linear_combination (-1 : α) * hs
    have hpts : line_points L = (x - -1 * s, y - 1 * s) :: spiral_pts w true (-1) (1) (n - 1) 1 (x - -1 * s, y - 1 * s) := by
      rw [hLeq]
      simp only [line_points]
      rw [hP1]
      show (em1.nozzle_state.x, (em1.nozzle_state.y - w * ((n - 1 : ℕ) : α) * 1)) :: spiral_pts w true (-1) (1) (n - 1) 1 (em1.nozzle_state.x, (em1.nozzle_state.y - w * ((n - 1 : ℕ) : α) * 1)) = _
      rw [hq]
    have hst : coord_at (square_coords x y s) 2 = (x - -1 * s, y + 1 * s) := by
      rw [c2]
      ext <;> simp [sub_eq_add_neg]
    rw [hpts, hst]
    obtain ⟨k1, k2⟩ := spiral_case_x w (-1) (1) x y s hw (Or.inr rfl) (Or.inl rfl) (n - 1) hs
    exact ⟨fun i j hi hj => k1 i j (by omega) (by omega), k2⟩
  · -- corner 3
    rw [c3] at hpx hpy
    simp only at hpx hpy
    obtain ⟨e0, h0⟩ := add_line_out m ps (em1.nozzle_state.x - w * ((n - 1 : ℕ) : α) * 1) em1.nozzle_state.y z w em1
    obtain ⟨L1, hL1, hP1⟩ := spiral_loop_points m ps z w false (1) (1) (n - 1) 1
      (add_line m ps (em1.nozzle_state.x - w * ((n - 1 : ℕ) : α) * 1) em1.nozzle_state.y z w em1)
    have hout : (spiral_inward_switch m ps z w n 3 em1).out = em1.out ++
        (GoozLine.line (em1.nozzle_state.x - w * ((n - 1 : ℕ) : α) * 1) em1.nozzle_state.y z e0 ps.print_speed :: L1) := by
      show (spiral_inward_loop_3 m ps z w (n - 1) 1
        (add_line m ps (em1.nozzle_state.x - w * ((n - 1 : ℕ) : α) * 1) em1.nozzle_state.y z w em1)).out = _
      rw [spiral_inward_loop_3_eq, hL1, h0]
      simp only [List.append_assoc, List.singleton_append]
    intro L hL
    have hLeq : L = GoozLine.line (em1.nozzle_state.x - w * ((n - 1 : ℕ) : α) * 1) em1.nozzle_state.y z e0 ps.print_speed :: L1 :=
      List.append_cancel_left (hL.symm.trans hout)
    have hq : (((em1.nozzle_state.x - w * ((n - 1 : ℕ) : α) * 1), em1.nozzle_state.y) : α × α) = (x - 1 * s, y - 1 * s) := by
      ext
      · show (em1.nozzle_state.x - w * ((n - 1 : ℕ) : α) * 1) = _
        rw [hpx]
        linear_combination (-1 : α) * hs
      · show em1.nozzle_state.y = _
        rw [hpy]
        ring
    have hpts : line_points L = (x - 1 * s, y - 1 * s) :: spiral_pts w false (1) (1) (n - 1) 1 (x - 1 * s, y - 1 * s) := by
      rw [hLeq]
      simp only [line_points]
      rw [hP1]
      show ((em1.nozzle_state.x - w * ((n - 1 : ℕ) : α) * 1), em1.nozzle_state.y) :: spiral_pts w false (1) (1) (n - 1) 1 ((em1.nozzle_state.x - w * ((n - 1 : ℕ) : α) * 1), em1.nozzle_state.y) = _
      rw [hq]
    have hst : coord_at (square_coords x y s) 3 = (x + 1 * s, y - 1 * s) := by
      rw [c3]
      ext <;> simp [sub_eq_add_neg]
    rw [hpts, hst]
    obtain ⟨k1, k2⟩ := spiral_case_y w (1) (1) x y s hw (Or.inl rfl) (Or.inl rfl) (n - 1) hs
    exact ⟨fun i j hi hj => k1 i j (by omega) (by omega), k2⟩

end SpiralCover

section InfillClaims

variable {α : Type} [LinearOrderedField α] [FloorRing α]

/-- The function `add_cube_infill_spiral_inward` is the travel to the corner
followed by the `switch`. -/
theorem add_cube_infill_spiral_inward_eq (m : GoozLibm α) (ps : GoozPrintSettings α)
    (f : GoozForm α) (em : GoozEmitter α) :
    add_cube_infill_spiral_inward m ps f em =
      spiral_inward_switch m ps
        ((f.state.cur_layer : α) * f.state.height_layer - GOOZ_OFFSET_Z)
        ((f.cube_side - 2 * ps.nozzle_diameter) /
          (compute_nbr_pass (f.cube_side - 2 * ps.nozzle_diameter) ps.nozzle_diameter : α))
        (compute_nbr_pass (f.cube_side - 2 * ps.nozzle_diameter) ps.nozzle_diameter)
        (closest_coord_idx em.nozzle_state (square_coords f.x f.y
          ((f.cube_side - 2 * ps.nozzle_diameter -
            (f.cube_side - 2 * ps.nozzle_diameter) /
              (compute_nbr_pass (f.cube_side - 2 * ps.nozzle_diameter)
                ps.nozzle_diameter : α)) / 2)))
        (add_move ps
          (coord_at (square_coords f.x f.y
            ((f.cube_side - 2 * ps.nozzle_diameter -
              (f.cube_side - 2 * ps.nozzle_diameter) /
                (compute_nbr_pass (f.cube_side - 2 * ps.nozzle_diameter)
                  ps.nozzle_diameter : α)) / 2))
            (closest_coord_idx em.nozzle_state (square_coords f.x f.y
              ((f.cube_side - 2 * ps.nozzle_diameter -
                (f.cube_side - 2 * ps.nozzle_diameter) /
                  (compute_nbr_pass (f.cube_side - 2 * ps.nozzle_diameter)
                    ps.nozzle_diameter : α)) / 2)))).1
          (coord_at (square_coords f.x f.y
            ((f.cube_side - 2 * ps.nozzle_diameter -
              (f.cube_side - 2 * ps.nozzle_diameter) /
                (compute_nbr_pass (f.cube_side - 2 * ps.nozzle_diameter)
                  ps.nozzle_diameter : α)) / 2))
            (closest_coord_idx em.nozzle_state (square_coords f.x f.y
              ((f.cube_side - 2 * ps.nozzle_diameter -
                (f.cube_side - 2 * ps.nozzle_diameter) /
                  (compute_nbr_pass (f.cube_side - 2 * ps.nozzle_diameter)
                    ps.nozzle_diameter : α)) / 2)))).2
          ((f.state.cur_layer : α) * f.state.height_layer - GOOZ_OFFSET_Z) em) := by
  rfl

/-- The inward spiral on a cube wider than two nozzle diameters, with
`n`, `w` and `s` the pass count, the width and the half side of the
outermost ring computed by the source: a travel to the corner of the
outermost ring that is nearest to the cursor, then extruding lines only, each
parallel to an axis, with every end point in the square of half side `s` and
a total length of `w * (n ^ 2 - 1)`; the cursor ends at the centre when `n`
is odd and at `w / 2` from it on both axes when `n` is even. -/
theorem infill_spiral_spec (m : GoozLibm α) (ps : GoozPrintSettings α) (f : GoozForm α)
    (em : GoozEmitter α) (side w s z : α) (n : Nat)
    (hcube : f.shape = GoozShape.cube side) (hside : side > 2 * ps.nozzle_diameter)
    (hn : n = compute_nbr_pass (side - 2 * ps.nozzle_diameter) ps.nozzle_diameter)
    (hw : w = (side - 2 * ps.nozzle_diameter) / (n : α))
    (hs : s = (side - 2 * ps.nozzle_diameter - w) / 2)
    (hz : z = (f.state.cur_layer : α) * f.state.height_layer - 1 / 10) :
    1 ≤ n ∧ 0 < w ∧ w * ((n : α) - 1) = 2 * s ∧
    ∃ (idx : Nat) (L : List (GoozLine α)), idx < 4 ∧
      (add_cube_infill_spiral_inward m ps f em).out =
        (add_move ps (coord_at (square_coords f.x f.y s) idx).1
          (coord_at (square_coords f.x f.y s) idx).2 z em).out ++ L ∧
      (∀ l, l ∈ L → ∃ (x y e : α), l = GoozLine.line x y z e ps.print_speed) ∧
      axis_path ((coord_at (square_coords f.x f.y s) idx).1,
        (coord_at (square_coords f.x f.y s) idx).2) (line_points L) ∧
      (∀ q, q ∈ line_points L → |q.1 - f.x| ≤ s ∧ |q.2 - f.y| ≤ s) ∧
      path_length ((coord_at (square_coords f.x f.y s) idx).1,
        (coord_at (square_coords f.x f.y s) idx).2) (line_points L)
        = w * ((n : α) ^ 2 - 1) ∧
      |(add_cube_infill_spiral_inward m ps f em).nozzle_state.x - f.x|
        = (if (n - 1) % 2 = 0 then 0 else w / 2) ∧
      |(add_cube_infill_spiral_inward m ps f em).nozzle_state.y - f.y|
        = (if (n - 1) % 2 = 0 then 0 else w / 2) := by
  have hside' : f.cube_side = side := by simp only [GoozForm.cube_side, hcube]
  have hn1 : 1 ≤ n := by rw [hn]; exact one_le_compute_nbr_pass _ _
  have hn0 : (0 : α) < (n : α) := by exact_mod_cast hn1
  have hspan : 0 < side - 2 * ps.nozzle_diameter := by linarith
  have hw0 : 0 < w := by rw [hw]; exact div_pos hspan hn0
  have hwn : w * (n : α) = side - 2 * ps.nozzle_diameter := by
    rw [hw]; field_simp
  have hs2 : w * ((n : α) - 1) = 2 * s := by
    rw [hs]; linear_combination hwn
  have hs2c : w * ((n - 1 : ℕ) : α) = 2 * s := by
    rw [Nat.cast_sub hn1]
    simpa using hs2
  refine ⟨hn1, hw0, hs2, ?_⟩
  have hEq := add_cube_infill_spiral_inward_eq m ps f em
  rw [hside', ← hn, ← hw, ← hs, show (GOOZ_OFFSET_Z : α) = 1 / 10 from rfl, ← hz] at hEq
  obtain ⟨h4, _, _⟩ := closest_coord_idx_four em.nozzle_state
    (f.x - s, f.y - s) (f.x - s, f.y + s) (f.x + s, f.y + s) (f.x + s, f.y - s)
  obtain ⟨L, h1, h2, h3, h5, h6, h7, h8⟩ := spiral_inward_switch_spec m ps z w f.x f.y s n
    (closest_coord_idx em.nozzle_state (square_coords f.x f.y s))
    (add_move ps
      (coord_at (square_coords f.x f.y s)
        (closest_coord_idx em.nozzle_state (square_coords f.x f.y s))).1
      (coord_at (square_coords f.x f.y s)
        (closest_coord_idx em.nozzle_state (square_coords f.x f.y s))).2 z em)
    hw0.le hn1 hs2c h4 rfl rfl
  rw [← hEq] at h1 h7 h8
  exact ⟨_, L, h4, h1, h2, h3, h5, h6, h7, h8⟩

/-- The cells of width `w` centred on the `n` grid points `x - s + w * i`
cover the interval of length `n * w` around `x`, where `s = (n * w - w) / 2`:
every point of it is within `w / 2` of a grid point. -/
theorem grid_cells_cover (w x s span : α) (n : Nat) (hw : 0 < w) (hn : 1 ≤ n)
    (hspan : w * (n : α) = span) (hs : s = (span - w) / 2) (t : α)
    (ht : |t - x| ≤ span / 2) :
    ∃ i : ℕ, i < n ∧ |t - (x - s + w * (i : α))| ≤ w / 2 := by
  rw [abs_le] at ht
  have hu0 : 0 ≤ (t - (x - span / 2)) / w := div_nonneg (by linarith [ht.1]) hw.le
  have hun : (t - (x - span / 2)) / w ≤ (n : α) := by
    rw [div_le_iff₀ hw]
    linarith [ht.2]
  have hwu : w * ((t - (x - span / 2)) / w) = t - (x - span / 2) :=
    mul_div_cancel₀ _ hw.ne'
  by_cases hfl : Nat.floor ((t - (x - span / 2)) / w) < n
  · refine ⟨Nat.floor ((t - (x - span / 2)) / w), hfl, ?_⟩
    have h1 := Nat.floor_le hu0
    have h2 := Nat.lt_floor_add_one ((t - (x - span / 2)) / w)
    rw [abs_le]
    constructor <;> nlinarith
  · push_neg at hfl
    have h1 : (n : α) ≤ (t - (x - span / 2)) / w := by
      have := Nat.floor_le hu0
      have h3 : (n : α) ≤ (Nat.floor ((t - (x - span / 2)) / w) : α) := by exact_mod_cast hfl
      linarith
    have hcast : ((n - 1 : ℕ) : α) = (n : α) - 1 := by
      rw [Nat.cast_sub hn]
      simp
    refine ⟨n - 1, by omega, ?_⟩
    rw [abs_le, hcast]
    constructor <;> nlinarith

/-- The inward spiral on a cube wider than two nozzle diameters, with `n`,
`w` and `s` the pass count, the width and the half side of the outermost ring
computed by the source, and `c` the corner of the outermost ring that
`closest_coord_idx` chooses, one at the least squared distance from the
cursor, with the lowest index among those: a travel to `c`, then extruding
lines only, each parallel to an axis, with every end point in the square of
half side `s` and a total length of `w * (n ^ 2 - 1)`; the lines pass once
over every point of the grid `(x - s + w * i, y - s + w * j)` but `c`, never
over `c`, and never move away from the centre; the cursor ends at the centre
when `n` is odd and at `w / 2` from it on both axes when `n` is even. -/
theorem infill_spiral_full (m : GoozLibm α) (ps : GoozPrintSettings α) (f : GoozForm α)
    (em : GoozEmitter α) (side w s z : α) (n : Nat)
    (hcube : f.shape = GoozShape.cube side) (hside : side > 2 * ps.nozzle_diameter)
    (hn : n = compute_nbr_pass (side - 2 * ps.nozzle_diameter) ps.nozzle_diameter)
    (hw : w = (side - 2 * ps.nozzle_diameter) / (n : α))
    (hs : s = (side - 2 * ps.nozzle_diameter - w) / 2)
    (hz : z = (f.state.cur_layer : α) * f.state.height_layer - 1 / 10) :
    1 ≤ n ∧ 0 < w ∧ w * (n : α) = side - 2 * ps.nozzle_diameter ∧
    closest_coord_idx em.nozzle_state (square_coords f.x f.y s) < 4 ∧
    (∀ j, j < 4 →
      sq_dist em.nozzle_state (coord_at (square_coords f.x f.y s)
          (closest_coord_idx em.nozzle_state (square_coords f.x f.y s)))
        ≤ sq_dist em.nozzle_state (coord_at (square_coords f.x f.y s) j)) ∧
    (∀ j, j < closest_coord_idx em.nozzle_state (square_coords f.x f.y s) →
      sq_dist em.nozzle_state (coord_at (square_coords f.x f.y s)
          (closest_coord_idx em.nozzle_state (square_coords f.x f.y s)))
        < sq_dist em.nozzle_state (coord_at (square_coords f.x f.y s) j)) ∧
    ∃ L : List (GoozLine α),
      (add_cube_infill_spiral_inward m ps f em).out =
        (add_move ps
          (coord_at (square_coords f.x f.y s)
            (closest_coord_idx em.nozzle_state (square_coords f.x f.y s))).1
          (coord_at (square_coords f.x f.y s)
            (closest_coord_idx em.nozzle_state (square_coords f.x f.y s))).2 z em).out ++ L ∧
      (∀ l, l ∈ L → ∃ (x y e : α), l = GoozLine.line x y z e ps.print_speed) ∧
      axis_path (coord_at (square_coords f.x f.y s)
        (closest_coord_idx em.nozzle_state (square_coords f.x f.y s))) (line_points L) ∧
      (∀ q, q ∈ line_points L → |q.1 - f.x| ≤ s ∧ |q.2 - f.y| ≤ s) ∧
      path_length (coord_at (square_coords f.x f.y s)
        (closest_coord_idx em.nozzle_state (square_coords f.x f.y s))) (line_points L)
        = w * ((n : α) ^ 2 - 1) ∧
      |(add_cube_infill_spiral_inward m ps f em).nozzle_state.x - f.x|
        = (if (n - 1) % 2 = 0 then 0 else w / 2) ∧
      |(add_cube_infill_spiral_inward m ps f em).nozzle_state.y - f.y|
        = (if (n - 1) % 2 = 0 then 0 else w / 2) ∧
      (∀ i j : ℕ, i < n → j < n →
        lines_over (f.x - s + w * (i : α), f.y - s + w * (j : α))
            (coord_at (square_coords f.x f.y s)
              (closest_coord_idx em.nozzle_state (square_coords f.x f.y s))) (line_points L)
          = if (f.x - s + w * (i : α), f.y - s + w * (j : α))
                = coord_at (square_coords f.x f.y s)
                    (closest_coord_idx em.nozzle_state (square_coords f.x f.y s))
              then 0 else 1) ∧
      ring_path f.x f.y (coord_at (square_coords f.x f.y s)
        (closest_coord_idx em.nozzle_state (square_coords f.x f.y s))) (line_points L) := by
  have hside' : f.cube_side = side := by simp only [GoozForm.cube_side, hcube]
  have hn1 : 1 ≤ n := by rw [hn]; exact one_le_compute_nbr_pass _ _
  have hn0 : (0 : α) < (n : α) := by exact_mod_cast hn1
  have hspan : 0 < side - 2 * ps.nozzle_diameter := by linarith
  have hw0 : 0 < w := by rw [hw]; exact div_pos hspan hn0
  have hwn : w * (n : α) = side - 2 * ps.nozzle_diameter := by
    rw [hw]; field_simp
  have hs2c : w * ((n - 1 : ℕ) : α) = 2 * s := by
    rw [Nat.cast_sub hn1, hs]
    simp only [Nat.cast_one]
    linear_combination hwn
  have hEq := add_cube_infill_spiral_inward_eq m ps f em
  rw [hside', ← hn, ← hw, ← hs, show (GOOZ_OFFSET_Z : α) = 1 / 10 from rfl, ← hz] at hEq
  obtain ⟨h4, hmin, hlow⟩ := closest_coord_idx_four em.nozzle_state
    (f.x - s, f.y - s) (f.x - s, f.y + s) (f.x + s, f.y + s) (f.x + s, f.y - s)
  obtain ⟨L, h1, h2, h3, h5, h6, h7, h8⟩ := spiral_inward_switch_spec m ps z w f.x f.y s n
    (closest_coord_idx em.nozzle_state (square_coords f.x f.y s))
    (add_move ps
      (coord_at (square_coords f.x f.y s)
        (closest_coord_idx em.nozzle_state (square_coords f.x f.y s))).1
      (coord_at (square_coords f.x f.y s)
        (closest_coord_idx em.nozzle_state (square_coords f.x f.y s))).2 z em)
    hw0.le hn1 hs2c h4 rfl rfl
  obtain ⟨h9, h10⟩ := spiral_inward_switch_cover m ps z w f.x f.y s n
    (closest_coord_idx em.nozzle_state (square_coords f.x f.y s))
    (add_move ps
      (coord_at (square_coords f.x f.y s)
        (closest_coord_idx em.nozzle_state (square_coords f.x f.y s))).1
      (coord_at (square_coords f.x f.y s)
        (closest_coord_idx em.nozzle_state (square_coords f.x f.y s))).2 z em)
    hw0 hn1 hs2c h4 rfl rfl L h1
  rw [← hEq] at h1 h7 h8
  exact ⟨hn1, hw0, hwn, h4, hmin, hlow, L, h1, h2, h3, h5, h6, h7, h8, h9, h10⟩

/-- C18: for a cube with `side > 2 * nozzle_diameter`, with
`span = side - 2 * nozzle_diameter`, `n = compute_nbr_pass span
nozzle_diameter`, `width = span / n` and `s = (span - width) / 2`,
`add_cube_infill_spiral_inward` travels to a corner `(cx, cy)` of the square
`[x - s, x + s] x [y - s, y + s]` and then writes extruding lines only, each
parallel to an axis, with every end point in that square, of lengths that sum
to `width * (n ^ 2 - 1)`.  The infill square, of side `span` around `(x, y)`,
is made of the `n x n` cells of side `width` centred on the points
`(x - s + width * i, y - s + width * j)`: the lines pass once over the centre
of every cell but the one of the start corner, and never over that one, so
every point of the infill square is within `width / 2` on both axes of the
centre of a cell that is the start cell or has a line over its centre; the
beads, `width / 2` on each side of the lines, stay in the infill square, and
their width times their length is the area of the infill square less that of
one cell. -/
theorem C18_infill_spiral_path (m : GoozLibm α) (ps : GoozPrintSettings α) (f : GoozForm α)
    (em : GoozEmitter α) (side width s : α) (n : Nat)
    (hcube : f.shape = GoozShape.cube side) (hside : side > 2 * ps.nozzle_diameter)
    (hn : n = compute_nbr_pass (side - 2 * ps.nozzle_diameter) ps.nozzle_diameter)
    (hw : width = (side - 2 * ps.nozzle_diameter) / (n : α))
    (hs : s = (side - 2 * ps.nozzle_diameter - width) / 2) :
    ∃ (cx cy : α) (L : List (GoozLine α)),
      (cx = f.x - s ∨ cx = f.x + s) ∧ (cy = f.y - s ∨ cy = f.y + s) ∧
      (add_cube_infill_spiral_inward m ps f em).out =
        (add_move ps cx cy ((f.state.cur_layer : α) * f.state.height_layer - 1 / 10) em).out
          ++ L ∧
      (∀ l, l ∈ L → ∃ (x y e : α), l = GoozLine.line x y
        ((f.state.cur_layer : α) * f.state.height_layer - 1 / 10) e ps.print_speed) ∧
      axis_path (cx, cy) (line_points L) ∧
      (∀ q, q ∈ line_points L →
        f.x - s ≤ q.1 ∧ q.1 ≤ f.x + s ∧ f.y - s ≤ q.2 ∧ q.2 ≤ f.y + s) ∧
      path_length (cx, cy) (line_points L) = width * ((n : α) ^ 2 - 1) ∧
      width * path_length (cx, cy) (line_points L)
        = (side - 2 * ps.nozzle_diameter) * (side - 2 * ps.nozzle_diameter) - width * width ∧
      (∀ i j : ℕ, i < n → j < n →
        lines_over (f.x - s + width * (i : α), f.y - s + width * (j : α)) (cx, cy)
            (line_points L)
          = if (f.x - s + width * (i : α), f.y - s + width * (j : α)) = (cx, cy)
              then 0 else 1) ∧
      (∀ P : α × α, |P.1 - f.x| ≤ (side - 2 * ps.nozzle_diameter) / 2 →
        |P.2 - f.y| ≤ (side - 2 * ps.nozzle_diameter) / 2 →
        ∃ i j : ℕ, i < n ∧ j < n ∧
          |P.1 - (f.x - s + width * (i : α))| ≤ width / 2 ∧
          |P.2 - (f.y - s + width * (j : α))| ≤ width / 2 ∧
          ((f.x - s + width * (i : α), f.y - s + width * (j : α)) = (cx, cy) ∨
            lines_over (f.x - s + width * (i : α), f.y - s + width * (j : α)) (cx, cy)
              (line_points L) = 1)) ∧
      (∀ q, q = (cx, cy) ∨ q ∈ line_points L →
        |q.1 - f.x| + width / 2 ≤ (side - 2 * ps.nozzle_diameter) / 2 ∧
        |q.2 - f.y| + width / 2 ≤ (side - 2 * ps.nozzle_diameter) / 2) := by
  obtain ⟨hn1, hw0, hwn, h4, _, _, L, h1, h2, h3, h5, h6, _, _, h9, _⟩ :=
    infill_spiral_full m ps f em side width s _ n hcube hside hn hw hs rfl
  obtain ⟨c0, c1, c2, c3⟩ := coord_at_square f.x f.y s
  have hs0 : 0 ≤ s := by
    have : (1 : α) ≤ (n : α) := by exact_mod_cast hn1
    rw [hs]
    nlinarith
  have hcorner : ∀ k, k < 4 →
      ((coord_at (square_coords f.x f.y s) k).1 = f.x - s ∨
        (coord_at (square_coords f.x f.y s) k).1 = f.x + s) ∧
      ((coord_at (square_coords f.x f.y s) k).2 = f.y - s ∨
        (coord_at (square_coords f.x f.y s) k).2 = f.y + s) := by
    intro k hk
    interval_cases k
    · rw [c0]; exact ⟨Or.inl rfl, Or.inl rfl⟩
    · rw [c1]; exact ⟨Or.inl rfl, Or.inr rfl⟩
    · rw [c2]; exact ⟨Or.inr rfl, Or.inr rfl⟩
    · rw [c3]; exact ⟨Or.inr rfl, Or.inl rfl⟩
  obtain ⟨hcx, hcy⟩ := hcorner _ h4
  have hsw : s + width / 2 = (side - 2 * ps.nozzle_diameter) / 2 := by
    rw [hs]; ring
  have harea : width * path_length (coord_at (square_coords f.x f.y s)
      (closest_coord_idx em.nozzle_state (square_coords f.x f.y s))) (line_points L)
      = (side - 2 * ps.nozzle_diameter) * (side - 2 * ps.nozzle_diameter) - width * width := by
    rw [h6, ← hwn]
    ring
  refine ⟨_, _, L, hcx, hcy, h1, h2, h3, ?_, h6, harea, h9, ?_, ?_⟩
  · intro q hq
    obtain ⟨hx, hy⟩ := h5 q hq
    rw [abs_le] at hx hy
    refine ⟨by linarith [hx.1], by linarith [hx.2], by linarith [hy.1], by linarith [hy.2]⟩
  · intro P hP1 hP2
    obtain ⟨i, hi, hi2⟩ := grid_cells_cover width f.x s _ n hw0 hn1 hwn hs P.1 hP1
    obtain ⟨j, hj, hj2⟩ := grid_cells_cover width f.y s _ n hw0 hn1 hwn hs P.2 hP2
    refine ⟨i, j, hi, hj, hi2, hj2, ?_⟩
    have h := h9 i j hi hj
    by_cases hc : (f.x - s + width * (i : α), f.y - s + width * (j : α))
        = coord_at (square_coords f.x f.y s)
            (closest_coord_idx em.nozzle_state (square_coords f.x f.y s))
    · exact Or.inl hc
    · rw [if_neg hc] at h
      exact Or.inr h
  · intro q hq
    have hbox : |q.1 - f.x| ≤ s ∧ |q.2 - f.y| ≤ s := by
      rcases hq with rfl | hq
      · constructor
        · rcases hcx with h | h
          · show |(coord_at (square_coords f.x f.y s) _).1 - f.x| ≤ s
            rw [h, show f.x - s - f.x = -s by ring, abs_neg, abs_of_nonneg hs0]
          · show |(coord_at (square_coords f.x f.y s) _).1 - f.x| ≤ s
            rw [h, show f.x + s - f.x = s by ring, abs_of_nonneg hs0]
        · rcases hcy with h | h
          · show |(coord_at (square_coords f.x f.y s) _).2 - f.y| ≤ s
            rw [h, show f.y - s - f.y = -s by ring, abs_neg, abs_of_nonneg hs0]
          · show |(coord_at (square_coords f.x f.y s) _).2 - f.y| ≤ s
            rw [h, show f.y + s - f.y = s by ring, abs_of_nonneg hs0]
      · exact h5 q hq
    constructor <;> linarith [hbox.1, hbox.2]

/-- Under a nozzle diameter of 2/5, the infill square of a cube of side 2
has side 6/5 and is planned in 3 passes. -/
theorem compute_nbr_pass_infill_example (nd : α) (h : nd = 2 / 5) :
    compute_nbr_pass ((2 : α) - 2 * nd) nd = 3 := by
  have := compute_nbr_pass_multiple (2 / 5 : α) (by norm_num) 3 (by norm_num)
  rw [h]
  norm_num at this ⊢
  exact this

/-- Witness of C18: over the reals, the first layer of a cube of side 2 at
(50, 50) under the settings of `example.c` (nozzle diameter 2/5): the infill
square has side 6/5, is filled in 3 passes of width 2/5, the lines sum to
`2/5 * (3 ^ 2 - 1)`, and exactly one line passes over the centre (50, 50) of
the middle cell. -/
theorem C18_infill_spiral_path_witness :
    (example_cube_in ℝ 2 1 10).shape = GoozShape.cube 2 ∧
    (2 : ℝ) > 2 * (example_settings_in ℝ).nozzle_diameter ∧
    3 = compute_nbr_pass ((2 : ℝ) - 2 * (example_settings_in ℝ).nozzle_diameter)
      (example_settings_in ℝ).nozzle_diameter ∧
    ∃ (cx cy : ℝ) (L : List (GoozLine ℝ)),
      (add_cube_infill_spiral_inward (GoozLibm.mk Real.pi Real.sqrt Real.cos Real.sin)
        (example_settings_in ℝ) (example_cube_in ℝ 2 1 10) GoozEmitter.init).out =
        (add_move (example_settings_in ℝ) cx cy
          (((example_cube_in ℝ 2 1 10).state.cur_layer : ℝ) *
            (example_cube_in ℝ 2 1 10).state.height_layer - 1 / 10) GoozEmitter.init).out
          ++ L ∧
      path_length (cx, cy) (line_points L) = 2 / 5 * (((3 : ℕ) : ℝ) ^ 2 - 1) ∧
      lines_over ((50 : ℝ), (50 : ℝ)) (cx, cy) (line_points L) = 1 := by
  have hnd : (example_settings_in ℝ).nozzle_diameter = 2 / 5 := rfl
  have hside : (2 : ℝ) > 2 * (example_settings_in ℝ).nozzle_diameter := by
    rw [hnd]; norm_num
  have hn : 3 = compute_nbr_pass ((2 : ℝ) - 2 * (example_settings_in ℝ).nozzle_diameter)
      (example_settings_in ℝ).nozzle_diameter :=
    (compute_nbr_pass_infill_example _ hnd).symm
  obtain ⟨cx, cy, L, hcx, _, h1, _, _, _, h6, _, h9, _, _⟩ := C18_infill_spiral_path
    (GoozLibm.mk Real.pi Real.sqrt Real.cos Real.sin) (example_settings_in ℝ)
    (example_cube_in ℝ 2 1 10) GoozEmitter.init 2 (2 / 5) (2 / 5) 3 rfl hside hn
    (by rw [hnd]; norm_num) (by rw [hnd]; norm_num)
  refine ⟨rfl, hside, hn, cx, cy, L, h1, h6, ?_⟩
  have hx : (example_cube_in ℝ 2 1 10).x = 50 := rfl
  have hy : (example_cube_in ℝ 2 1 10).y = 50 := rfl
  have h := h9 1 1 (by norm_num) (by norm_num)
  rw [hx, hy] at h
  have hc : ((50 : ℝ) - 2 / 5 + 2 / 5 * ((1 : ℕ) : ℝ), (50 : ℝ) - 2 / 5 + 2 / 5 * ((1 : ℕ) : ℝ))
      = ((50 : ℝ), (50 : ℝ)) := by
    ext <;> norm_num
  rw [hc] at h
  rw [h, if_neg]
  intro heq
  have h50 : (50 : ℝ) = cx := (Prod.mk.inj heq).1
  rw [hx] at hcx
  rcases hcx with h2 | h2 <;> rw [h2] at h50 <;> norm_num at h50

/-- C19, as the code has it: for a cube with `side > 2 * nozzle_diameter`
the inward spiral starts with a travel to the corner of the outermost infill
ring, the square `[x - s, x + s] x [y - s, y + s]`, that is nearest to the
cursor (the least squared distance, the lowest index of `coords` among the
nearest), and winds inward: the extruding lines that follow are parallel to
the axes, never move away from the centre (from a line end to the next the
larger of the distances to `(x, y)` on the two axes does not grow), and pass
once over every point `(x - s + width * i, y - s + width * j)` of the
`n x n` grid but the start corner, and never over the start corner.  The
cursor ends at the centre `(x, y)` when the pass count `n` is odd and at
`width / 2` from the centre on both axes when `n` is even; from `n = 3` on
this is strictly inside the square, not on its boundary. -/
theorem C19_infill_spiral_ends_inside (m : GoozLibm α) (ps : GoozPrintSettings α)
    (f : GoozForm α) (em : GoozEmitter α) (side width s : α) (n : Nat)
    (hcube : f.shape = GoozShape.cube side) (hside : side > 2 * ps.nozzle_diameter)
    (hn : n = compute_nbr_pass (side - 2 * ps.nozzle_diameter) ps.nozzle_diameter)
    (hw : width = (side - 2 * ps.nozzle_diameter) / (n : α))
    (hs : s = (side - 2 * ps.nozzle_diameter - width) / 2) :
    (∃ (idx : Nat) (cx cy : α) (L : List (GoozLine α)),
      idx < 4 ∧ (cx, cy) = coord_at (square_coords f.x f.y s) idx ∧
      (∀ j, j < 4 →
        sq_dist em.nozzle_state (cx, cy)
          ≤ sq_dist em.nozzle_state (coord_at (square_coords f.x f.y s) j)) ∧
      (∀ j, j < idx →
        sq_dist em.nozzle_state (cx, cy)
          < sq_dist em.nozzle_state (coord_at (square_coords f.x f.y s) j)) ∧
      (cx = f.x - s ∨ cx = f.x + s) ∧ (cy = f.y - s ∨ cy = f.y + s) ∧
      (add_cube_infill_spiral_inward m ps f em).out =
        (add_move ps cx cy ((f.state.cur_layer : α) * f.state.height_layer - 1 / 10) em).out
          ++ L ∧
      (∀ l, l ∈ L → ∃ (x y e : α), l = GoozLine.line x y
        ((f.state.cur_layer : α) * f.state.height_layer - 1 / 10) e ps.print_speed) ∧
      axis_path (cx, cy) (line_points L) ∧
      ring_path f.x f.y (cx, cy) (line_points L) ∧
      (∀ i j : ℕ, i < n → j < n →
        lines_over (f.x - s + width * (i : α), f.y - s + width * (j : α)) (cx, cy)
            (line_points L)
          = if (f.x - s + width * (i : α), f.y - s + width * (j : α)) = (cx, cy)
              then 0 else 1)) ∧
    (n % 2 = 1 →
      (add_cube_infill_spiral_inward m ps f em).nozzle_state.x = f.x ∧
      (add_cube_infill_spiral_inward m ps f em).nozzle_state.y = f.y) ∧
    (n % 2 = 0 →
      |(add_cube_infill_spiral_inward m ps f em).nozzle_state.x - f.x| = width / 2 ∧
      |(add_cube_infill_spiral_inward m ps f em).nozzle_state.y - f.y| = width / 2) ∧
    (3 ≤ n →
      |(add_cube_infill_spiral_inward m ps f em).nozzle_state.x - f.x| < s ∧
      |(add_cube_infill_spiral_inward m ps f em).nozzle_state.y - f.y| < s) := by
  obtain ⟨hn1, hw0, hwn, h4, hmin, hlow, L, h1, h2, h3, _, _, h7, h8, h9, h10⟩ :=
    infill_spiral_full m ps f em side width s _ n hcube hside hn hw hs rfl
  obtain ⟨c0, c1, c2, c3⟩ := coord_at_square f.x f.y s
  have hs2 : width * ((n : α) - 1) = 2 * s := by
    rw [hs]; linear_combination hwn
  have hcorner : ∀ k, k < 4 →
      ((coord_at (square_coords f.x f.y s) k).1 = f.x - s ∨
        (coord_at (square_coords f.x f.y s) k).1 = f.x + s) ∧
      ((coord_at (square_coords f.x f.y s) k).2 = f.y - s ∨
        (coord_at (square_coords f.x f.y s) k).2 = f.y + s) := by
    intro k hk
    interval_cases k
    · rw [c0]; exact ⟨Or.inl rfl, Or.inl rfl⟩
    · rw [c1]; exact ⟨Or.inl rfl, Or.inr rfl⟩
    · rw [c2]; exact ⟨Or.inr rfl, Or.inr rfl⟩
    · rw [c3]; exact ⟨Or.inr rfl, Or.inl rfl⟩
  obtain ⟨hcx, hcy⟩ := hcorner _ h4
  refine ⟨⟨_, _, _, L, h4, rfl, hmin, hlow, hcx, hcy, h1, h2, h3, h10, h9⟩, ?_, ?_, ?_⟩
  · intro hodd
    have h0 : (n - 1) % 2 = 0 := by omega
    rw [if_pos h0] at h7 h8
    exact ⟨by linarith [abs_eq_zero.mp h7], by linarith [abs_eq_zero.mp h8]⟩
  · intro heven
    have h0 : ¬ ((n - 1) % 2 = 0) := by omega
    rw [if_neg h0] at h7 h8
    exact ⟨h7, h8⟩
  · intro h3
    have hn3 : (3 : α) ≤ (n : α) := by exact_mod_cast h3
    have hsw : width ≤ s := by nlinarith
    have hle : (if (n - 1) % 2 = 0 then (0 : α) else width / 2) ≤ width / 2 := by
      split_ifs <;> linarith
    rw [h7, h8]
    constructor <;> linarith

/-- Witness of C19: over the reals, the cube of side 2 at (50, 50) under the
settings of `example.c`, filled in 3 passes: the cursor ends at the centre. -/
theorem C19_infill_spiral_ends_inside_witness :
    (example_cube_in ℝ 2 1 10).shape = GoozShape.cube 2 ∧
    (2 : ℝ) > 2 * (example_settings_in ℝ).nozzle_diameter ∧
    3 = compute_nbr_pass ((2 : ℝ) - 2 * (example_settings_in ℝ).nozzle_diameter)
      (example_settings_in ℝ).nozzle_diameter ∧
    (add_cube_infill_spiral_inward (GoozLibm.mk Real.pi Real.sqrt Real.cos Real.sin)
      (example_settings_in ℝ) (example_cube_in ℝ 2 1 10) GoozEmitter.init).nozzle_state.x
      = (example_cube_in ℝ 2 1 10).x := by
  have hnd : (example_settings_in ℝ).nozzle_diameter = 2 / 5 := rfl
  have hside : (2 : ℝ) > 2 * (example_settings_in ℝ).nozzle_diameter := by
    rw [hnd]; norm_num
  have hn : 3 = compute_nbr_pass ((2 : ℝ) - 2 * (example_settings_in ℝ).nozzle_diameter)
      (example_settings_in ℝ).nozzle_diameter :=
    (compute_nbr_pass_infill_example _ hnd).symm
  exact ⟨rfl, hside, hn,
    ((C19_infill_spiral_ends_inside (GoozLibm.mk Real.pi Real.sqrt Real.cos Real.sin)
      (example_settings_in ℝ) (example_cube_in ℝ 2 1 10) GoozEmitter.init 2 (2 / 5) (2 / 5) 3
      rfl hside hn (by rw [hnd]; norm_num) (by rw [hnd]; norm_num)).2.1 (by decide)).1⟩

/-- C19 as stated fails: over the reals, under the settings of `example.c`
(nozzle diameter 2/5), the infill of a cube of side 2 at (50, 50) has
`span = 6/5`, `n = 3`, `width = 2/5` and `s = 2/5`; started with the cursor at
the origin, `add_cube_infill_spiral_inward` leaves the cursor at the centre
(50, 50), which is at distance 0, not `s = 2/5`, from the centre on both
axes, so not on the boundary of the square `[49.6, 50.4] x [49.6, 50.4]`. -/
theorem C19_cursor_ends_at_centre :
    compute_nbr_pass ((2 : ℝ) - 2 * (example_settings_in ℝ).nozzle_diameter)
      (example_settings_in ℝ).nozzle_diameter = 3 ∧
    (add_cube_infill_spiral_inward (GoozLibm.mk Real.pi Real.sqrt Real.cos Real.sin)
      (example_settings_in ℝ) (example_cube_in ℝ 2 1 10) GoozEmitter.init).nozzle_state.x
      = 50 ∧
    (add_cube_infill_spiral_inward (GoozLibm.mk Real.pi Real.sqrt Real.cos Real.sin)
      (example_settings_in ℝ) (example_cube_in ℝ 2 1 10) GoozEmitter.init).nozzle_state.y
      = 50 ∧
    ¬ (|(add_cube_infill_spiral_inward (GoozLibm.mk Real.pi Real.sqrt Real.cos Real.sin)
        (example_settings_in ℝ) (example_cube_in ℝ 2 1 10)
        GoozEmitter.init).nozzle_state.x - 50| = 2 / 5 ∨
      |(add_cube_infill_spiral_inward (GoozLibm.mk Real.pi Real.sqrt Real.cos Real.sin)
        (example_settings_in ℝ) (example_cube_in ℝ 2 1 10)
        GoozEmitter.init).nozzle_state.y - 50| = 2 / 5) := by
  have hnd : (example_settings_in ℝ).nozzle_diameter = 2 / 5 := rfl
  have hside : (2 : ℝ) > 2 * (example_settings_in ℝ).nozzle_diameter := by
    rw [hnd]; norm_num
  have hn := compute_nbr_pass_infill_example (example_settings_in ℝ).nozzle_diameter hnd
  obtain ⟨_, _, _, _, _, _, _, _, _, _, _, h7, h8⟩ := infill_spiral_spec
    (GoozLibm.mk Real.pi Real.sqrt Real.cos Real.sin) (example_settings_in ℝ)
    (example_cube_in ℝ 2 1 10) GoozEmitter.init 2 (2 / 5) (2 / 5) _ 3 rfl hside hn.symm
    (by rw [hnd]; norm_num) (by rw [hnd]; norm_num) rfl
  simp only [Nat.add_one_sub_one, Nat.reduceMod, Nat.reduceSub, if_true] at h7 h8
  have hx := abs_eq_zero.mp h7
  have hy := abs_eq_zero.mp h8
  have hx50 : (add_cube_infill_spiral_inward (GoozLibm.mk Real.pi Real.sqrt Real.cos Real.sin)
      (example_settings_in ℝ) (example_cube_in ℝ 2 1 10) GoozEmitter.init).nozzle_state.x
      = 50 := by
    have : (example_cube_in ℝ 2 1 10).x = 50 := rfl
    linarith
  have hy50 : (add_cube_infill_spiral_inward (GoozLibm.mk Real.pi Real.sqrt Real.cos Real.sin)
      (example_settings_in ℝ) (example_cube_in ℝ 2 1 10) GoozEmitter.init).nozzle_state.y
      = 50 := by
    have : (example_cube_in ℝ 2 1 10).y = 50 := rfl
    linarith
  refine ⟨hn, hx50, hy50, ?_⟩
  rw [hx50, hy50]
  norm_num

end InfillClaims

/-! ## The state of the scheduler when the outer loop ends -/

section SchedFinal

variable {α : Type} [LinearOrderedField α]

/-- The outer loop, run for `c + 1` rounds from the start of round `l`,
returns in the end-of-round invariant of round `l + c`. -/
theorem sched_layers_inv_last (ps : GoozPrintSettings α) (n : Nat) (rand : Nat → Nat)
    (c l : Nat) (s : GoozSched α) (hs : SchedSafe ps n s)
    (hinv : SchedInv n l s.nbr_active_forms s) :
    ∃ s1, sched_layers rand (c + 1) l s = some s1 ∧ SchedSafe ps n s1 ∧
      SchedInv n (l + c) 0 s1 ∧
      s1.st.forms.map (fun f => f.at_layer 0) = s.st.forms.map (fun f => f.at_layer 0) := by
  induction c generalizing s l with
  | zero =>
    obtain ⟨s1, h1, hs1, hinv1, hf1⟩ := sched_round_from_inv ps n rand l _ s hs hinv
    exact ⟨s1, by simp only [sched_layers, sched_round, h1], hs1, hinv1, hf1⟩
  | succ c ih =>
    obtain ⟨s1, h1, hs1, hinv1, hf1⟩ := sched_round_from_inv ps n rand l _ s hs hinv
    obtain ⟨s2, h2, hs2, hinv2, hf2⟩ := ih (l + 1) s1 hs1 (sched_inv_next n l s1 hinv1)
    refine ⟨s2, ?_, hs2, ?_, by rw [hf2, hf1]⟩
    · rw [← h2]
      simp only [sched_layers, sched_round, h1]
    · rw [show l + (c + 1) = l + 1 + c by omega]
      exact hinv2

omit [LinearOrderedField α] in
/-- The registry after the run holds in slot `k` the shape it held before,
up to its layer cursor. -/
theorem frame_getElem? (forms forms1 : List (GoozForm α)) (k : Nat) (f f1 : GoozForm α)
    (hfr : forms1.map (fun g => g.at_layer 0) = forms.map (fun g => g.at_layer 0))
    (hf : forms[k]? = some f) (hf1 : forms1[k]? = some f1) :
    f1.at_layer 0 = f.at_layer 0 := by
  have := congrArg (fun L => L[k]?) hfr
  simp only [List.getElem?_map, hf1, hf, Option.map_some', Option.some.injEq] at this
  exact this

/-- The state of the scheduler when the outer loop ends, on a fresh
well-formed registry: the shapes still in the active set are those whose
`tot_layer` is `max_nbr_layers`, and their cursor is `tot_layer`; the cursor
of every other shape is `tot_layer + 1`. -/
theorem sched_final_spec (ps : GoozPrintSettings α) (st : GoozState α) (hwf : st.WF ps)
    (hfresh : st.fresh) (rand : Nat → Nat) :
    ∃ s, sched_layers rand (max_nbr_layers st) 1 (sched_init st) = some s ∧
      SchedSafe ps st.nbr_forms s ∧
      s.st.forms.map (fun f => f.at_layer 0) = st.forms.map (fun f => f.at_layer 0) ∧
      ∀ (k : Nat) (f f1 : GoozForm α), k < st.nbr_forms → st.forms[k]? = some f →
        s.st.forms[k]? = some f1 →
        f1.state.tot_layer = f.state.tot_layer ∧
        ((∃ j, j < s.nbr_active_forms ∧ s.active_idxs[j]? = some k) →
          f.state.tot_layer = max_nbr_layers st ∧ f1.state.cur_layer = f.state.tot_layer) ∧
        ((∀ j, j < s.nbr_active_forms → s.active_idxs[j]? ≠ some k) →
          f.state.tot_layer < max_nbr_layers st ∧
          f1.state.cur_layer = f.state.tot_layer + 1) := by
  have hmem : ∀ (k : Nat) (f : GoozForm α), k < st.nbr_forms → st.forms[k]? = some f →
      f ∈ st.stored := by
    intro k f hk hf
    rw [List.mem_iff_getElem?]
    refine ⟨k, ?_⟩
    simp only [GoozState.stored, List.getElem?_take]
    rw [if_pos hk]
    exact hf
  rcases Nat.eq_zero_or_pos (max_nbr_layers st) with h0 | hpos
  · -- no round at all
    rw [h0]
    refine ⟨sched_init st, rfl, sched_init_safe ps st hwf, rfl, ?_⟩
    intro k f f1 hk hf hf1
    have hff : f1 = f := by
      have : (sched_init st).st.forms[k]? = st.forms[k]? := rfl
      rw [this, hf] at hf1
      exact (Option.some.inj hf1).symm
    subst hff
    have hle := tot_layer_le_max st f1 (hmem k f1 hk hf)
    have hc := hfresh f1 (hmem k f1 hk hf)
    refine ⟨rfl, fun _ => ⟨by omega, by omega⟩, ?_⟩
    intro hnot
    exact absurd (by simp only [sched_init, getElem?_range_zero, hk, if_true])
      (hnot k hk)
  · obtain ⟨c, hc⟩ : ∃ c, max_nbr_layers st = c + 1 := ⟨max_nbr_layers st - 1, by omega⟩
    obtain ⟨s, h1, hs, hinv, hfr⟩ := sched_layers_inv_last ps st.nbr_forms rand c 1
      (sched_init st) (sched_init_safe ps st hwf) (sched_init_inv st hfresh)
    rw [hc]
    refine ⟨s, h1, hs, hfr, ?_⟩
    intro k f f1 hk hf hf1
    have hsame := frame_getElem? st.forms s.st.forms k f f1 hfr hf hf1
    have htot : f1.state.tot_layer = f.state.tot_layer :=
      congrArg (fun g => g.state.tot_layer) hsame
    have hle := tot_layer_le_max st f (hmem k f hk hf)
    refine ⟨htot, ?_, ?_⟩
    · rintro ⟨j, hj, hjk⟩
      have := hinv.done j k f1 (Nat.zero_le _) hj hjk hf1
      omega
    · intro hnot
      have := hinv.gone k f1 hk hnot hf1
      omega

omit [LinearOrderedField α] in
theorem foldl_max_attained (L : List (GoozForm α)) (m : Nat) :
    L.foldl (fun m f => if f.state.tot_layer > m then f.state.tot_layer else m) m = m ∨
    ∃ f, f ∈ L ∧
      f.state.tot_layer
        = L.foldl (fun m f => if f.state.tot_layer > m then f.state.tot_layer else m) m := by
  induction L generalizing m with
  | nil => left; rfl
  | cons g L ih =>
    simp only [List.foldl_cons, List.mem_cons]
    rcases ih (if g.state.tot_layer > m then g.state.tot_layer else m) with h | ⟨f, hf, hfe⟩
    · rw [h]
      split_ifs with hg
      · right; exact ⟨g, Or.inl rfl, rfl⟩
      · left; rfl
    · right; exact ⟨f, Or.inr hf, hfe⟩

/-- In a registry whose shapes all have at least one layer, some shape has
`max_nbr_layers` layers, unless the registry is empty. -/
theorem max_nbr_layers_attained (ps : GoozPrintSettings α) (st : GoozState α)
    (hwf : st.WF ps) (hn : 0 < st.nbr_forms) :
    ∃ (k : Nat) (f : GoozForm α), k < st.nbr_forms ∧ st.forms[k]? = some f ∧
      f.state.tot_layer = max_nbr_layers st := by
  have hl := stored_length st hwf.len hwf.le
  have hget : ∀ f, f ∈ st.stored → ∃ k, k < st.nbr_forms ∧ st.forms[k]? = some f := by
    intro f hf
    obtain ⟨k, hk⟩ := List.mem_iff_getElem?.mp hf
    have hkl : k < st.nbr_forms := by
      have := (List.getElem?_eq_some.mp hk).1
      omega
    refine ⟨k, hkl, ?_⟩
    simp only [GoozState.stored, List.getElem?_take, hkl, if_true] at hk
    exact hk
  rcases foldl_max_attained st.stored 0 with h | ⟨f, hf, hfe⟩
  · -- the maximum would be 0, but every stored shape has a layer
    obtain ⟨g, hg⟩ : ∃ g, st.stored[0]? = some g :=
      ⟨st.stored[0], List.getElem?_eq_getElem (by omega)⟩
    have hgm : g ∈ st.stored := List.mem_iff_getElem?.mpr ⟨0, hg⟩
    have h1 := (hwf.tiled g hgm).1
    have h2 := tot_layer_le_max st g hgm
    have h3 : max_nbr_layers st = 0 := h
    omega
  · obtain ⟨k, hk, hkf⟩ := hget f hf
    exact ⟨k, f, hk, hkf, hfe⟩

omit [LinearOrderedField α] in
/-- Running one more round: the rounds `l .. l + c` are the rounds
`l .. l + c - 1` followed by round `l + c`. -/
theorem sched_layers_succ (rand : Nat → Nat) (c l : Nat) (s : GoozSched α) :
    sched_layers rand (c + 1) l s
      = (sched_layers rand c l s).bind (sched_round rand (l + c)) := by
  induction c generalizing l s with
  | zero =>
    simp only [sched_layers, Nat.add_zero, Option.some_bind]
    cases h : sched_round rand l s <;> rfl
  | succ c ih =>
    have h1 : sched_layers rand (c + 1 + 1) l s
        = (sched_round rand l s).bind (sched_layers rand (c + 1) (l + 1)) := by
      rw [sched_layers]
      cases sched_round rand l s <;> rfl
    have h2 : sched_layers rand (c + 1) l s
        = (sched_round rand l s).bind (sched_layers rand c (l + 1)) := by
      rw [sched_layers]
      cases sched_round rand l s <;> rfl
    rw [h1, h2]
    cases sched_round rand l s with
    | none => rfl
    | some s1 =>
      simp only [Option.some_bind]
      rw [ih (l + 1) s1, show l + (c + 1) = l + 1 + c by omega]

end SchedFinal

/-! ## The claims about the end of the run -/

section FinalClaims

variable {α : Type} [LinearOrderedField α] [FloorRing α]

omit [LinearOrderedField α] [FloorRing α] in
theorem at_layer_of_frame (f f1 : GoozForm α) (h : f1.at_layer 0 = f.at_layer 0) :
    f1 = f.at_layer f1.state.cur_layer := by
  have h1 : f1 = (f1.at_layer 0).at_layer f1.state.cur_layer := rfl
  rw [h] at h1
  exact h1

/-- The two shapes of `example_registry`: the cube in slot 0 has 50 layers,
the cylinder in slot 1 has 15, and neither has received a layer. -/
theorem example_registry_shapes :
    example_registry.nbr_forms = 2 ∧
    (∃ f : GoozForm ℚ, example_registry.forms[0]? = some f ∧ f.state.tot_layer = 50 ∧
      f.state.cur_layer = 0) ∧
    (∃ f : GoozForm ℚ, example_registry.forms[1]? = some f ∧ f.state.tot_layer = 15 ∧
      f.state.cur_layer = 0) := by
  have hc1 : check_within_build example_settings (50 : ℚ) 50 (10 / 2) 10 = true := by
    rw [check_within_build_eq_true_iff]
    norm_num [example_settings]
  have hc2 : check_within_build example_settings (100 : ℚ) 100 5 3 = true := by
    rw [check_within_build_eq_true_iff]
    norm_num [example_settings]
  have h1 := gooz_add_cube_success example_settings true GoozState.init 50 50 10
    (wf_init example_settings) (Or.inr ⟨hc1, Or.inl rfl⟩)
  have h2 := gooz_add_cylinder_success example_settings true
    (gooz_add_cube example_settings true GoozState.init 50 50 10).2 100 100 5 3
    (wf_add_cube example_settings true GoozState.init 50 50 10 (wf_init example_settings))
    (Or.inr ⟨hc2, Or.inl rfl⟩)
  have hlh : example_settings.layer_height = (0.2 : ℚ) := by norm_num [example_settings]
  have hn1 : (gooz_add_cube example_settings true GoozState.init 50 50 10).2.nbr_forms = 1 :=
    h1.2.1
  refine ⟨example_registry_nbr_forms, ⟨_, example_registry_cube, ?_, rfl⟩, ?_⟩
  · exact compute_nbr_pass_ten _ hlh
  · have h3 := h2.2.2.2
    rw [hn1] at h3
    exact ⟨_, h3, compute_nbr_pass_three _ hlh, rfl⟩

omit [FloorRing α] in
/-- The run of `gooz_generate_gcode` on a fresh well-formed registry, with
the cursors it leaves. -/
theorem generate_final_cursors (ps : GoozPrintSettings α) (st : GoozState α)
    (hwf : st.WF ps) (hfresh : st.fresh) (rand : Nat → Nat) :
    ∃ st1 out, gooz_generate_gcode rand st = some (st1, out) ∧
      ∀ (k : Nat) (f : GoozForm α), k < st.nbr_forms → st.forms[k]? = some f →
        f.state.tot_layer ≤ max_nbr_layers st ∧
        (f.state.tot_layer = max_nbr_layers st →
          st1.forms[k]? = some (f.at_layer f.state.tot_layer)) ∧
        (f.state.tot_layer < max_nbr_layers st →
          st1.forms[k]? = some (f.at_layer (f.state.tot_layer + 1))) := by
  obtain ⟨s, h1, hs, hfr, hfin⟩ := sched_final_spec ps st hwf hfresh rand
  refine ⟨s.st, s.out ++ [GoozOut.emit_shutdown], by simp only [gooz_generate_gcode, h1], ?_⟩
  intro k f hk hf
  have hkl : k < s.st.forms.length := by
    have := hs.wf.len
    have := hs.wf.le
    have := hs.nbr
    omega
  obtain ⟨f1, hf1⟩ : ∃ f1, s.st.forms[k]? = some f1 :=
    ⟨s.st.forms[k], List.getElem?_eq_getElem hkl⟩
  have hsame := frame_getElem? st.forms s.st.forms k f f1 hfr hf hf1
  have hform := at_layer_of_frame f f1 hsame
  obtain ⟨_, hact, hgone⟩ := hfin k f f1 hk hf hf1
  have hle : f.state.tot_layer ≤ max_nbr_layers st := by
    apply tot_layer_le_max
    rw [List.mem_iff_getElem?]
    refine ⟨k, ?_⟩
    simp only [GoozState.stored, List.getElem?_take]
    rw [if_pos hk]
    exact hf
  by_cases ha : ∃ j, j < s.nbr_active_forms ∧ s.active_idxs[j]? = some k
  · obtain ⟨hmax, hcur⟩ := hact ha
    refine ⟨hle, fun _ => ?_, fun hlt => ?_⟩
    · rw [hf1, hform, hcur]
    · omega
  · push_neg at ha
    obtain ⟨hlt, hcur⟩ := hgone ha
    refine ⟨hle, fun hmax => ?_, fun _ => ?_⟩
    · omega
    · rw [hf1, hform, hcur]

/-- C15, as the code has it: on a registry of freshly registered shapes
`gooz_generate_gcode` runs to its end, whatever the random draws; a shape
whose `tot_layer` is the largest of the registry (`max_nbr_layers`) ends with
`cur_layer = tot_layer`, and a shape with fewer layers ends with
`cur_layer = tot_layer + 1`: the visit that retires it advances its cursor
once more.  No other field of a shape changes. -/
theorem C15_final_cursors (ps : GoozPrintSettings α) (st : GoozState α)
    (hreg : Registered ps st) (rand : Nat → Nat) :
    ∃ st1 out, gooz_generate_gcode rand st = some (st1, out) ∧
      ∀ (k : Nat) (f : GoozForm α), k < st.nbr_forms → st.forms[k]? = some f →
        f.state.tot_layer ≤ max_nbr_layers st ∧
        (f.state.tot_layer = max_nbr_layers st →
          st1.forms[k]? = some (f.at_layer f.state.tot_layer)) ∧
        (f.state.tot_layer < max_nbr_layers st →
          st1.forms[k]? = some (f.at_layer (f.state.tot_layer + 1))) := by
  obtain ⟨hwf, hfresh⟩ := registered_wf_fresh ps st hreg
  exact generate_final_cursors ps st hwf hfresh rand

/-- Witness of C15: the run on `example_registry` with `rand()` returning 0
at every call. -/
theorem C15_final_cursors_witness :
    Registered example_settings example_registry ∧
    ∃ st1 out, gooz_generate_gcode (fun _ => 0) example_registry = some (st1, out) ∧
      ∀ (k : Nat) (f : GoozForm ℚ), k < example_registry.nbr_forms →
        example_registry.forms[k]? = some f →
        f.state.tot_layer ≤ max_nbr_layers example_registry :=
  ⟨example_registry_registered,
    (C15_final_cursors example_settings example_registry example_registry_registered
      (fun _ => 0)).imp
      (fun _ h => h.imp (fun _ h2 => ⟨h2.1, fun k f hk hf => (h2.2 k f hk hf).1⟩))⟩

/-- C15 as stated fails: `example_registry` holds a cube of 50 layers and a
cylinder of 15 layers, freshly registered; after `gooz_generate_gcode`, with
`rand()` returning 0 at every call, the cylinder in slot 1 has
`tot_layer = 15` and `cur_layer = 16`. -/
theorem C15_cursor_overshoots :
    ∃ st1 out, gooz_generate_gcode (fun _ => 0) example_registry = some (st1, out) ∧
      ∃ f : GoozForm ℚ, st1.forms[1]? = some f ∧ f.state.tot_layer = 15 ∧
        f.state.cur_layer = 16 := by
  obtain ⟨hwf, hfresh⟩ := registered_wf_fresh example_settings example_registry
    example_registry_registered
  obtain ⟨hn, ⟨f0, hf0, ht0, _⟩, ⟨f1, hf1, ht1, _⟩⟩ := example_registry_shapes
  obtain ⟨st1, out, hE, hfin⟩ := generate_final_cursors example_settings example_registry
    hwf hfresh (fun _ => 0)
  have h0 := (hfin 0 f0 (by omega) hf0).1
  have h1 := (hfin 1 f1 (by omega) hf1).2.2 (by omega)
  exact ⟨st1, out, hE, _, h1, ht1, by show f1.state.tot_layer + 1 = 16; omega⟩

/-- C16, as the code has it: during `gooz_generate_gcode` on a registry of
freshly registered shapes `nbr_active_forms` never increases from one round
to the next; when the outer loop ends, after `max_nbr_layers` rounds, the
active set holds exactly the shapes whose `tot_layer` is `max_nbr_layers`, so
on a registry that is not empty `nbr_active_forms` is not zero: the loop
ends on its counter `l`. -/
theorem C16_active_count (ps : GoozPrintSettings α) (st : GoozState α)
    (hreg : Registered ps st) (rand : Nat → Nat) :
    (∀ c : Nat, ∃ s s1, sched_layers rand c 1 (sched_init st) = some s ∧
      sched_layers rand (c + 1) 1 (sched_init st) = some s1 ∧
      s1.nbr_active_forms ≤ s.nbr_active_forms) ∧
    ∃ s, sched_layers rand (max_nbr_layers st) 1 (sched_init st) = some s ∧
      (∀ (k : Nat) (f : GoozForm α), k < st.nbr_forms → st.forms[k]? = some f →
        ((∃ j, j < s.nbr_active_forms ∧ s.active_idxs[j]? = some k) ↔
          f.state.tot_layer = max_nbr_layers st)) ∧
      (0 < st.nbr_forms → 0 < s.nbr_active_forms) := by
  obtain ⟨hwf, hfresh⟩ := registered_wf_fresh ps st hreg
  constructor
  · intro c
    obtain ⟨s, h1, hs, _, _⟩ := sched_layers_safe ps st.nbr_forms rand c 1 (sched_init st)
      (sched_init_safe ps st hwf)
    obtain ⟨s1, h2, _, hm, _⟩ := sched_round_from_safe ps st.nbr_forms rand (1 + c)
      s.nbr_active_forms s hs le_rfl
    refine ⟨s, s1, h1, ?_, hm⟩
    rw [sched_layers_succ, h1]
    exact h2
  · obtain ⟨s, h1, hs, hfr, hfin⟩ := sched_final_spec ps st hwf hfresh rand
    have hiff : ∀ (k : Nat) (f : GoozForm α), k < st.nbr_forms → st.forms[k]? = some f →
        ((∃ j, j < s.nbr_active_forms ∧ s.active_idxs[j]? = some k) ↔
          f.state.tot_layer = max_nbr_layers st) := by
      intro k f hk hf
      have hkl : k < s.st.forms.length := by
        have := hs.wf.len
        have := hs.wf.le
        have := hs.nbr
        omega
      obtain ⟨f1, hf1⟩ : ∃ f1, s.st.forms[k]? = some f1 :=
        ⟨s.st.forms[k], List.getElem?_eq_getElem hkl⟩
      obtain ⟨_, hact, hgone⟩ := hfin k f f1 hk hf hf1
      constructor
      · intro ha
        exact (hact ha).1
      · intro hmax
        by_contra ha
        push_neg at ha
        have := (hgone ha).1
        omega
    refine ⟨s, h1, hiff, ?_⟩
    intro hn
    obtain ⟨k, f, hk, hf, hmax⟩ := max_nbr_layers_attained ps st hwf hn
    obtain ⟨j, hj, _⟩ := (hiff k f hk hf).mpr hmax
    omega

/-- Witness of C16: the run on `example_registry` with `rand()` returning 0
at every call. -/
theorem C16_active_count_witness :
    Registered example_settings example_registry ∧
    ∀ c : Nat, ∃ s s1,
      sched_layers (fun _ => 0) c 1 (sched_init example_registry) = some s ∧
      sched_layers (fun _ => 0) (c + 1) 1 (sched_init example_registry) = some s1 ∧
      s1.nbr_active_forms ≤ s.nbr_active_forms :=
  ⟨example_registry_registered,
    (C16_active_count example_settings example_registry example_registry_registered
      (fun _ => 0)).1⟩

/-- C16 as stated fails: on `example_registry` (a cube of 50 layers and a
cylinder of 15 layers), with `rand()` returning 0 at every call, the outer
loop ends after its 50 rounds with `nbr_active_forms` different from 0: the
cube is still in the active set. -/
theorem C16_active_not_zero :
    ∃ s, sched_layers (fun _ => 0) (max_nbr_layers example_registry) 1
        (sched_init example_registry) = some s ∧
      s.nbr_active_forms ≠ 0 := by
  obtain ⟨hwf, hfresh⟩ := registered_wf_fresh example_settings example_registry
    example_registry_registered
  obtain ⟨s, h1, hs, hfr, hfin⟩ := sched_final_spec example_settings example_registry
    hwf hfresh (fun _ => 0)
  refine ⟨s, h1, ?_⟩
  have hn : 0 < example_registry.nbr_forms := by
    rw [example_registry_nbr_forms]; decide
  obtain ⟨k, f, hk, hf, hmax⟩ := max_nbr_layers_attained example_settings example_registry
    hwf hn
  have hkl : k < s.st.forms.length := by
    have := hs.wf.len
    have := hs.wf.le
    have := hs.nbr
    omega
  obtain ⟨f1, hf1⟩ : ∃ f1, s.st.forms[k]? = some f1 :=
    ⟨s.st.forms[k], List.getElem?_eq_getElem hkl⟩
  obtain ⟨_, _, hgone⟩ := hfin k f f1 hk hf hf1
  intro h0
  have := (hgone (fun j hj => by omega)).1
  omega

end FinalClaims

/-! ## Key lookups during generation -/

section LookupLemmas

variable {α : Type} [LinearOrderedField α]

/-- The lookup made by an iteration of the inner loop entered in a safe
state at an active index: the key read from `active_idxs` is a slot number,
the slot holds a shape with that key, `get_form_idx` returns that slot, and
the iteration returns. -/
theorem sched_lookup_of_safe (ps : GoozPrintSettings α) (n : Nat) (rand : Nat → Nat)
    (l i : Nat) (s : GoozSched α) (hs : SchedSafe ps n s) (hi : i < s.nbr_active_forms) :
    ∃ key, sched_lookup_key rand i s = some key ∧ key < n ∧
      get_form_idx s.st key = some key ∧
      (∃ f, s.st.forms[key]? = some f ∧ f.state.idx_key = key) ∧
      sched_visit rand l i s ≠ none := by
  obtain ⟨temp, key, last, cur, htemp, hkey, hkn, hcur, hswap, _, hE⟩ :=
    sched_visit_spec ps n rand l i s hs hi
  have hk : key < s.st.nbr_forms := by rw [hs.nbr]; exact hkn
  refine ⟨key, ?_, hkn, get_form_idx_of_wf ps s.st hs.wf key hk, ⟨cur, hcur, ?_⟩, ?_⟩
  · simp only [sched_lookup_key, htemp, hkey]
    exact hswap
  · apply hs.wf.key key cur
    simp only [GoozState.stored, List.getElem?_take, hk, if_true, hcur]
  · rw [hE]
    exact Option.some_ne_none _

/-- Every iteration of the inner loop entered from a safe state is entered
in a safe state, at an active index, in the round of the loop. -/
theorem sched_round_from_visits_safe (ps : GoozPrintSettings α) (n : Nat) (rand : Nat → Nat)
    (l cnt : Nat) (s : GoozSched α) (hs : SchedSafe ps n s) (hcnt : cnt ≤ s.nbr_active_forms)
    (l1 i : Nat) (s1 : GoozSched α)
    (hv : (l1, i, s1) ∈ sched_round_from_visits rand l cnt s) :
    SchedSafe ps n s1 ∧ i < s1.nbr_active_forms ∧ l1 = l := by
  induction cnt generalizing s with
  | zero => simp [sched_round_from_visits] at hv
  | succ c ih =>
    obtain ⟨s2, h2, hs2, hi2, _, _⟩ := sched_visit_safe ps n rand l c s hs (by omega)
    simp only [sched_round_from_visits, h2, List.mem_cons, Prod.mk.injEq] at hv
    rcases hv with ⟨rfl, rfl, rfl⟩ | hv
    · exact ⟨hs, by omega, rfl⟩
    · exact ih s2 hs2 hi2 hv

/-- Every iteration of the inner loop entered during the outer loop started
in a safe state is entered in a safe state, at an active index. -/
theorem sched_layers_visits_safe (ps : GoozPrintSettings α) (n : Nat) (rand : Nat → Nat)
    (cnt l : Nat) (s : GoozSched α) (hs : SchedSafe ps n s)
    (l1 i : Nat) (s1 : GoozSched α)
    (hv : (l1, i, s1) ∈ sched_layers_visits rand cnt l s) :
    SchedSafe ps n s1 ∧ i < s1.nbr_active_forms := by
  induction cnt generalizing s l with
  | zero => simp [sched_layers_visits] at hv
  | succ c ih =>
    obtain ⟨s2, h2, hs2, _, _⟩ := sched_round_from_safe ps n rand l _ s hs le_rfl
    have h2r : sched_round rand l s = some s2 := h2
    simp only [sched_layers_visits, h2r, List.mem_append] at hv
    rcases hv with hv | hv
    · obtain ⟨h1, h3, _⟩ := sched_round_from_visits_safe ps n rand l _ s hs le_rfl l1 i s1 hv
      exact ⟨h1, h3⟩
    · exact ih (l + 1) s2 hs2 hv

/-- The inner loop makes one call of `rand()` in each of its iterations. -/
theorem sched_round_from_visits_length (ps : GoozPrintSettings α) (n : Nat) (rand : Nat → Nat)
    (l cnt : Nat) (s : GoozSched α) (hs : SchedSafe ps n s) (hcnt : cnt ≤ s.nbr_active_forms) :
    ∃ s1, sched_round_from rand l cnt s = some s1 ∧
      s1.rand_calls = s.rand_calls + (sched_round_from_visits rand l cnt s).length ∧
      (sched_round_from_visits rand l cnt s).length = cnt := by
  induction cnt generalizing s with
  | zero => exact ⟨s, rfl, rfl, rfl⟩
  | succ c ih =>
    obtain ⟨s2, h2, hs2, hi2, _, _⟩ := sched_visit_safe ps n rand l c s hs (by omega)
    have hr : s2.rand_calls = s.rand_calls + 1 := by
      obtain ⟨_, _, _, _, _, _, _, _, _, _, hE⟩ := sched_visit_spec ps n rand l c s hs (by omega)
      rw [hE] at h2
      simp only [Option.some.injEq] at h2
      rw [← h2]
      split_ifs <;> rfl
    obtain ⟨s3, h3, hr3, hl3⟩ := ih s2 hs2 hi2
    refine ⟨s3, ?_, ?_, ?_⟩
    · simp only [sched_round_from, h2, h3]
    · simp only [sched_round_from_visits, h2, List.length_cons]
      omega
    · simp only [sched_round_from_visits, h2, List.length_cons, hl3]

/-- The iterations listed by `sched_layers_visits` are all the iterations of
the run: the outer loop returns, and the number of calls of `rand()` it has
made is the number of iterations listed. -/
theorem sched_layers_visits_length (ps : GoozPrintSettings α) (n : Nat) (rand : Nat → Nat)
    (cnt l : Nat) (s : GoozSched α) (hs : SchedSafe ps n s) :
    ∃ s1, sched_layers rand cnt l s = some s1 ∧
      s1.rand_calls = s.rand_calls + (sched_layers_visits rand cnt l s).length := by
  induction cnt generalizing s l with
  | zero => exact ⟨s, rfl, rfl⟩
  | succ c ih =>
    obtain ⟨s2, h2, hs2, _, _⟩ := sched_round_from_safe ps n rand l _ s hs le_rfl
    obtain ⟨s2b, h2b, hr2, _⟩ := sched_round_from_visits_length ps n rand l _ s hs le_rfl
    rw [h2] at h2b
    simp only [Option.some.injEq] at h2b
    subst h2b
    have h2r : sched_round rand l s = some s2 := h2
    obtain ⟨s3, h3, hr3⟩ := ih (l + 1) s2 hs2
    refine ⟨s3, ?_, ?_⟩
    · simp only [sched_layers, h2r, h3]
    · simp only [sched_layers_visits, h2r, List.length_append]
      omega

/-- On a well-formed registry that is not empty the first iteration of the
run is the one of round 1 at the last entry of `active_idxs`. -/
theorem generate_visits_head (ps : GoozPrintSettings α) (rand : Nat → Nat)
    (st : GoozState α) (hwf : st.WF ps) (hn : 0 < st.nbr_forms) :
    (generate_visits rand st).head? = some (1, st.nbr_forms - 1, sched_init st) := by
  obtain ⟨k, f, hk, hf, hmax⟩ := max_nbr_layers_attained ps st hwf hn
  have hmem : f ∈ st.stored := by
    rw [List.mem_iff_getElem?]
    exact ⟨k, by simp only [GoozState.stored, List.getElem?_take, hk, if_true, hf]⟩
  have h1 := (hwf.tiled f hmem).1
  obtain ⟨m, hm⟩ : ∃ m, max_nbr_layers st = m + 1 := ⟨max_nbr_layers st - 1, by omega⟩
  obtain ⟨c, hc⟩ : ∃ c, st.nbr_forms = c + 1 := ⟨st.nbr_forms - 1, by omega⟩
  have hna : (sched_init st).nbr_active_forms = c + 1 := hc
  simp only [generate_visits, hm, sched_layers_visits, hna, sched_round_from_visits, hc,
    List.cons_append, List.head?_cons, Nat.add_sub_cancel]

end LookupLemmas

section LookupClaims

variable {α : Type} [LinearOrderedField α] [FloorRing α]

/-- C21: in a registry reachable from the empty one by registrations (also
with `gooz_free` and `gooz_generate_gcode` in between), the shape stored at
index `i` has `idx_key = i` for every `i < nbr_forms`; the keys of the stored
shapes are pairwise distinct; and `get_form_idx(k)` returns the slot `k` for
every `k < nbr_forms`.  For every sequence of random draws
`gooz_generate_gcode` runs to its end, the iterations listed by
`generate_visits` are all its iterations (one call of `rand()` each), and in
every one of them the entry of `active_idxs` passed to `get_form_idx` is read
within the buffer, is smaller than `nbr_forms`, and `get_form_idx` returns the
slot of that number, which holds the shape with that key: the NULL branch is
never taken. -/
theorem C21_key_lookup_never_fails (ps : GoozPrintSettings α) (st : GoozState α)
    (hst : Reachable ps st) :
    (∀ i : Nat, i < st.nbr_forms → ∃ f, st.forms[i]? = some f ∧ f.state.idx_key = i) ∧
    (∀ (i j : Nat) (f g : GoozForm α), st.stored[i]? = some f → st.stored[j]? = some g →
      f.state.idx_key = g.state.idx_key → i = j) ∧
    (∀ k : Nat, k < st.nbr_forms → get_form_idx st k = some k) ∧
    ∀ rand : Nat → Nat,
      gooz_generate_gcode rand st ≠ none ∧
      (∃ s, sched_layers rand (max_nbr_layers st) 1 (sched_init st) = some s ∧
        s.rand_calls = (generate_visits rand st).length) ∧
      (0 < st.nbr_forms →
        (generate_visits rand st).head? = some (1, st.nbr_forms - 1, sched_init st)) ∧
      ∀ (l i : Nat) (s : GoozSched α), (l, i, s) ∈ generate_visits rand st →
        s.st.nbr_forms = st.nbr_forms ∧
        ∃ key, sched_lookup_key rand i s = some key ∧ key < st.nbr_forms ∧
          get_form_idx s.st key = some key ∧
          (∃ f, s.st.forms[key]? = some f ∧ f.state.idx_key = key) ∧
          sched_visit rand l i s ≠ none := by
  have hwf := reachable_wf ps st hst
  have hlen := hwf.len
  have hle := hwf.le
  refine ⟨?_, ?_, fun k hk => get_form_idx_of_wf ps st hwf k hk, fun rand => ⟨?_, ?_, ?_, ?_⟩⟩
  · intro i hi
    have hil : i < st.forms.length := by omega
    refine ⟨st.forms[i], List.getElem?_eq_getElem hil, ?_⟩
    apply hwf.key i
    simp only [GoozState.stored, List.getElem?_take, hi, if_true]
    exact List.getElem?_eq_getElem hil
  · intro i j f g hf hg hfg
    have h1 := hwf.key i f hf
    have h2 := hwf.key j g hg
    omega
  · obtain ⟨st1, out, h, _⟩ := gooz_generate_gcode_total ps rand st hwf
    rw [h]
    exact Option.some_ne_none _
  · obtain ⟨s, h1, h2⟩ := sched_layers_visits_length ps st.nbr_forms rand (max_nbr_layers st) 1
      (sched_init st) (sched_init_safe ps st hwf)
    refine ⟨s, h1, ?_⟩
    rw [h2]
    simp [sched_init, generate_visits]
  · exact generate_visits_head ps rand st hwf
  · intro l i s hv
    obtain ⟨hs, hi⟩ := sched_layers_visits_safe ps st.nbr_forms rand (max_nbr_layers st) 1
      (sched_init st) (sched_init_safe ps st hwf) l i s hv
    exact ⟨hs.nbr, sched_lookup_of_safe ps st.nbr_forms rand l i s hs hi⟩

/-- Witness of C21: `example_registry`, the cube and the cylinder of
`example.c`; both keys resolve to their slots, and the first lookup of the
run with `rand()` returning 0 at every call is made in round 1 at the entry 1
of `active_idxs`. -/
theorem C21_key_lookup_never_fails_witness :
    Reachable example_settings example_registry ∧
    get_form_idx example_registry 0 = some 0 ∧
    get_form_idx example_registry 1 = some 1 ∧
    (generate_visits (fun _ => 0) example_registry).head? =
      some (1, 1, sched_init example_registry) ∧
    ∀ (l i : Nat) (s : GoozSched ℚ),
      (l, i, s) ∈ generate_visits (fun _ => 0) example_registry →
      ∃ key, sched_lookup_key (fun _ => 0) i s = some key ∧ key < 2 ∧
        get_form_idx s.st key = some key := by
  have hr := registered_reachable _ _ example_registry_registered
  have h := C21_key_lookup_never_fails example_settings example_registry hr
  have hn := example_registry_nbr_forms
  refine ⟨hr, h.2.2.1 0 (by omega), h.2.2.1 1 (by omega), ?_, ?_⟩
  · have := (h.2.2.2 (fun _ => 0)).2.2.1 (by omega)
    rw [hn] at this
    exact this
  · intro l i s hv
    obtain ⟨_, key, h1, h2, h3, _⟩ := (h.2.2.2 (fun _ => 0)).2.2.2 l i s hv
    exact ⟨key, h1, by omega, h3⟩

end LookupClaims

end Gooz
